import Mathlib

/-!
Verification development for the quicly QUIC transport endpoint library
(src/lib/quicly.c, src/include/quicly.h).

The definitions below are a shallow embedding of the C source.  Functions of
`lib/quicly.c` are translated one-for-one.  The repository's support modules
(`lib/ranges.c`, `lib/sendbuf.c`, `lib/recvbuf.c`, `lib/maxsender.*`,
`lib/ack.*`, `lib/frame.*`, `quicly/error.h`) and the external picotls TLS
provider are not under src/; wherever one of their functions is needed it is
modelled from the specification, and the corresponding definition carries a
doc comment starting with "Modelled from the spec:".  Host callbacks
(`on_update`, `on_stream_open`) and cryptographic outcomes (AEAD decryption,
TLS handshake results) are injected as oracle parameters, since they are
external collaborators.

Machine integers are modelled as `Nat` with explicit reductions modulo `2^32`
where the source relies on `uint32_t` wrap-around.  C functions returning an
`int` error code are modelled as returning `Option Err` (`none` = `0`).
-/

namespace Quicly

/-- Maximum value of a 64-bit unsigned, used by the source as the "unset"
sentinel for end-of-stream offsets (`UINT64_MAX`). -/
def U64MAX : Nat := 2 ^ 64 - 1

/-- Error kinds returned by the library.  Modelled from the spec:
`quicly/error.h` is not under src/; section 7 of the spec lists the taxonomy
(`invalid-packet-header`, ..., `tbd`), and `quicly.c` additionally uses the
picotls codes for no-memory, in-progress, decode errors and illegal
parameters. -/
inductive Err where
  | invalidPacketHeader
  | invalidFrameData
  | invalidStreamData
  | decryptionFailure
  | packetIgnored
  | versionNegotiationMismatch
  | flowControlError
  | handshakeTooLarge
  | finClosed
  | tooManyOpenStreams
  | freeConnection
  | noMemory
  | tbd
  | ptlsInProgress
  | ptlsDecodeError
  | ptlsAlertIllegalParameter
  deriving DecidableEq, Repr

/-- Modelled from the spec: `lib/ranges.c` is not under src/.  Spec section 3:
a range set is an ordered sequence of non-overlapping, non-adjacent half-open
intervals; section 4.2: `quicly_ranges_update` adds `[s,e)` merging with any
touching or overlapping interval (adjacency at the boundary counts). -/
def rangesUpdate : List (Nat × Nat) → Nat → Nat → List (Nat × Nat)
  | [], s, e => [(s, e)]
  | (a, b) :: rest, s, e =>
    if e < a then (s, e) :: (a, b) :: rest
    else if b < s then (a, b) :: rangesUpdate rest s e
    else rangesUpdate rest (min a s) (max b e)

/-- Membership of a point in a range set. -/
def rangesContains (rs : List (Nat × Nat)) (n : Nat) : Bool :=
  rs.any fun r => r.1 ≤ n && n < r.2

/-- Modelled from the spec: `quicly_ranges_clear` empties the set. -/
def rangesClear : List (Nat × Nat) := []

/-- Modelled from the spec: the MaxSender controller (`quicly/maxsender.h` is
not under src/).  Spec section 4.5 names the tracked fields `max_committed`,
`max_inflight`, `max_acked`. -/
structure Maxsender where
  maxCommitted : Nat
  maxInflight : Nat
  maxAcked : Nat
  deriving DecidableEq, Repr

/-- Modelled from the spec: `quicly_maxsender_init` starts every tracked
value at the initially advertised limit. -/
def Maxsender.init (v : Nat) : Maxsender := ⟨v, v, v⟩

/-- Modelled from the spec, section 4.5: `should_update(current_consumed,
window, min_delta)` returns true iff `current_consumed + window -
max_inflight >= min_delta`. -/
def Maxsender.shouldUpdate (m : Maxsender) (consumed window minDelta : Nat) : Bool :=
  m.maxInflight + minDelta ≤ consumed + window

/-- Modelled from the spec: `record(new_value, token)` notes an in-flight
advertisement; the token is the advertised value. -/
def Maxsender.record (m : Maxsender) (v : Nat) : Maxsender :=
  { m with maxInflight := v }

/-- Modelled from the spec: `acked(token)` settles an advertisement as
committed. -/
def Maxsender.onAcked (m : Maxsender) (v : Nat) : Maxsender :=
  { m with maxCommitted := v, maxAcked := v }

/-- Modelled from the spec: `lost(token)` settles an advertisement as lost,
falling back to the last acked value. -/
def Maxsender.onLost (m : Maxsender) (_v : Nat) : Maxsender :=
  { m with maxInflight := m.maxAcked }

/-- Transport parameters (quicly.h, `st_quicly_transport_parameters_t`). -/
structure TransportParams where
  initialMaxStreamData : Nat
  initialMaxDataKb : Nat
  initialMaxStreamId : Nat
  idleTimeout : Nat
  truncateConnectionId : Bool
  deriving DecidableEq, Repr

/-- quicly.c line 134: `transport_params_before_handshake = {8192, 16, 100, 60, 0}`. -/
def transport_params_before_handshake : TransportParams :=
  ⟨8192, 16, 100, 60, false⟩

/-- Context configuration (quicly.h, `st_quicly_context_t`); the callback
members are external and modelled as oracles where needed. -/
structure Context where
  maxPacketSize : Nat
  initialRto : Nat
  transportParams : TransportParams
  deriving DecidableEq, Repr

/-- Connection state enumeration (quicly.h `quicly_state_t`). -/
inductive QState where
  | beforeSH
  | beforeSF
  | oneRttEncrypted
  deriving DecidableEq, Repr

/-- Numeric order of the state enumeration, used by the source's comparison
`conn->super.state < QUICLY_STATE_1RTT_ENCRYPTED`. -/
def QState.toNat : QState → Nat
  | .beforeSH => 0
  | .beforeSF => 1
  | .oneRttEncrypted => 2

/-- Packet-protection state (quicly.c `st_quicly_packet_protection_t`).  The
AEAD contexts are external picotls objects; the model tracks only their
presence (`some ()` = non-NULL pointer). -/
structure PacketProtection where
  packetNumber : Nat
  aeadEarlyData : Option Unit
  aeadKeyPhase0 : Option Unit
  aeadKeyPhase1 : Option Unit
  deriving DecidableEq, Repr

/-- A fresh zero-initialised packet-protection record (create_connection
does `memset(conn, 0, sizeof(*conn))`). -/
def PacketProtection.initial : PacketProtection := ⟨0, none, none, none⟩

/-- Sender states (quicly.h `quicly_sender_state_t`). -/
inductive SenderState where
  | stateNone
  | stateSend
  | stateUnacked
  | stateAcked
  deriving DecidableEq, Repr

/-- A `{sender_state, reason}` pair as used for stop_sending and rst. -/
structure SenderPair where
  senderState : SenderState
  reason : Nat
  deriving DecidableEq, Repr

/-- Modelled from the spec: the per-stream send buffer (`lib/sendbuf.c` is
not under src/).  Spec section 3 and 4.3: bytes live at absolute offsets
`[data_off, data_off + len)`, `eos` is `UINT64_MAX` until closed, `pending`
is a range set of offsets needing (re)transmission, and acked offsets are
tracked.  Byte contents are not tracked (no claim depends on them). -/
structure Sendbuf where
  dataOff : Nat
  len : Nat
  eos : Nat
  pending : List (Nat × Nat)
  ackedRanges : List (Nat × Nat)
  deriving DecidableEq, Repr

/-- Modelled from the spec: `quicly_sendbuf_init` yields an empty buffer with
the EOS sentinel unset. -/
def Sendbuf.init : Sendbuf := ⟨0, 0, U64MAX, [], []⟩

/-- Modelled from the spec, section 4.3: `shutdown()` sets `eos` to the
current end of the written data. -/
def Sendbuf.shutdown (b : Sendbuf) : Sendbuf :=
  { b with eos := b.dataOff + b.len }

/-- Modelled from the spec, section 4.3: `acked(range)` marks a range of
offsets as delivered.  (The head-dropping of contiguously acked bytes only
affects the untracked byte storage.) -/
def Sendbuf.onAcked (b : Sendbuf) (s e : Nat) : Sendbuf :=
  { b with ackedRanges := rangesUpdate b.ackedRanges s e }

/-- Modelled from the spec, section 4.3: `lost(range)` re-adds the range to
`pending`. -/
def Sendbuf.onLost (b : Sendbuf) (s e : Nat) : Sendbuf :=
  { b with pending := rangesUpdate b.pending s e }

/-- Modelled from the spec: `quicly_sendbuf_transfer_complete` — the send
side is complete once every offset up to and including the virtual EOS byte
has been acked (section 4.3: an EOS consumes one virtual byte of offset). -/
def Sendbuf.transferComplete (b : Sendbuf) : Bool :=
  b.eos ≠ U64MAX &&
    (match b.ackedRanges.head? with
     | some (s, e) => s = 0 && b.eos + 1 ≤ e
     | none => false)

/-- Modelled from the spec: the per-stream receive buffer (`lib/recvbuf.c`
is not under src/).  Spec sections 3 and 4.4: `received` is a range set over
absolute offsets with `received.ranges[0].start = 0` initially, `data_off`
counts consumed bytes, `eos` uses the `UINT64_MAX` sentinel, and `bufLen`
models `data.len`, the number of bytes currently buffered. -/
structure Recvbuf where
  received : List (Nat × Nat)
  dataOff : Nat
  eos : Nat
  bufLen : Nat
  deriving DecidableEq, Repr

/-- Modelled from the spec: `quicly_recvbuf_init` starts with the single
empty range `[0,0)`. -/
def Recvbuf.init : Recvbuf := ⟨[(0, 0)], 0, U64MAX, 0⟩

/-- End of the first received range (`received.ranges[0].end`), the
contiguous high-water mark. -/
def Recvbuf.firstEnd (b : Recvbuf) : Nat :=
  match b.received.head? with
  | some r => r.2
  | none => 0

/-- End of the last received range
(`received.ranges[received.num_ranges - 1].end`), the received high-water
mark. -/
def Recvbuf.lastEnd (b : Recvbuf) : Nat :=
  match b.received.getLast? with
  | some r => r.2
  | none => 0

/-- Modelled from the spec, section 4.4: `mark_eos(off)` sets `eos = off`;
it must not conflict with already received bytes nor with a previously
recorded final offset. -/
def Recvbuf.markEos (b : Recvbuf) (off : Nat) : Recvbuf × Option Err :=
  if off < b.lastEnd then (b, some Err.tbd)
  else if b.eos = U64MAX then ({ b with eos := off }, none)
  else if off = b.eos then (b, none)
  else (b, some Err.tbd)

/-- Modelled from the spec, section 4.4: `write(off, bytes)` merges a range
into `received`; writing past a recorded EOS fails (`fin-closed`). -/
def Recvbuf.write (b : Recvbuf) (off len : Nat) : Recvbuf × Option Err :=
  if len = 0 then (b, none)
  else if b.eos < off + len then (b, some Err.finClosed)
  else
    ({ b with received := rangesUpdate b.received off (off + len),
              bufLen := b.bufLen + len }, none)

/-- Modelled from the spec: `quicly_recvbuf_transfer_complete` — the receive
side is complete once all bytes up to the recorded EOS have been consumed. -/
def Recvbuf.transferComplete (b : Recvbuf) : Bool :=
  b.eos ≠ U64MAX && b.eos ≤ b.dataOff

/-- Ghost provenance tag: how a stream came into existence.  The C stream
has no such field (provenance is operational); the tag records which code
path called `open_stream` and does not influence any behaviour. -/
inductive StreamOrigin where
  | crypto
  | local
  | peer
  deriving DecidableEq, Repr

/-- The per-stream record (quicly.h `st_quicly_stream_t`).  `rstReason`
models `_recv_aux.rst_reason`; its initial value is the `QUICLY_ERROR_FIN_CLOSED`
sentinel (error.h is not under src/), modelled as `none`. -/
structure Stream where
  streamId : Nat
  sendbuf : Sendbuf
  recvbuf : Recvbuf
  maxStreamData : Nat
  maxSent : Nat
  stopSending : SenderPair
  rst : SenderPair
  maxStreamDataSender : Maxsender
  window : Nat
  rstReason : Option Nat
  closeCalled : Bool
  origin : StreamOrigin
  deriving DecidableEq, Repr

/-- An ack-book entry's kind-specific payload.  Spec section 9 prescribes a
tagged variant in place of the C callback pointer + union
(`lib/ack.h` is not under src/): the stream-state-sender variant identifies
which sender abstractly rather than by byte offset. -/
inductive AckData where
  | streamData (streamId : Nat) (argsStart argsEnd : Nat)
  | maxStreamData (streamId : Nat) (args : Nat)
  | maxData (args : Nat)
  | stateSenderStopSending (streamId : Nat)
  | stateSenderRst (streamId : Nat)
  deriving DecidableEq, Repr

/-- An ack-book entry (spec section 3, "Ack Entry"). -/
structure AckEntry where
  packetNumber : Nat
  sentAt : Int
  data : AckData
  deriving DecidableEq, Repr

/-- The connection record (quicly.c `st_quicly_conn_t` together with its
public part from quicly.h).  `streams` models the khash table as an
association list; `createdAsClient` is a ghost copy of the client/server
role fixed at construction (the source derives the role from
`host.next_stream_id % 2`, see `quicly_is_client`). -/
structure Conn where
  ctx : Context
  connectionId : Nat
  state : QState
  hostNumStreams : Nat
  hostNextStreamId : Nat
  peerNumStreams : Nat
  peerNextStreamId : Nat
  peerTransportParams : TransportParams
  streams : List Stream
  ingressPP : PacketProtection
  ackQueue : List (Nat × Nat)
  bytesConsumed : Nat
  ingressMaxDataSender : Maxsender
  egressPP : PacketProtection
  acks : List AckEntry
  packetNumber : Nat
  maxDataPermitted : Nat
  maxDataSent : Nat
  acksRequireEncryption : Bool
  createdAsClient : Bool
  deriving DecidableEq, Repr

/-- quicly.h `quicly_is_client`: the role is derived from the parity of
`host.next_stream_id`. -/
def Conn.isClient (c : Conn) : Bool := c.hostNextStreamId % 2 ≠ 0

/-- quicly.c `quicly_get_stream`: hashtable lookup by stream id. -/
def Conn.getStream (c : Conn) (streamId : Nat) : Option Stream :=
  c.streams.find? fun st => st.streamId = streamId

/-- Replace the stored copy of a stream (the C code mutates the stream in
place through its pointer). -/
def Conn.setStream (c : Conn) (st : Stream) : Conn :=
  { c with streams := c.streams.map fun s => if s.streamId = st.streamId then st else s }

/-- quicly.c `open_stream`: allocate a stream with its initial field values
(lines 277-310) and insert it into the table.  Allocation failure
(`malloc`) is external and not modelled. -/
def open_stream (c : Conn) (streamId : Nat) (orig : StreamOrigin) : Conn × Stream :=
  let st : Stream :=
    { streamId := streamId
      sendbuf := Sendbuf.init
      recvbuf := Recvbuf.init
      maxStreamData := c.peerTransportParams.initialMaxStreamData
      maxSent := 0
      stopSending := ⟨SenderState.stateNone, 0⟩
      rst := ⟨SenderState.stateNone, 0⟩
      maxStreamDataSender := Maxsender.init c.ctx.transportParams.initialMaxStreamData
      window := c.ctx.transportParams.initialMaxStreamData
      rstReason := none
      closeCalled := false
      origin := orig }
  ({ c with streams := c.streams ++ [st] }, st)

/-- quicly.c `destroy_stream` (lines 312-331): remove the stream from the
table and decrement the per-side stream counter (the crypto stream is
counted on neither side). -/
def destroy_stream (c : Conn) (st : Stream) : Conn :=
  let c := { c with streams := c.streams.filter fun s => s.streamId ≠ st.streamId }
  if st.streamId ≠ 0 then
    if (if c.isClient then 1 else 0) = st.streamId % 2 then
      { c with hostNumStreams := c.hostNumStreams - 1 }
    else
      { c with peerNumStreams := c.peerNumStreams - 1 }
  else c

/-- quicly.c `destroy_stream_if_unneeded` (lines 333-344). -/
def destroy_stream_if_unneeded (c : Conn) (st : Stream) : Conn × Bool :=
  if ¬st.closeCalled then (c, false)
  else if ¬(st.sendbuf.transferComplete || st.rst.senderState = SenderState.stateAcked) then (c, false)
  else if ¬st.recvbuf.transferComplete then (c, false)
  else (destroy_stream c st, true)

/-- Outcome of the external picotls calls made by `setup_1rtt_secret`:
whether `ptls_export_secret` succeeds and whether `ptls_aead_new` returns a
context. -/
structure SecretSetupOutcome where
  exportErr : Option Err
  aeadOk : Bool
  deriving DecidableEq, Repr

/-- quicly.c `setup_1rtt_secret` (lines 371-381): export the 1-RTT secret
and create the AEAD context, storing it in `aead.key_phase0`; either
external step may fail. -/
def setup_1rtt_secret (pp : PacketProtection) (o : SecretSetupOutcome) :
    PacketProtection × Option Err :=
  match o.exportErr with
  | some e => (pp, some e)
  | none =>
    if o.aeadOk then ({ pp with aeadKeyPhase0 := some () }, none)
    else (pp, some Err.noMemory)

/-- quicly.c `setup_1rtt` (lines 383-397): set up the ingress and egress
1-RTT secrets and, if both succeed, advance the state to
`QUICLY_STATE_1RTT_ENCRYPTED`.  The `Exit:` label falls through to
`return 0`, discarding `ret`. -/
def setup_1rtt (c : Conn) (oIngress oEgress : SecretSetupOutcome) : Conn × Option Err :=
  let r1 := setup_1rtt_secret c.ingressPP oIngress
  let c := { c with ingressPP := r1.1 }
  match r1.2 with
  | some _ => (c, none)
  | none =>
    let r2 := setup_1rtt_secret c.egressPP oEgress
    let c := { c with egressPP := r2.1 }
    match r2.2 with
    | some _ => (c, none)
    | none => ({ c with state := QState.oneRttEncrypted }, none)

/-- Result of the external `ptls_handshake` loop inside
`crypto_stream_receive_handshake`. -/
inductive HsRet where
  | ok
  | inProgress
  | err (e : Err)
  deriving DecidableEq, Repr

/-- quicly.c `crypto_stream_receive_handshake`, the `switch (ret)` tail
(lines 430-448): on handshake success below 1-RTT state, convert the peer's
`initial_max_data_kb` to the permitted egress window and install the 1-RTT
keys; on `PTLS_ERROR_IN_PROGRESS` advance `before_sh` to `before_sf` and
report success.  The `ptls_handshake` read loop itself is external
(picotls) and summarised by `hsRet`. -/
def crypto_stream_post_handshake (c : Conn) (hsRet : HsRet)
    (oIngress oEgress : SecretSetupOutcome) : Conn × Option Err :=
  match hsRet with
  | .ok =>
    if c.state.toNat < QState.oneRttEncrypted.toNat then
      let c := { c with maxDataPermitted := c.peerTransportParams.initialMaxDataKb * 1024 }
      setup_1rtt c oIngress oEgress
    else (c, none)
  | .inProgress =>
    let c := if c.state = QState.beforeSH then { c with state := QState.beforeSF } else c
    (c, none)
  | .err e => (c, some e)

/-- A secret-setup outcome that represents a failure of either external
step. -/
def SecretSetupOutcome.fails (o : SecretSetupOutcome) : Bool :=
  o.exportErr.isSome || !o.aeadOk

/-- quicly.c `on_ack_stream` (lines 885-906): on ack, mark the offset range
as delivered and destroy the stream if unneeded; on loss, re-add the range
to `pending`.  (`quicly_sendbuf_acked` / `quicly_sendbuf_lost` live in the
absent `lib/sendbuf.c` and are spec-modelled; in the model they cannot
fail, so the callback returns no error.) -/
def on_ack_stream (c : Conn) (acked : Bool) (sid s e : Nat) : Conn :=
  match c.getStream sid with
  | none => c
  | some st =>
    if acked then
      let st := { st with sendbuf := st.sendbuf.onAcked s e }
      let c := c.setStream st
      (destroy_stream_if_unneeded c st).1
    else
      c.setStream { st with sendbuf := st.sendbuf.onLost s e }

/-- quicly.c `on_ack_max_stream_data` (lines 908-922). -/
def on_ack_max_stream_data (c : Conn) (acked : Bool) (sid v : Nat) : Conn :=
  match c.getStream sid with
  | none => c
  | some st =>
    let ms := if acked then st.maxStreamDataSender.onAcked v else st.maxStreamDataSender.onLost v
    c.setStream { st with maxStreamDataSender := ms }

/-- quicly.c `on_ack_max_data` (lines 924-933). -/
def on_ack_max_data (c : Conn) (acked : Bool) (v : Nat) : Conn :=
  if acked then { c with ingressMaxDataSender := c.ingressMaxDataSender.onAcked v }
  else { c with ingressMaxDataSender := c.ingressMaxDataSender.onLost v }

/-- quicly.c `on_ack_stream_state_sender` (lines 935-951): set the addressed
sender state to ACKED (destroying the stream if unneeded) or back to SEND.
The C code addresses the sender by byte offset; per spec section 9 the
model identifies it by tag. -/
def on_ack_stream_state_sender (c : Conn) (acked : Bool) (sid : Nat) (isRst : Bool) : Conn :=
  match c.getStream sid with
  | none => c
  | some st =>
    let newState := if acked then SenderState.stateAcked else SenderState.stateSend
    let st :=
      if isRst then { st with rst := { st.rst with senderState := newState } }
      else { st with stopSending := { st.stopSending with senderState := newState } }
    let c := c.setStream st
    if acked then (destroy_stream_if_unneeded c st).1 else c

/-- Dispatch of an ack-book entry's callback (`ack->acked(conn, acked, ack)`),
selecting by the entry's tagged payload. -/
def applyAck (c : Conn) (acked : Bool) (en : AckEntry) : Conn :=
  match en.data with
  | .streamData sid s e => on_ack_stream c acked sid s e
  | .maxStreamData sid v => on_ack_max_stream_data c acked sid v
  | .maxData v => on_ack_max_data c acked v
  | .stateSenderStopSending sid => on_ack_stream_state_sender c acked sid false
  | .stateSenderRst sid => on_ack_stream_state_sender c acked sid true

/-- The iteration of quicly.c `handle_timeouts` (lines 1263-1279): walk the
ack book from the oldest entry, and while `sent_at` is not later than
`sent_before`, invoke the callback with `acked = 0` and release the entry;
stop at the first later entry.  Returns the final connection, the remaining
book, and the list of entries whose callback was invoked. -/
def timeoutsGo (sentBefore : Int) (c : Conn) : List AckEntry → Conn × List AckEntry × List AckEntry
  | [] => (c, [], [])
  | e :: rest =>
    if sentBefore < e.sentAt then (c, e :: rest, [])
    else
      let r := timeoutsGo sentBefore (applyAck c false e) rest
      (r.1, r.2.1, e :: r.2.2)

/-- quicly.c `handle_timeouts` (lines 1263-1279) with
`sent_before = now - conn->super.ctx->initial_rto`.  The second component
is the list of entries declared lost (callback invoked with `acked=false`
and released), in visiting order. -/
def handle_timeouts (c : Conn) (now : Int) : Conn × List AckEntry :=
  let r := timeoutsGo (now - (c.ctx.initialRto : Int)) c c.acks
  ({ r.1 with acks := r.2.1 }, r.2.2)

/-- quicly.c `create_connection` (lines 612-668): zero-initialised
connection, peer transport parameters set to the pre-handshake defaults,
the crypto stream opened as stream 0, and the stream-id counters seeded by
role (`server_name != NULL` means client: host 1 / peer 2; server: host 2 /
peer 1).  External failures (malloc, ptls_new) are not modelled. -/
def create_connection (ctx : Context) (isClient : Bool) : Conn :=
  let c : Conn :=
    { ctx := ctx
      connectionId := 0
      state := QState.beforeSH
      hostNumStreams := 0
      hostNextStreamId := 0
      peerNumStreams := 0
      peerNextStreamId := 0
      peerTransportParams := transport_params_before_handshake
      streams := []
      ingressPP := PacketProtection.initial
      ackQueue := []
      bytesConsumed := 0
      ingressMaxDataSender := Maxsender.init ctx.transportParams.initialMaxDataKb
      egressPP := PacketProtection.initial
      acks := []
      packetNumber := 0
      maxDataPermitted := 0
      maxDataSent := 0
      acksRequireEncryption := false
      createdAsClient := isClient }
  let c := (open_stream c 0 StreamOrigin.crypto).1
  if isClient then { c with hostNextStreamId := 1, peerNextStreamId := 2 }
  else { c with hostNextStreamId := 2, peerNextStreamId := 1 }

/-- quicly.c `quicly_open_stream` (lines 1644-1657): allocate the next
locally-initiated stream id, stepping by 2 with 32-bit wrap-around; a
counter that has wrapped below 2 is pinned to 0, and 0 means no more
streams may be opened (`too-many-open-streams`). -/
def quicly_open_stream (c : Conn) : Conn × Except Err Nat :=
  if c.hostNextStreamId = 0 then (c, Except.error Err.tooManyOpenStreams)
  else
    let r := open_stream c c.hostNextStreamId StreamOrigin.local
    let c := { r.1 with hostNumStreams := r.1.hostNumStreams + 1 }
    let nxt := (c.hostNextStreamId + 2) % 2 ^ 32
    ({ c with hostNextStreamId := if nxt < 2 then 0 else nxt }, Except.ok r.2.streamId)

/-- Packet type constants (quicly.c lines 34-43). -/
def PACKET_TYPE_VERSION_NEGOTIATION : Nat := 1

/-- Packet type `QUICLY_PACKET_TYPE_CLIENT_INITIAL`. -/
def PACKET_TYPE_CLIENT_INITIAL : Nat := 2

/-- Packet type `QUICLY_PACKET_TYPE_SERVER_STATELESS_RETRY`. -/
def PACKET_TYPE_SERVER_STATELESS_RETRY : Nat := 3

/-- Packet type `QUICLY_PACKET_TYPE_SERVER_CLEARTEXT`. -/
def PACKET_TYPE_SERVER_CLEARTEXT : Nat := 4

/-- Packet type `QUICLY_PACKET_TYPE_CLIENT_CLEARTEXT`. -/
def PACKET_TYPE_CLIENT_CLEARTEXT : Nat := 5

/-- Packet type `QUICLY_PACKET_TYPE_0RTT_PROTECTED`. -/
def PACKET_TYPE_0RTT_PROTECTED : Nat := 6

/-- Packet type `QUICLY_PACKET_TYPE_1RTT_KEY_PHASE_0`. -/
def PACKET_TYPE_1RTT_KEY_PHASE_0 : Nat := 7

/-- Packet type `QUICLY_PACKET_TYPE_1RTT_KEY_PHASE_1`. -/
def PACKET_TYPE_1RTT_KEY_PHASE_1 : Nat := 8

/-- Modelled from the spec: the numeric wire value of the placeholder
`QUICLY_ERROR_TBD` code used as a reset reason (`quicly/error.h` is not
under src/; only the code's identity matters, not its value). -/
def ERR_TBD_CODE : Nat := 0x7fffffff

/-- A decoded STREAM frame (`quicly_stream_frame_t`; `quicly/frame.h` is not
under src/).  Byte contents are not tracked, only the length. -/
structure StreamFrameData where
  streamId : Nat
  offset : Nat
  len : Nat
  isFin : Bool
  deriving DecidableEq, Repr

/-- A decoded ACK frame (`quicly_ack_frame_t`).  `blocks` lists the
`(gap, block_length)` pairs in the ascending order in which
`handle_ack_frame` walks them (the C code indexes the decoded arrays from
`num_gaps` downward, which is the same order). -/
structure AckFrameData where
  smallestAcknowledged : Nat
  firstBlockLength : Nat
  blocks : List (Nat × Nat)
  deriving DecidableEq, Repr

/-- The decoded frame alphabet dispatched by the receive loop (quicly.c
lines 1576-1632).  The frame decoders live in the absent `lib/frame.c`;
the model receives the packet payload already decoded.  Frame types whose
handler is `assert(!"FIXME")` are not representable. -/
inductive Frame where
  | streamF (f : StreamFrameData)
  | ackF (f : AckFrameData)
  | padding
  | rstStream (streamId reason finalOffset : Nat)
  | maxData (maxDataKb : Nat)
  | maxStreamData (streamId value : Nat)
  | stopSending (streamId reason : Nat)
  deriving DecidableEq, Repr

/-- Whether a frame is an ACK frame (these do not set `should_ack`). -/
def Frame.isAckFrame : Frame → Bool
  | .ackF _ => true
  | _ => false

/-- Host-supplied callbacks, modelled as pure oracles returning the error
code each callback would produce.  (The crypto stream's `on_update` is
`crypto_stream_receive_handshake`, modelled separately; callback-driven
state changes are outside this embedding.) -/
structure Host where
  onUpdate : Nat → Option Err
  onStreamOpen : Nat → Option Err

/-- Observable callback events recorded by the model. -/
inductive Event where
  | streamOpened (streamId : Nat)
  | onUpdateFired (streamId : Nat)
  deriving DecidableEq, Repr

/-- A host whose callbacks always succeed. -/
def quietHost : Host := ⟨fun _ => none, fun _ => none⟩

/-- The do-while loop of `get_stream_or_open_if_new` (quicly.c lines
1356-1368): open peer streams at `peer.next_stream_id`, stepping by 2 with
32-bit wrap, firing `on_stream_open` for each, until the target id is
opened.  On an `on_stream_open` failure the C code returns the error with
`*stream = NULL` (the already-opened stream stays in the table and the
counters are not advanced).  Totalisation guards: the C loop terminates
only by opening the target id exactly (guaranteed by the stream-id parity
invariant); the model additionally stops if the target has been passed or
the 32-bit counter is about to wrap, where the C loop would not
terminate. -/
def openPeerLoop (h : Host) (c : Conn) (targetId : Nat) : Conn × List Event × Except Err (Option Nat) :=
  let sid := c.peerNextStreamId
  let c1 := (open_stream c sid StreamOrigin.peer).1
  match h.onStreamOpen sid with
  | some e => (c1, [Event.streamOpened sid], Except.error e)
  | none =>
    let c2 := { c1 with peerNumStreams := c1.peerNumStreams + 1,
                        peerNextStreamId := (sid + 2) % 2 ^ 32 }
    if targetId = sid then (c2, [Event.streamOpened sid], Except.ok (some sid))
    else if targetId ≤ sid ∨ 2 ^ 32 ≤ sid + 2 then (c2, [Event.streamOpened sid], Except.ok (some sid))
    else
      let r := openPeerLoop h c2 targetId
      (r.1, Event.streamOpened sid :: r.2.1, r.2.2)
termination_by targetId - c.peerNextStreamId
decreasing_by
  simp_all only [not_or, not_le]
  omega

/-- quicly.c `get_stream_or_open_if_new` (lines 1347-1376): return an
existing stream; otherwise, when the id has peer parity and lies at or
beyond `peer.next_stream_id` (and the counter is not exhausted), open all
peer streams up to the id; after the loop, a counter that has wrapped
below 2 is pinned to 0.  `Except.ok none` models `ret == 0 && *stream ==
NULL`. -/
def get_stream_or_open_if_new (h : Host) (c : Conn) (streamId : Nat) :
    Conn × List Event × Except Err (Option Nat) :=
  match c.getStream streamId with
  | some st => (c, [], Except.ok (some st.streamId))
  | none =>
    if streamId % 2 ≠ (if c.isClient then 1 else 0) ∧ c.peerNextStreamId ≠ 0 ∧
        c.peerNextStreamId ≤ streamId then
      let r := openPeerLoop h c streamId
      match r.2.2 with
      | Except.error e => (r.1, r.2.1, Except.error e)
      | Except.ok os =>
        let c := if r.1.peerNextStreamId < 2 then { r.1 with peerNextStreamId := 0 } else r.1
        (c, r.2.1, Except.ok os)
    else (c, [], Except.ok none)

/-- Extend the end of the first range by `n` (the fast path's
`received.ranges[0].end += data.len`). -/
def extendFirstRange (rs : List (Nat × Nat)) (n : Nat) : List (Nat × Nat) :=
  match rs with
  | [] => []
  | (a, b) :: t => (a, b + n) :: t

/-- quicly.c `do_apply_stream_frame` (lines 454-496): clip the frame
against already-consumed data; take the copyless fast path when the frame
starts at `data_off` and nothing is buffered (extending
`received.ranges[0].end` and exposing the bytes), otherwise
`quicly_recvbuf_write` and notify `on_update` only when the contiguous
prefix grew or had reached EOS.  With a pure `on_update` oracle the
application consumes nothing, so the fast path's remainder write-back
keeps all `len` bytes buffered. -/
def do_apply_stream_frame (h : Host) (c : Conn) (st : Stream) (off0 len0 : Nat) :
    Conn × List Event × Option Err :=
  let adj : Option (Nat × Nat) :=
    if off0 < st.recvbuf.dataOff then
      if off0 + len0 ≤ st.recvbuf.dataOff then none
      else some (st.recvbuf.dataOff, len0 - (st.recvbuf.dataOff - off0))
    else some (off0, len0)
  match adj with
  | none => (c, [], none)
  | some (off, len) =>
    if st.recvbuf.dataOff = off ∧ st.recvbuf.bufLen = 0 then
      let st :=
        if len ≠ 0 then
          { st with recvbuf := { st.recvbuf with
              received := extendFirstRange st.recvbuf.received len
              bufLen := len } }
        else st
      (c.setStream st, [Event.onUpdateFired st.streamId], h.onUpdate st.streamId)
    else
      let prevEnd := st.recvbuf.firstEnd
      let r := st.recvbuf.write off len
      match r.2 with
      | some e => (c, [], some e)
      | none =>
        let st := { st with recvbuf := r.1 }
        let c := c.setStream st
        if prevEnd ≠ st.recvbuf.firstEnd ∨ prevEnd = st.recvbuf.eos then
          (c, [Event.onUpdateFired st.streamId], h.onUpdate st.streamId)
        else (c, [], none)

/-- quicly.c `apply_stream_frame` (lines 498-508): mark EOS for a FIN
frame (propagating a conflict error), then apply the data. -/
def apply_stream_frame (h : Host) (c : Conn) (sid : Nat) (f : StreamFrameData) :
    Conn × List Event × Option Err :=
  match c.getStream sid with
  | none => (c, [], none)
  | some st =>
    if f.isFin then
      let r := st.recvbuf.markEos (f.offset + f.len)
      match r.2 with
      | some e => (c, [], some e)
      | none =>
        let st := { st with recvbuf := r.1 }
        do_apply_stream_frame h (c.setStream st) st f.offset f.len
    else do_apply_stream_frame h c st f.offset f.len

/-- quicly.c `handle_stream_frame` (lines 1378-1386). -/
def handle_stream_frame (h : Host) (c : Conn) (f : StreamFrameData) :
    Conn × List Event × Option Err :=
  let r := get_stream_or_open_if_new h c f.streamId
  match r.2.2 with
  | Except.error e => (r.1, r.2.1, some e)
  | Except.ok none => (r.1, r.2.1, none)
  | Except.ok (some sid) =>
    let rr := apply_stream_frame h r.1 sid f
    (rr.1, r.2.1 ++ rr.2.1, rr.2.2)

/-- quicly.c `handle_rst_stream_frame` (lines 1388-1410): when the stream's
receive EOS is unset, a final offset below the received high-water mark
(`received.ranges[num_ranges-1].end`) is an error; otherwise EOS is marked
at the final offset, the reason recorded, and `on_update` fired.  When EOS
is already set, the frame's final offset is compared against the received
high-water mark (not the recorded EOS). -/
def handle_rst_stream_frame (h : Host) (c : Conn) (sid reason finalOffset : Nat) :
    Conn × List Event × Option Err :=
  let r := get_stream_or_open_if_new h c sid
  match r.2.2 with
  | Except.error e => (r.1, r.2.1, some e)
  | Except.ok none => (r.1, r.2.1, none)
  | Except.ok (some sid') =>
    let c := r.1
    match c.getStream sid' with
    | none => (c, r.2.1, none)
    | some st =>
      if st.recvbuf.eos = U64MAX then
        if finalOffset < st.recvbuf.lastEnd then (c, r.2.1, some Err.tbd)
        else
          let st := { st with recvbuf := (st.recvbuf.markEos finalOffset).1
                              rstReason := some reason }
          let c := c.setStream st
          match h.onUpdate sid' with
          | some e => (c, r.2.1 ++ [Event.onUpdateFired sid'], some e)
          | none =>
            ((destroy_stream_if_unneeded c st).1, r.2.1 ++ [Event.onUpdateFired sid'], none)
      else
        if finalOffset ≠ st.recvbuf.lastEnd then (c, r.2.1, some Err.tbd)
        else ((destroy_stream_if_unneeded c st).1, r.2.1, none)

/-- The ascending list of packet numbers acknowledged by a decoded ACK
frame, starting from `smallest_acknowledged` (quicly.c lines 1422-1452:
each block covers `block_length` consecutive numbers, then the packet
number advances by the next gap). -/
def ackTargetsGo (pn : Nat) (firstLen : Nat) : List (Nat × Nat) → List Nat
  | [] => (List.range firstLen).map (pn + ·)
  | (gap, len) :: rest =>
    (List.range firstLen).map (pn + ·) ++ ackTargetsGo (pn + firstLen + gap) len rest

/-- All packet numbers acknowledged by an ACK frame, in walking order. -/
def ackTargets (f : AckFrameData) : List Nat :=
  ackTargetsGo f.smallestAcknowledged f.firstBlockLength f.blocks

/-- The ack-book walk of `handle_ack_frame` (quicly.c lines 1418-1452):
the iterator advances monotonically over the book; entries below the
current target remain in the book, entries equal to it have their callback
invoked with acked=true and are released, and the target list advances
past entries above it.  (The C code skips below-target entries at block
starts; for the ascending target lists produced by the decoder this is the
same walk.) -/
def ackWalk (c : Conn) (done todo : List AckEntry) (targets : List Nat) : Conn × List AckEntry :=
  match targets with
  | [] => (c, done ++ todo)
  | t :: ts =>
    match todo with
    | [] => (c, done)
    | e :: rest =>
      if e.packetNumber < t then ackWalk c (done ++ [e]) rest (t :: ts)
      else if e.packetNumber = t then ackWalk (applyAck c true e) done rest (t :: ts)
      else ackWalk c done (e :: rest) ts
termination_by (todo.length, targets.length)
decreasing_by
  · simp_all
    omega
  · simp_all
    omega
  · exact Prod.Lex.right _ (Nat.lt_succ_self _)

/-- quicly.c `handle_ack_frame` (lines 1412-1456). -/
def handle_ack_frame (c : Conn) (f : AckFrameData) : Conn × Option Err :=
  match c.acks with
  | [] => (c, none)
  | _ =>
    let r := ackWalk c [] c.acks (ackTargets f)
    ({ r.1 with acks := r.2 }, none)

/-- quicly.c `handle_max_stream_data_frame` (lines 1458-1471): ignore
frames for unknown streams; reject a value below the current limit with
the placeholder error (`QUICLY_ERROR_TBD`, annotated
`/* FLOW_CONTROL_ERROR */` in the source), otherwise store it. -/
def handle_max_stream_data_frame (c : Conn) (sid value : Nat) : Conn × Option Err :=
  match c.getStream sid with
  | none => (c, none)
  | some st =>
    if value < st.maxStreamData then (c, some Err.tbd)
    else (c.setStream { st with maxStreamData := value }, none)

/-- quicly.c `handle_max_data_frame` (lines 1485-1495): reject a value
below `egress.max_data.permitted` with the placeholder error
(`QUICLY_ERROR_TBD`, annotated `/* FLOW_CONTROL_ERROR */`), otherwise
store `max_data_kb * 1024`. -/
def handle_max_data_frame (c : Conn) (maxDataKb : Nat) : Conn × Option Err :=
  let newValue := maxDataKb * 1024
  if newValue < c.maxDataPermitted then (c, some Err.tbd)
  else ({ c with maxDataPermitted := newValue }, none)

/-- quicly.c `reset_sender` (lines 868-883): nothing to do when all data
(up to EOS) was already sent; otherwise shut the send buffer down, mark
everything below the EOS byte acked, and arm the RST_STREAM sender. -/
def reset_sender (c : Conn) (sid reason : Nat) : Conn :=
  match c.getStream sid with
  | none => c
  | some st =>
    if st.maxSent = st.sendbuf.eos then c
    else
      let sb := st.sendbuf.shutdown
      let sb := sb.onAcked 0 sb.eos
      c.setStream { st with sendbuf := sb, rst := ⟨SenderState.stateSend, reason⟩ }

/-- quicly.c `handle_stop_sending_frame` (lines 1473-1483). -/
def handle_stop_sending_frame (h : Host) (c : Conn) (sid _reason : Nat) :
    Conn × List Event × Option Err :=
  let r := get_stream_or_open_if_new h c sid
  match r.2.2 with
  | Except.error e => (r.1, r.2.1, some e)
  | Except.ok none => (r.1, r.2.1, none)
  | Except.ok (some sid') => (reset_sender r.1 sid' ERR_TBD_CODE, r.2.1, none)

/-- One iteration of the receive frame loop (quicly.c lines 1578-1631):
dispatch a decoded frame to its handler.  The final component tells
whether this frame type sets `should_ack`: every type except ACK does,
PADDING included (the `should_ack = 1` at line 1630 covers the whole
non-STREAM, non-ACK switch). -/
def handleFrame (h : Host) (c : Conn) (f : Frame) : Conn × List Event × Option Err × Bool :=
  match f with
  | .streamF sf =>
    let r := handle_stream_frame h c sf
    (r.1, r.2.1, r.2.2, true)
  | .ackF af =>
    let r := handle_ack_frame c af
    (r.1, [], r.2, false)
  | .padding => (c, [], none, true)
  | .rstStream sid reason fo =>
    let r := handle_rst_stream_frame h c sid reason fo
    (r.1, r.2.1, r.2.2, true)
  | .maxData kb =>
    let r := handle_max_data_frame c kb
    (r.1, [], r.2, true)
  | .maxStreamData sid v =>
    let r := handle_max_stream_data_frame c sid v
    (r.1, [], r.2, true)
  | .stopSending sid reason =>
    let r := handle_stop_sending_frame h c sid reason
    (r.1, r.2.1, r.2.2, true)

/-- The receive frame loop (`do { ... } while (src != end)`), threading the
accumulated `should_ack` flag; a handler error aborts the loop, keeping
the state changes made so far. -/
def receiveFrames (h : Host) (c : Conn) : List Frame → Bool → Conn × List Event × Option Err × Bool
  | [], sa => (c, [], none, sa)
  | f :: rest, sa =>
    let r := handleFrame h c f
    match r.2.2.1 with
    | some e => (r.1, r.2.1, some e, sa || r.2.2.2)
    | none =>
      let rr := receiveFrames h r.1 rest (sa || r.2.2.2)
      (rr.1, r.2.1 ++ rr.2.1, rr.2.2)

/-- A decoded packet as passed to `quicly_receive` (quicly.h
`quicly_decoded_packet_t`).  The payload is carried already decoded into
frames (`lib/frame.c` is not under src/), and `authOk` injects the outcome
of the external integrity check (AEAD decryption for protected packets,
FNV-1a-64 verification — including its minimum-length check — for
cleartext ones). -/
structure DecodedPacket where
  ptype : Nat
  isLongHeader : Bool
  hasConnectionId : Bool
  connectionId : Nat
  packetNumber : Nat
  frames : List Frame
  authOk : Bool
  deriving DecidableEq, Repr

/-- Result of the packet-type dispatch switch. -/
inductive AeadChoice where
  | err (e : Err)
  | done
  | proceed (aead : Option Unit)
  deriving DecidableEq, Repr

/-- The packet-type switch of `quicly_receive` (quicly.c lines 1516-1556):
select the AEAD context (tracked by presence) or reject; `done` models the
`ret = 0; goto Exit` paths (CLIENT_INITIAL is ignored "for the time
being"; a key-phase-0 packet before the 1-RTT keys exist is dropped
silently). -/
def selectAead (c : Conn) (p : DecodedPacket) : AeadChoice :=
  if p.ptype = PACKET_TYPE_CLIENT_CLEARTEXT then
    if c.isClient then AeadChoice.err Err.invalidPacketHeader else AeadChoice.proceed none
  else if p.ptype = PACKET_TYPE_SERVER_CLEARTEXT then
    if ¬c.isClient then AeadChoice.err Err.invalidPacketHeader else AeadChoice.proceed none
  else if p.ptype = PACKET_TYPE_0RTT_PROTECTED then
    if c.isClient then AeadChoice.err Err.invalidPacketHeader
    else
      match c.ingressPP.aeadEarlyData with
      | none => AeadChoice.err Err.invalidPacketHeader
      | some _ => AeadChoice.proceed (some ())
  else if p.ptype = PACKET_TYPE_1RTT_KEY_PHASE_0 then
    match c.ingressPP.aeadKeyPhase0 with
    | none =>
      if c.state = QState.oneRttEncrypted then AeadChoice.err Err.invalidPacketHeader
      else AeadChoice.done
    | some _ => AeadChoice.proceed (some ())
  else if p.ptype = PACKET_TYPE_1RTT_KEY_PHASE_1 then
    match c.ingressPP.aeadKeyPhase1 with
    | none => AeadChoice.err Err.invalidPacketHeader
    | some _ => AeadChoice.proceed (some ())
  else if p.ptype = PACKET_TYPE_CLIENT_INITIAL then AeadChoice.done
  else AeadChoice.err Err.invalidPacketHeader

/-- quicly.c `quicly_receive` (lines 1497-1642).  Note line 1503: under the
comment `/* FIXME check peer address */` the stored connection id is
overwritten with the packet's connection id *before* the mismatch check of
lines 1505-1509, so the `packet-ignored` branch cannot be taken.  After a
successful frame loop, `should_ack` schedules the packet number in the
ingress ack queue, and a protected (AEAD) packet then latches
`egress.acks_require_encryption`. -/
def quicly_receive (h : Host) (c0 : Conn) (p : DecodedPacket) : Conn × List Event × Option Err :=
  let c := { c0 with connectionId := p.connectionId }
  if p.connectionId ≠ c.connectionId then (c, [], some Err.packetIgnored)
  else if ¬p.isLongHeader ∧ c.state ≠ QState.oneRttEncrypted then
    (c, [], some Err.invalidPacketHeader)
  else
    match selectAead c p with
    | AeadChoice.err e => (c, [], some e)
    | AeadChoice.done => (c, [], none)
    | AeadChoice.proceed aead =>
      if ¬p.authOk then (c, [], some Err.decryptionFailure)
      else if p.frames.isEmpty then (c, [], some Err.invalidFrameData)
      else
        let r := receiveFrames h c p.frames false
        match r.2.2.1 with
        | some e => (r.1, r.2.1, some e)
        | none =>
          let c1 := r.1
          let c2 :=
            if r.2.2.2 then
              let ca := { c1 with
                ackQueue := rangesUpdate c1.ackQueue p.packetNumber (p.packetNumber + 1) }
              if aead.isSome then { ca with acksRequireEncryption := true } else ca
            else c1
          (c2, r.2.1, none)

/-- Modelled from the spec: picotls `ptls_decode16` (big-endian fixed-width
reads, spec section 4.1); picotls is an external collaborator. -/
def decode16 : List Nat → Option (Nat × List Nat)
  | a :: b :: rest => some (a * 256 + b, rest)
  | _ => none

/-- Modelled from the spec: picotls `ptls_decode32`. -/
def decode32 : List Nat → Option (Nat × List Nat)
  | a :: b :: c :: d :: rest => some (((a * 256 + b) * 256 + c) * 256 + d, rest)
  | _ => none

/-- Big-endian interpretation of a byte list, used to state what value a
stored parameter holds. -/
def beNat (l : List Nat) : Nat := l.foldl (fun acc x => acc * 256 + x) 0

/-- The switch over parameter ids inside `decode_transport_parameter_list`
(quicly.c lines 566-589), one parameter's value block at a time: ids 0-2
read a 32-bit value, id 3 a 16-bit value, id 4 sets the flag and carries no
value, unknown ids are skipped (`src = end`).  The enclosing picotls
`ptls_decode_open_block` requires the block to be fully consumed, failing
with a decode error otherwise (after any value was already stored, since
the C decoders write through pointers). -/
def applyParamValue (params : TransportParams) (id : Nat) (blk : List Nat) :
    TransportParams × Option Err :=
  if id = 0 then
    match decode32 blk with
    | some (v, rem) =>
      ({ params with initialMaxStreamData := v },
       if rem = [] then none else some Err.ptlsDecodeError)
    | none => (params, some Err.ptlsDecodeError)
  else if id = 1 then
    match decode32 blk with
    | some (v, rem) =>
      ({ params with initialMaxDataKb := v },
       if rem = [] then none else some Err.ptlsDecodeError)
    | none => (params, some Err.ptlsDecodeError)
  else if id = 2 then
    match decode32 blk with
    | some (v, rem) =>
      ({ params with initialMaxStreamId := v },
       if rem = [] then none else some Err.ptlsDecodeError)
    | none => (params, some Err.ptlsDecodeError)
  else if id = 3 then
    match decode16 blk with
    | some (v, rem) =>
      ({ params with idleTimeout := v },
       if rem = [] then none else some Err.ptlsDecodeError)
    | none => (params, some Err.ptlsDecodeError)
  else if id = 4 then
    ({ params with truncateConnectionId := true },
     if blk = [] then none else some Err.ptlsDecodeError)
  else (params, none)

/-- The `while (src != end)` loop of `decode_transport_parameter_list`
(quicly.c lines 553-591): read a 16-bit id; for ids inside the 64-bit
tracked bitset a repeated id fails with `invalid-stream-data`; record the
id's bit — the unconditional `found_id_bits |= ID_TO_BIT(id)` at line 564
runs for every id, and since `found_id_bits` is a `uint64_t` the shift
`(uint64_t)1 << id` for ids >= 64 (undefined behaviour per the C standard)
is masked modulo 64 by the compiled shift instruction on mainstream
targets, aliasing such ids onto bits 0-63; then open the parameter's
2-byte-length value block and dispatch on the id.  `found` is the
`found_id_bits` bitset. -/
def decodeTPInner (params : TransportParams) (found : Nat) (src : List Nat) :
    TransportParams × Nat × Option Err :=
  match src with
  | [] => (params, found, none)
  | a :: b :: rest =>
    let id := a * 256 + b
    if id < 64 ∧ Nat.testBit found id then (params, found, some Err.invalidStreamData)
    else
      let found2 := found ||| (1 <<< (id % 64))
      match rest with
      | n1 :: n2 :: rest2 =>
        let n := n1 * 256 + n2
        if n ≤ rest2.length then
          let r := applyParamValue params id (rest2.take n)
          match r.2 with
          | some e => (r.1, found2, some e)
          | none => decodeTPInner r.1 found2 (rest2.drop n)
        else (params, found2, some Err.ptlsDecodeError)
      | _ => (params, found2, some Err.ptlsDecodeError)
  | _ => (params, found, some Err.ptlsDecodeError)
termination_by src.length
decreasing_by
  simp only [List.length_cons, List.length_drop]
  omega

/-- quicly.c `decode_transport_parameter_list` (lines 537-605): default the
optional `truncate_connection_id` to 0, decode the outer 2-byte-length
parameters block (picotls requires it to span the input exactly), run the
parameter loop, and finally require that all four mandatory ids 0-3 were
found, else `invalid-stream-data`
(`must_found_id_bits` is bits 0|1|2|3 = 15). -/
def decode_transport_parameter_list (params0 : TransportParams) (src : List Nat) :
    TransportParams × Option Err :=
  let params := { params0 with truncateConnectionId := false }
  match src with
  | n1 :: n2 :: rest =>
    if n1 * 256 + n2 = rest.length then
      let r := decodeTPInner params 0 rest
      match r.2.2 with
      | some e => (r.1, some e)
      | none =>
        if (r.2.1 &&& 15) = 15 then (r.1, none)
        else (r.1, some Err.invalidStreamData)
    else (params, some Err.ptlsDecodeError)
  | _ => (params, some Err.ptlsDecodeError)

/-- Reference big-endian 16-bit encoder, for building well-formed
transport-parameter byte strings in statements. -/
def encode16 (v : Nat) : List Nat := [v / 256 % 256, v % 256]

/-- Encoding of one transport parameter: 16-bit id, 16-bit length, value. -/
def encodeTPItem (it : Nat × List Nat) : List Nat :=
  encode16 it.1 ++ encode16 it.2.length ++ it.2

/-- Concatenated encoding of a parameter list. -/
def encodeTPItems (items : List (Nat × List Nat)) : List Nat :=
  items.foldr (fun it acc => encodeTPItem it ++ acc) []

/-- A full transport-parameters block: outer 2-byte length, then the
parameters. -/
def encodeTPList (items : List (Nat × List Nat)) : List Nat :=
  encode16 (encodeTPItems items).length ++ encodeTPItems items

/-- Well-formedness of a structured parameter: the id and length fit in 16
bits and the value block has the size its id's decoder consumes (ids 0-2:
4 bytes; id 3: 2 bytes; id 4: empty; unknown ids: anything). -/
def wfItem (it : Nat × List Nat) : Prop :=
  it.1 < 2 ^ 16 ∧ it.2.length < 2 ^ 16 ∧
  ((it.1 = 0 ∨ it.1 = 1 ∨ it.1 = 2) → it.2.length = 4) ∧
  (it.1 = 3 → it.2.length = 2) ∧ (it.1 = 4 → it.2 = [])

instance (it : Nat × List Nat) : Decidable (wfItem it) := by
  unfold wfItem
  infer_instance

/-- The storing effect of one recognised parameter, used to state what a
successful decode yields. -/
def storeParam (p : TransportParams) (it : Nat × List Nat) : TransportParams :=
  if it.1 = 0 then { p with initialMaxStreamData := beNat it.2 }
  else if it.1 = 1 then { p with initialMaxDataKb := beNat it.2 }
  else if it.1 = 2 then { p with initialMaxStreamId := beNat it.2 }
  else if it.1 = 3 then { p with idleTimeout := beNat it.2 }
  else if it.1 = 4 then { p with truncateConnectionId := true }
  else p

/-- Structured-level mirror of the decoding loop, used as an intermediate
specification: store each parameter in order, failing on a tracked id
whose bit is already set (by a previous occurrence, or by an id >= 64
aliased onto it modulo 64). -/
def specLoop (params : TransportParams) (found : Nat) :
    List (Nat × List Nat) → TransportParams × Nat × Option Err
  | [] => (params, found, none)
  | it :: rest =>
    if it.1 < 64 ∧ Nat.testBit found it.1 then (params, found, some Err.invalidStreamData)
    else specLoop (storeParam params it) (found ||| (1 <<< (it.1 % 64))) rest

/-- Whether the id sequence passes every duplicate check of the loop: an
id below 64 fails when its bit is already set in the accumulated bitset,
and every id (also those >= 64, masked modulo 64) sets its bit. -/
def noTrackedDup (found : Nat) : List Nat → Bool
  | [] => true
  | id :: rest =>
    if id < 64 ∧ Nat.testBit found id then false
    else noTrackedDup (found ||| (1 <<< (id % 64))) rest

/-- A small context with the spec's default values (MTU 1280, section 8),
used for concrete evaluations. -/
def sampleCtx : Context :=
  { maxPacketSize := 1280
    initialRto := 10
    transportParams := ⟨8192, 16, 100, 60, false⟩ }

/-- A freshly created server connection. -/
def sampleServer : Conn := create_connection sampleCtx false

/-- A freshly created client connection. -/
def sampleClient : Conn := create_connection sampleCtx true

/-- A server connection whose ack book holds one entry sent at time 90. -/
def c3conn : Conn :=
  { sampleServer with acks := [⟨1, 90, AckData.maxData 16⟩] }

/-- A client connection whose stored connection id is 1. -/
def c1conn : Conn := { sampleClient with connectionId := 1 }

/-- A SERVER_CLEARTEXT packet carrying connection id 2 (mismatching
`c1conn`'s stored id 1) whose payload is a single PADDING frame. -/
def c1packet : DecodedPacket :=
  { ptype := PACKET_TYPE_SERVER_CLEARTEXT
    isLongHeader := true
    hasConnectionId := true
    connectionId := 2
    packetNumber := 5
    frames := [Frame.padding]
    authOk := true }

/-- A CLIENT_CLEARTEXT packet for the server whose payload is a single
PADDING frame. -/
def c2packet : DecodedPacket :=
  { ptype := PACKET_TYPE_CLIENT_CLEARTEXT
    isLongHeader := true
    hasConnectionId := true
    connectionId := 0
    packetNumber := 9
    frames := [Frame.padding]
    authOk := true }

/-- A CLIENT_CLEARTEXT packet for the server carrying one MAX_DATA frame. -/
def c2packetB : DecodedPacket :=
  { c2packet with packetNumber := 11, frames := [Frame.maxData 999] }

/-- A connection whose permitted egress window is 2048 bytes. -/
def c5conn : Conn := { sampleClient with maxDataPermitted := 2048 }

/-- A peer stream (id 2) whose receive EOS is established at 42 while the
received high-water mark is 30. -/
def c6streamEosSet : Stream :=
  { (open_stream sampleServer 2 StreamOrigin.peer).2 with
    recvbuf := { received := [(0, 30)], dataOff := 0, eos := 42, bufLen := 30 } }

/-- A server connection holding `c6streamEosSet`. -/
def c6conn : Conn :=
  { sampleServer with streams := sampleServer.streams ++ [c6streamEosSet] }

/-- A peer stream (id 2) with received high-water mark 30 and EOS unset. -/
def c6streamEosUnset : Stream :=
  { c6streamEosSet with
    recvbuf := { received := [(0, 30)], dataOff := 0, eos := U64MAX, bufLen := 30 } }

/-- A server connection holding `c6streamEosUnset`. -/
def c6connUnset : Conn :=
  { sampleServer with streams := sampleServer.streams ++ [c6streamEosUnset] }

/-- The stream-id parity invariant of claim C9: the two stream-id counters
retain the parity fixed at connection creation (or are 0 = exhausted), and
every stream in the table satisfies: the crypto stream is exactly stream 0,
locally opened streams carry the host parity (odd on a client, even on a
server), and peer-opened streams carry the opposite parity. -/
def StreamIdInv (c : Conn) : Prop :=
  (c.hostNextStreamId = 0 ∨
    c.hostNextStreamId % 2 = (if c.createdAsClient then 1 else 0)) ∧
  (c.peerNextStreamId = 0 ∨
    c.peerNextStreamId % 2 = (if c.createdAsClient then 0 else 1)) ∧
  ∀ st ∈ c.streams,
    (st.origin = StreamOrigin.crypto ↔ st.streamId = 0) ∧
    (st.origin = StreamOrigin.local →
      st.streamId % 2 = (if c.createdAsClient then 1 else 0)) ∧
    (st.origin = StreamOrigin.peer →
      st.streamId % 2 = (if c.createdAsClient then 0 else 1))

/-- The fields of a connection that no receive-path frame handler writes:
configuration, identity, handshake state, packet protection, the ingress
ack queue, the egress packet number and the `acks_require_encryption`
latch. -/
def PreservedR (a b : Conn) : Prop :=
  a.ctx = b.ctx ∧ a.connectionId = b.connectionId ∧ a.state = b.state ∧
  a.ingressPP = b.ingressPP ∧ a.egressPP = b.egressPP ∧ a.ackQueue = b.ackQueue ∧
  a.packetNumber = b.packetNumber ∧ a.acksRequireEncryption = b.acksRequireEncryption ∧
  a.createdAsClient = b.createdAsClient

/-! ### Send path (quicly.c lines 955-1345) -/

/-- Modelled from the spec, section 4.7: the AEAD tag size of the TLS
provider's cipher suite (`s->aead->algo->tag_size`; picotls is external).
Cleartext packets instead reserve 8 bytes for the FNV-1a-64 tag (quicly.c
line 1016). -/
def AEAD_TAG_SIZE : Nat := 16

/-- Modelled from the spec, section 4.1 (`quicly/frame.h` is not under
src/): fixed-width MAX_DATA frame (type byte + 64-bit maximum), the
source's `QUICLY_MAX_DATA_FRAME_SIZE`. -/
def MAX_DATA_FRAME_SIZE : Nat := 9

/-- Modelled from the spec, section 4.1: fixed-width MAX_STREAM_DATA frame
(type byte + 32-bit stream id + 64-bit maximum), the source's
`QUICLY_MAX_STREAM_DATA_FRAME_SIZE`. -/
def MAX_STREAM_DATA_FRAME_SIZE : Nat := 13

/-- Modelled from the spec, section 4.1: fixed-width STOP_SENDING frame
(type byte + 32-bit stream id + 32-bit reason), the source's
`QUICLY_STOP_SENDING_FRAME_SIZE`. -/
def STOP_SENDING_FRAME_SIZE : Nat := 9

/-- Modelled from the spec, section 4.1: fixed-width RST_STREAM frame
(type byte + 32-bit stream id + 32-bit reason + 64-bit final offset), the
source's `QUICLY_RST_FRAME_SIZE`. -/
def RST_FRAME_SIZE : Nat := 17

/-- Modelled from the spec, section 4.1: the STREAM-frame encoder picks the
minimum legal width for the stream id (1, 2, 3 or 4 bytes;
`quicly_determine_stream_frame_field_lengths` in the absent
`quicly/frame.h`). -/
def streamIdLength (sid : Nat) : Nat :=
  if sid < 2 ^ 8 then 1 else if sid < 2 ^ 16 then 2 else if sid < 2 ^ 24 then 3 else 4

/-- Modelled from the spec, section 4.1: the minimum legal width for a
STREAM frame offset (0, 2, 4 or 8 bytes; width 0 is legal only for
offset 0). -/
def offsetLength (off : Nat) : Nat :=
  if off = 0 then 0 else if off < 2 ^ 16 then 2 else if off < 2 ^ 32 then 4 else 8

/-- A committed outgoing packet (`quicly_raw_packet_t` as finalised by
`commit_send_packet`): the packet type of its long header, the payload
length before the integrity tag (`s->dst - s->target->data.base` at commit
time, before the FNV-1a-64 or AEAD tag is appended), and a ghost count of
the ACK frames encoded into it (the byte contents are untracked). -/
structure SentPacket where
  ptype : Nat
  lenBeforeTag : Nat
  ackFrames : Nat
  deriving DecidableEq, Repr

/-- The in-progress output packet of the send context: the type from its
header byte (`GET_TYPE_FROM_PACKET_HEADER`, quicly.c line 52), the write
offset `s->dst` and writable end `s->dst_end` relative to the packet base,
and the ghost ACK-frame count.  The 17-byte long header (type byte + 64-bit
connection id + 32-bit packet number + 32-bit version, `emit_long_header`,
quicly.c lines 230-238) occupies offsets 0-16. -/
structure Target where
  ptype : Nat
  dst : Nat
  dstEnd : Nat
  ackFrames : Nat
  deriving DecidableEq, Repr

/-- The send context (quicly.c `st_quicly_send_context_t`, lines 955-964).
`target = none` models `s->target == NULL`, which coincides with
`s->dst == NULL` (the pointers are set and cleared together); `maxPackets`
is the caller's `*num_packets` capacity, `packets` the slots filled so
far. -/
structure SendCtx where
  packetType : Nat
  aead : Option Unit
  now : Int
  maxPackets : Nat
  numPackets : Nat
  packets : List SentPacket
  target : Option Target
  deriving DecidableEq, Repr

/-- quicly.c `commit_send_packet` (lines 972-990): finalise the integrity
tag (external), record the packet's length (`s->dst` before the tag),
advance the egress packet number, and clear the target.  The `none` case is
unreachable (every caller checks the target first). -/
def commit_send_packet (c : Conn) (s : SendCtx) : Conn × SendCtx :=
  match s.target with
  | none => (c, s)
  | some t =>
    ({ c with packetNumber := c.packetNumber + 1 },
     { s with packets := s.packets ++ [⟨t.ptype, t.dst, t.ackFrames⟩],
              numPackets := s.numPackets + 1,
              target := none })

/-- The fresh target set up by `prepare_packet` (quicly.c lines 1003-1017):
17 header bytes written, the writable end shortened by the AEAD tag size
(protected) or 8 bytes for the FNV-1a-64 hash (cleartext).  Allocation
failure (`alloc_packet`) is external and not modelled. -/
def newTarget (c : Conn) (s : SendCtx) : Target :=
  { ptype := s.packetType
    dst := 17
    dstEnd := c.ctx.maxPacketSize - (if s.aead.isSome then AEAD_TAG_SIZE else 8)
    ackFrames := 0 }

/-- quicly.c `prepare_packet` (lines 992-1022): keep the current target
when it has `minSpace` room and the matching type; otherwise fill it with
PADDING up to `dst_end`, commit it, and start a new target unless the
packet vector is exhausted (`num_packets >= max_packets` leaves the target
NULL and returns success).  With no current target the C condition
`s->dst_end - s->dst < min_space` reads `0 < min_space`, true at every call
site (`minSpace` is always positive). -/
def prepare_packet (c : Conn) (s : SendCtx) (minSpace : Nat) : Conn × SendCtx :=
  match s.target with
  | none =>
    if s.maxPackets ≤ s.numPackets then (c, s)
    else (c, { s with target := some (newTarget c s) })
  | some t =>
    if t.dstEnd - t.dst < minSpace ∨ t.ptype ≠ s.packetType then
      let r := commit_send_packet c { s with target := some { t with dst := t.dstEnd } }
      if r.2.maxPackets ≤ r.2.numPackets then r
      else (r.1, { r.2 with target := some (newTarget r.1 r.2) })
    else (c, s)

/-- Modelled from the spec, section 4.1: the nominal budget demanded from
`prepare_packet` for one more ACK range
(`quicly_ack_frame_get_minimum_capacity`): a frame base (type byte +
32-bit largest-acknowledged) plus one range. -/
def ackBaseSize : Nat := 5

/-- Modelled from the spec, section 4.1: the nominal encoded size of one
additional `(block_length, gap)` ACK range. -/
def ackRangeSize : Nat := 6

/-- The do-while loop of `send_ack` (quicly.c lines 1036-1042), modelled
from the spec, section 4.1: each call of `quicly_encode_ack_frame` writes
one ACK frame covering as many of the remaining ranges as fit in the
current packet (at least one, by the `prepare_packet` budget), scanning
from the highest range downward; the loop resumes in a fresh packet until
every range is encoded or the packet vector is exhausted.  `fuel` starts at
the range count, which bounds the iterations since each one consumes at
least one range. -/
def send_ack_loop (c : Conn) (s : SendCtx) (remaining : Nat) : Nat → Conn × SendCtx
  | 0 => (c, s)
  | fuel + 1 =>
    if remaining = 0 then (c, s)
    else
      let r := prepare_packet c s (ackBaseSize + ackRangeSize)
      match r.2.target with
      | none => r
      | some t =>
        let fit := (t.dstEnd - t.dst - ackBaseSize) / ackRangeSize
        let k := if fit ≤ remaining then fit else remaining
        let t2 : Target :=
          { t with dst := t.dst + ackBaseSize + ackRangeSize * k, ackFrames := t.ackFrames + 1 }
        send_ack_loop r.1 { r.2 with target := some t2 } (remaining - k) fuel

/-- quicly.c `send_ack` (lines 1024-1046): nothing to do when the ingress
ack queue is empty; otherwise encode the queued ranges into ACK frames and
clear the queue unconditionally afterwards (ranges that did not fit before
the packet vector ran out are dropped, not retried). -/
def send_ack (c : Conn) (s : SendCtx) : Conn × SendCtx :=
  if c.ackQueue.length = 0 then (c, s)
  else
    let r := send_ack_loop c s c.ackQueue.length c.ackQueue.length
    ({ r.1 with ackQueue := rangesClear }, r.2)

/-- quicly.c `send_max_data_frame` (lines 1048-1072): reserve space, append
an ack-book entry for the advertisement, compute
`bytes_consumed / 1024 + initial_max_data_kb`, encode the frame and record
the in-flight value in the MaxSender.  Ack-book allocation failure is
external (malloc) and not modelled. -/
def send_max_data_frame (c : Conn) (s : SendCtx) : Conn × SendCtx :=
  let r := prepare_packet c s MAX_DATA_FRAME_SIZE
  match r.2.target with
  | none => r
  | some t =>
    let newValue := r.1.bytesConsumed / 1024 + r.1.ctx.transportParams.initialMaxDataKb
    let en : AckEntry := ⟨r.1.packetNumber, r.2.now, AckData.maxData newValue⟩
    ({ r.1 with acks := r.1.acks ++ [en],
                ingressMaxDataSender := r.1.ingressMaxDataSender.record newValue },
     { r.2 with target := some { t with dst := t.dst + MAX_DATA_FRAME_SIZE } })

/-- quicly.c `send_max_stream_data_frame` (lines 1074-1102): like
`send_max_data_frame` but for one stream, advertising
`recvbuf.data_off + window` and recording it in the stream's MaxSender. -/
def send_max_stream_data_frame (c : Conn) (st : Stream) (s : SendCtx) :
    Conn × Stream × SendCtx :=
  let r := prepare_packet c s MAX_STREAM_DATA_FRAME_SIZE
  match r.2.target with
  | none => (r.1, st, r.2)
  | some t =>
    let newValue := st.recvbuf.dataOff + st.window
    let en : AckEntry := ⟨r.1.packetNumber, r.2.now, AckData.maxStreamData st.streamId newValue⟩
    ({ r.1 with acks := r.1.acks ++ [en] },
     { st with maxStreamDataSender := st.maxStreamDataSender.record newValue },
     { r.2 with target := some { t with dst := t.dst + MAX_STREAM_DATA_FRAME_SIZE } })

/-- quicly.c `send_stream_frame` (lines 1104-1153): pick the minimum field
widths, reserve header room (plus one byte for the frame type's FIN/length
bits unless the iterator sits exactly at EOS), and copy
`min(capacity, avail)` bytes, where `avail` discounts the virtual EOS byte
when the requested range crosses it.  The explicit 16-bit length field is
written only when the frame does not extend to the packet end
(`copysize + 2 < capacity`).  An ack-book entry records the consumed offset
range (including the virtual EOS byte, per spec section 4.3), `max_sent`
and the connection-level `egress.max_data.sent` advance, and the data
iterator moves past the bytes (stepping over the virtual EOS byte when it
is consumed, see the comment at quicly.c line 1185).  A NULL target from
`prepare_packet` returns with nothing written. -/
def send_stream_frame (c : Conn) (st : Stream) (s : SendCtx) (iterOff maxBytes : Nat) :
    Conn × Stream × SendCtx × Nat :=
  let idLen := streamIdLength st.streamId
  let offLen := offsetLength iterOff
  let r := prepare_packet c s
    (1 + idLen + offLen + (if iterOff ≠ st.sendbuf.eos then 1 else 0))
  match r.2.target with
  | none => (r.1, st, r.2, iterOff)
  | some t =>
    let capacity := t.dstEnd - t.dst - (1 + idLen + offLen)
    let avail := maxBytes - (if st.sendbuf.eos < iterOff + maxBytes then 1 else 0)
    let copysize := if capacity ≤ avail then capacity else avail
    let hdr := 1 + idLen + offLen + (if copysize + 2 < capacity then 2 else 0)
    let newOff := iterOff + copysize + (if iterOff + copysize = st.sendbuf.eos then 1 else 0)
    let en : AckEntry := ⟨r.1.packetNumber, r.2.now,
      AckData.streamData st.streamId iterOff newOff⟩
    let c2 := { r.1 with acks := r.1.acks ++ [en] }
    let p :=
      if st.maxSent < iterOff + copysize then
        ({ c2 with maxDataSent :=
            if st.streamId ≠ 0 then c2.maxDataSent + (iterOff + copysize - st.maxSent)
            else c2.maxDataSent },
         { st with maxSent := iterOff + copysize })
      else (c2, st)
    (p.1, p.2, { r.2 with target := some { t with dst := t.dst + hdr + copysize } }, newOff)

/-- The inner while loop of `send_stream_frames` (quicly.c lines
1186-1192): emit STREAM frames until the iterator reaches `endOff`, or stop
with the flag set when `prepare_packet` left the target NULL (the C
`goto ShrinkToIter`).  `fuel` is a totalisation guard: `endOff - iterOff + 1`
always suffices because every emitted frame advances the iterator by at
least one (byte or virtual EOS byte), so the zero-fuel case is
unreachable at the call site. -/
def sendFramesInner (c : Conn) (st : Stream) (s : SendCtx) (iterOff endOff : Nat) :
    Nat → Conn × Stream × SendCtx × Nat × Bool
  | 0 => (c, st, s, iterOff, false)
  | fuel + 1 =>
    if iterOff < endOff then
      let r := send_stream_frame c st s iterOff (endOff - iterOff)
      if r.2.2.1.target.isNone then (r.1, r.2.1, r.2.2.1, r.2.2.2, true)
      else sendFramesInner r.1 r.2.1 r.2.2.1 r.2.2.2 endOff fuel
    else (c, st, s, iterOff, false)

/-- The per-range loop of `send_stream_frames` (quicly.c lines 1174-1205):
for each pending range, stop untouched once `max_stream_data` forbids its
start (the C `goto ShrinkRanges` keeps ranges from the current index on),
clip the end to `max_stream_data`, advance the iterator to the range start
and drain it; a NULL target mid-range or a clipped range rewrites the
current range's start to the iterator (`goto ShrinkToIter`) and keeps the
rest.  Returns the surviving pending list ([] models
`quicly_ranges_clear`). -/
def sendFramesRanges (c : Conn) (st : Stream) (s : SendCtx) (maxStreamData iterOff : Nat) :
    List (Nat × Nat) → Conn × Stream × SendCtx × List (Nat × Nat)
  | [] => (c, st, s, [])
  | (start, e) :: rest =>
    if maxStreamData ≤ start then (c, st, s, (start, e) :: rest)
    else
      let endC := if maxStreamData < e then maxStreamData else e
      let off0 := if iterOff ≠ start then start else iterOff
      let r := sendFramesInner c st s off0 endC (endC - off0 + 1)
      if r.2.2.2.2 then (r.1, r.2.1, r.2.2.1, (r.2.2.2.1, e) :: rest)
      else if r.2.2.2.1 < e then (r.1, r.2.1, r.2.2.1, (r.2.2.2.1, e) :: rest)
      else sendFramesRanges r.1 r.2.1 r.2.2.1 maxStreamData r.2.2.2.1 rest

/-- quicly.c `send_stream_frames` (lines 1155-1206): compute the data limit
(`eos + 1` once the FIN is within one byte of `max_sent`; otherwise
`max_sent` plus the remaining per-stream window, clamped by the
connection-level window for non-crypto streams and stepped over the
virtual EOS byte when it lands exactly on it), then drain the pending
ranges from a fresh data iterator and store the surviving pending set.
The uint64 subtractions cannot underflow because a sender never emits
beyond its advertised limits. -/
def send_stream_frames (c : Conn) (st : Stream) (s : SendCtx) : Conn × SendCtx :=
  let maxStreamData :=
    if st.sendbuf.eos ≤ st.maxSent + 1 then st.sendbuf.eos + 1
    else
      let delta := st.maxStreamData - st.maxSent
      let delta :=
        if st.streamId ≠ 0 ∧ c.maxDataPermitted - c.maxDataSent < delta then
          c.maxDataPermitted - c.maxDataSent
        else delta
      let v := st.maxSent + delta
      if v = st.sendbuf.eos then v + 1 else v
  let r := sendFramesRanges c st s maxStreamData st.sendbuf.dataOff st.sendbuf.pending
  let st2 := r.2.1
  ((r.1).setStream { st2 with sendbuf := { st2.sendbuf with pending := r.2.2.2 } }, r.2.2.1)

/-- quicly.c `prepare_stream_state_sender` (lines 1208-1225): reserve frame
space (the source passes `QUICLY_STOP_SENDING_FRAME_SIZE` to
`prepare_packet` regardless of the `min_space` argument it received, line
1214), append a stream-state ack-book entry and move the addressed sender
to UNACKED; a NULL target returns with the sender untouched. -/
def prepare_stream_state_sender (c : Conn) (st : Stream) (s : SendCtx) (isRst : Bool) :
    Conn × Stream × SendCtx :=
  let r := prepare_packet c s STOP_SENDING_FRAME_SIZE
  match r.2.target with
  | none => (r.1, st, r.2)
  | some _ =>
    let en : AckEntry := ⟨r.1.packetNumber, r.2.now,
      if isRst then AckData.stateSenderRst st.streamId
      else AckData.stateSenderStopSending st.streamId⟩
    let c2 := { r.1 with acks := r.1.acks ++ [en] }
    let st2 :=
      if isRst then { st with rst := { st.rst with senderState := SenderState.stateUnacked } }
      else { st with stopSending := { st.stopSending with senderState := SenderState.stateUnacked } }
    (c2, st2, r.2)

/-- The MAX_STREAM_DATA advertisement and STREAM-frame tail of
`send_stream` (quicly.c lines 1253-1260): a NULL target after
`send_max_stream_data_frame` is not an early return in the source (the
function returns 0), so control still falls through to
`send_stream_frames`. -/
def sendStreamData (c : Conn) (st : Stream) (s : SendCtx) : Conn × SendCtx :=
  let r :=
    if st.maxStreamDataSender.shouldUpdate st.recvbuf.dataOff st.window 512 then
      send_max_stream_data_frame c st s
    else (c, st, s)
  send_stream_frames r.1 r.2.1 r.2.2

/-- The RST_STREAM branch of `send_stream` (quicly.c lines 1244-1251): a
pending RST is encoded (with `max_sent` as the final offset) and the
function returns without sending stream frames; the encode advances the
write offset by the fixed RST frame size even though only the smaller
STOP_SENDING budget was reserved (the source's latent overrun, line
1245 versus line 1214).  Stream mutations are written back to the table on
every exit path (the C code mutates the stream in place). -/
def sendStreamAfterStop (c : Conn) (st : Stream) (s : SendCtx) : Conn × SendCtx :=
  if st.rst.senderState = SenderState.stateSend then
    let r := prepare_stream_state_sender c st s true
    match r.2.2.target with
    | none => ((r.1).setStream r.2.1, r.2.2)
    | some t =>
      ((r.1).setStream r.2.1,
       { r.2.2 with target := some { t with dst := t.dst + RST_FRAME_SIZE } })
  else sendStreamData c st s

/-- quicly.c `send_stream` (lines 1227-1261): destroy the stream if it is
no longer needed; otherwise send STOP_SENDING if pending (returning early
only when the packet vector is exhausted), then RST_STREAM if pending
(which ends the stream's output), then the MAX_STREAM_DATA advertisement
and STREAM frames. -/
def send_stream (c : Conn) (st : Stream) (s : SendCtx) : Conn × SendCtx :=
  let d := destroy_stream_if_unneeded c st
  if d.2 then (d.1, s)
  else
    if st.stopSending.senderState = SenderState.stateSend then
      let r := prepare_stream_state_sender d.1 st s false
      match r.2.2.target with
      | none => ((r.1).setStream r.2.1, r.2.2)
      | some t =>
        sendStreamAfterStop r.1 r.2.1
          { r.2.2 with target := some { t with dst := t.dst + STOP_SENDING_FRAME_SIZE } }
    else sendStreamAfterStop d.1 st s

/-- The `kh_foreach_value` loop of `quicly_send` (quicly.c lines
1331-1336): drive `send_stream` for every non-crypto stream.  The C hash
table iterates in unspecified order; the model walks a snapshot of the
stream ids in table order, looking each up again since `send_stream` may
destroy its stream. -/
def sendEachStream (c : Conn) (s : SendCtx) : List Nat → Conn × SendCtx
  | [] => (c, s)
  | sid :: rest =>
    let r :=
      if sid ≠ 0 then
        match c.getStream sid with
        | some st => send_stream c st s
        | none => (c, s)
      else (c, s)
    sendEachStream r.1 r.2 rest

/-- The encrypted phase of `quicly_send` (quicly.c lines 1320-1339), run
only in state `1RTT_ENCRYPTED`: switch to the key-phase-0 packet type and
AEAD, emit pending ACKs, a MAX_DATA update when the MaxSender advises it,
stream frames for every non-crypto stream, and commit any partial
packet. -/
def quicly_send_phase2 (c : Conn) (s : SendCtx) : Conn × List SentPacket × Option Err :=
  if c.state = QState.oneRttEncrypted then
    let s1 := { s with packetType := PACKET_TYPE_1RTT_KEY_PHASE_0,
                       aead := c.egressPP.aeadKeyPhase0 }
    let r1 := send_ack c s1
    let r2 :=
      if (r1.1).ingressMaxDataSender.shouldUpdate ((r1.1).bytesConsumed / 1024)
          (r1.1).ctx.transportParams.initialMaxDataKb 512 then
        send_max_data_frame r1.1 r1.2
      else r1
    let r3 := sendEachStream r2.1 r2.2 ((r2.1).streams.map fun st => st.streamId)
    match (r3.2).target with
    | some _ =>
      let r4 := commit_send_packet r3.1 r3.2
      (r4.1, (r4.2).packets, none)
    | none => (r3.1, (r3.2).packets, none)
  else (c, s.packets, none)

/-- The CLIENT_INITIAL finalisation and partial-packet commit of
`quicly_send` (quicly.c lines 1308-1318), followed by the encrypted
phase: a partial CLIENT_INITIAL with other packets already committed
fails with `handshake-too-large` (returning directly, without storing the
packet count, line 1311); a sole partial CLIENT_INITIAL is padded to
exactly 1272 payload bytes before the FNV-1a-64 tag (`max_size`, line
1312); any other partial packet is committed as is. -/
def quicly_send_finalize (r2 : Conn × SendCtx) : Conn × List SentPacket × Option Err :=
  match (r2.2).target with
  | some t =>
    if (r2.2).packetType = PACKET_TYPE_CLIENT_INITIAL then
      if (r2.2).numPackets ≠ 0 then (r2.1, (r2.2).packets, some Err.handshakeTooLarge)
      else
        let r3 := commit_send_packet r2.1 { r2.2 with target := some { t with dst := 1272 } }
        quicly_send_phase2 r3.1 r3.2
    else
      let r3 := commit_send_packet r2.1 r2.2
      quicly_send_phase2 r3.1 r3.2
  | none => quicly_send_phase2 r2.1 r2.2

/-- quicly.c `quicly_send` (lines 1281-1345): run the timeout handler,
pick the cleartext packet type by role and state, emit ACKs unless they
must be encrypted or the type is CLIENT_INITIAL, drive the crypto stream,
then finalise (`quicly_send_finalize`) and run the encrypted phase.  The
model's ack-book callbacks cannot fail, so `handle_timeouts` never takes
the error exit; stream 0 always exists (created with the connection), the
`none` arm mirrors the source's unchecked `quicly_get_stream` result. -/
def quicly_send (c0 : Conn) (now0 : Int) (maxPackets : Nat) :
    Conn × List SentPacket × Option Err :=
  let c := (handle_timeouts c0 now0).1
  let ptype :=
    if c.isClient then
      if c.state = QState.beforeSH then PACKET_TYPE_CLIENT_INITIAL
      else PACKET_TYPE_CLIENT_CLEARTEXT
    else PACKET_TYPE_SERVER_CLEARTEXT
  let s0 : SendCtx :=
    { packetType := ptype, aead := none, now := now0, maxPackets := maxPackets,
      numPackets := 0, packets := [], target := none }
  let r1 :=
    if ¬c.acksRequireEncryption ∧ ptype ≠ PACKET_TYPE_CLIENT_INITIAL then send_ack c s0
    else (c, s0)
  quicly_send_finalize
    (match (r1.1).getStream 0 with
     | some st => send_stream r1.1 st r1.2
     | none => r1)

/-! ### Concrete states for the send-path claims -/

/-- A fully committed CLIENT_INITIAL packet: 1272 payload bytes before the
FNV-1a-64 tag and no ACK frames. -/
def clientInitialFull : SentPacket :=
  ⟨PACKET_TYPE_CLIENT_INITIAL, 1272, 0⟩

/-- The greedy packet count of a first-flight of `F` stream-0 bytes under
`max_packet_size = 1280`: the first packet holds
`1280 - 8 - 17 - (1 + 1 + 0) = 1253` payload bytes (type byte, 1-byte
stream id, no offset field at offset 0), and every further packet holds
`1280 - 8 - 17 - (1 + 1 + 2) = 1251` bytes (2-byte offset field). -/
def flightPackets (F : Nat) : Nat :=
  if F ≤ 1253 then 1 else 1 + (F - 1253 + 1250) / 1251

/-- A crypto stream holding `L` freshly written, un-sent bytes (the state
after `quicly_sendbuf_write` of the ClientHello): pending range `[0, L)`,
EOS unset, nothing sent yet, windows at the configured 8192. -/
def c4stream (L : Nat) : Stream :=
  { streamId := 0
    sendbuf := { dataOff := 0, len := L, eos := U64MAX, pending := [(0, L)], ackedRanges := [] }
    recvbuf := Recvbuf.init
    maxStreamData := 8192
    maxSent := 0
    stopSending := ⟨SenderState.stateNone, 0⟩
    rst := ⟨SenderState.stateNone, 0⟩
    maxStreamDataSender := Maxsender.init 8192
    window := 8192
    rstReason := none
    closeCalled := false
    origin := StreamOrigin.crypto }

/-- A freshly connected client (state `BEFORE_SH`) whose crypto stream
holds an `L`-byte ClientHello awaiting its first flight. -/
def c4conn (L : Nat) : Conn :=
  { ctx := sampleCtx
    connectionId := 0
    state := QState.beforeSH
    hostNumStreams := 0
    hostNextStreamId := 1
    peerNumStreams := 0
    peerNextStreamId := 2
    peerTransportParams := transport_params_before_handshake
    streams := [c4stream L]
    ingressPP := PacketProtection.initial
    ackQueue := []
    bytesConsumed := 0
    ingressMaxDataSender := Maxsender.init 16
    egressPP := PacketProtection.initial
    acks := []
    packetNumber := 0
    maxDataPermitted := 0
    maxDataSent := 0
    acksRequireEncryption := false
    createdAsClient := true }

/-- Whether a packet type is sent in cleartext (FNV-1a-64 protected):
CLIENT_INITIAL, SERVER_CLEARTEXT or CLIENT_CLEARTEXT. -/
def cleartextType (pt : Nat) : Prop :=
  pt = PACKET_TYPE_CLIENT_INITIAL ∨ pt = PACKET_TYPE_SERVER_CLEARTEXT ∨
    pt = PACKET_TYPE_CLIENT_CLEARTEXT

instance (pt : Nat) : Decidable (cleartextType pt) := by
  unfold cleartextType; infer_instance

/-- Invariant of claim C8: no committed packet of a cleartext type carries
an ACK frame, and neither does a cleartext in-progress target. -/
def CleartextAckFree (s : SendCtx) : Prop :=
  (∀ pk ∈ s.packets, cleartextType pk.ptype → pk.ackFrames = 0) ∧
  (∀ t, s.target = some t → cleartextType t.ptype → t.ackFrames = 0)

/-- Configuration fields of the send context that no send-path helper
writes: the packet type and AEAD selected by `quicly_send`, the packet
vector capacity and the timestamp. -/
def SameCfg (a b : SendCtx) : Prop :=
  a.packetType = b.packetType ∧ a.aead = b.aead ∧ a.maxPackets = b.maxPackets ∧
    a.now = b.now

/-- A server that has installed its ingress 1-RTT key (so protected
key-phase-0 packets decrypt) but has not latched
`acks_require_encryption`. -/
def c8recvConn : Conn :=
  { sampleServer with
    ingressPP := { PacketProtection.initial with aeadKeyPhase0 := some () } }

/-- A protected key-phase-0 packet carrying one MAX_DATA frame (an
ack-eliciting frame). -/
def c8packet : DecodedPacket :=
  { ptype := PACKET_TYPE_1RTT_KEY_PHASE_0
    isLongHeader := true
    hasConnectionId := true
    connectionId := 0
    packetNumber := 3
    frames := [Frame.maxData 999]
    authOk := true }

/-- A server with `acks_require_encryption` latched, a pending ack range
and pending crypto-stream data, used to observe that `quicly_send` keeps
its cleartext packets free of ACK frames. -/
def c8sendConn : Conn :=
  { sampleServer with
    ingressPP := { PacketProtection.initial with aeadKeyPhase0 := some () }
    acksRequireEncryption := true
    ackQueue := [(3, 4)]
    streams := [c4stream 100] }

/-- The initial send context built by `quicly_send` (quicly.c lines
1296-1300) for a CLIENT_INITIAL flight with a packet vector of capacity
`mp` at time 0. -/
def c4ctx (mp : Nat) : SendCtx :=
  { packetType := PACKET_TYPE_CLIENT_INITIAL, aead := none, now := 0, maxPackets := mp,
    numPackets := 0, packets := [], target := none }

end Quicly

namespace Quicly

/-! ### Helper lemmas -/

theorem rangesContains_update :
    ∀ (rs : List (Nat × Nat)) (s e n : Nat), s ≤ n → n < e →
      rangesContains (rangesUpdate rs s e) n = true := by
  intro rs
  induction rs with
  | nil =>
    intro s e n h1 h2
    simp [rangesUpdate, rangesContains, h1, h2]
  | cons hd tl ih =>
    intro s e n h1 h2
    obtain ⟨a, b⟩ := hd
    by_cases hc1 : e < a
    · simp [rangesUpdate, hc1, rangesContains, h1, h2]
    · by_cases hc2 : b < s
      · have := ih s e n h1 h2
        simp [rangesUpdate, hc1, hc2, rangesContains] at this ⊢
        exact Or.inr this
      · have hmin : min a s ≤ n := le_trans (min_le_right a s) h1
        have hmax : n < max b e := lt_of_lt_of_le h2 (le_max_right b e)
        have := ih (min a s) (max b e) n hmin hmax
        simp [rangesUpdate, hc1, hc2]
        exact this

theorem timeoutsGo_spec (b : Int) :
    ∀ (l : List AckEntry) (c : Conn),
      timeoutsGo b c l =
        ((l.takeWhile fun e => e.sentAt ≤ b).foldl (fun cc e => applyAck cc false e) c,
         l.dropWhile (fun e => e.sentAt ≤ b),
         l.takeWhile fun e => e.sentAt ≤ b) := by
  intro l
  induction l with
  | nil => intro c; simp [timeoutsGo]
  | cons e rest ih =>
    intro c
    by_cases h : b < e.sentAt
    · have hp : decide (e.sentAt ≤ b) = false := by
        simp only [decide_eq_false_iff_not, not_le]; exact h
      simp [timeoutsGo, h, List.takeWhile_cons, List.dropWhile_cons, hp]
    · have hle : e.sentAt ≤ b := not_lt.mp h
      have hp : decide (e.sentAt ≤ b) = true := by simpa using hle
      simp [timeoutsGo, h, List.takeWhile_cons, List.dropWhile_cons, hp, ih]

theorem takeWhile_eq_filter_of_sortedBy {α : Type} (f : α → Int) (b : Int) :
    ∀ l : List α, l.Pairwise (fun x y => f x ≤ f y) →
      l.takeWhile (fun x => f x ≤ b) = l.filter (fun x => f x ≤ b) ∧
      l.dropWhile (fun x => f x ≤ b) = l.filter (fun x => ¬(f x ≤ b)) := by
  intro l
  induction l with
  | nil => intro _; simp
  | cons a rest ih =>
    intro hp
    have hrest := (List.pairwise_cons.mp hp).2
    have hall := (List.pairwise_cons.mp hp).1
    obtain ⟨ih1, ih2⟩ := ih hrest
    by_cases h : f a ≤ b
    · have hpa : decide (f a ≤ b) = true := by simpa using h
      simp [List.takeWhile_cons, List.dropWhile_cons, hpa, ih1, ih2, List.filter_cons,
        not_lt.mpr h]
    · have hpa : decide (f a ≤ b) = false := by simpa using h
      have hb : b < f a := not_le.mp h
      have hnone : rest.filter (fun x => decide (f x ≤ b)) = [] := by
        rw [List.filter_eq_nil_iff]
        intro x hx
        simpa using not_le.mpr (lt_of_lt_of_le hb (hall x hx))
      have hself : rest.filter (fun x => decide (b < f x)) = rest := by
        rw [List.filter_eq_self]
        intro x hx
        simpa using lt_of_lt_of_le hb (hall x hx)
      simp [List.takeWhile_cons, List.dropWhile_cons, hpa, List.filter_cons, hnone, hself, hb]

theorem PreservedR.rfl {a : Conn} : PreservedR a a := by
  simp [PreservedR]

theorem PreservedR.trans {a b c : Conn} (h1 : PreservedR a b) (h2 : PreservedR b c) :
    PreservedR a c := by
  obtain ⟨x1, x2, x3, x4, x5, x6, x7, x8, x9⟩ := h1
  obtain ⟨y1, y2, y3, y4, y5, y6, y7, y8, y9⟩ := h2
  exact ⟨x1.trans y1, x2.trans y2, x3.trans y3, x4.trans y4, x5.trans y5,
    x6.trans y6, x7.trans y7, x8.trans y8, x9.trans y9⟩

theorem setStream_preserved (c : Conn) (st : Stream) : PreservedR (c.setStream st) c := by
  simp [Conn.setStream, PreservedR]

theorem open_stream_preserved (c : Conn) (sid : Nat) (o : StreamOrigin) :
    PreservedR (open_stream c sid o).1 c := by
  simp [open_stream, PreservedR]

theorem destroy_stream_preserved (c : Conn) (st : Stream) :
    PreservedR (destroy_stream c st) c := by
  simp only [destroy_stream]
  split_ifs <;> simp [PreservedR]

theorem destroy_stream_if_unneeded_preserved (c : Conn) (st : Stream) :
    PreservedR (destroy_stream_if_unneeded c st).1 c := by
  unfold destroy_stream_if_unneeded
  split
  · exact PreservedR.rfl
  · split
    · exact PreservedR.rfl
    · split
      · exact PreservedR.rfl
      · exact destroy_stream_preserved c st

theorem reset_sender_preserved (c : Conn) (sid reason : Nat) :
    PreservedR (reset_sender c sid reason) c := by
  unfold reset_sender
  split
  · exact PreservedR.rfl
  · split
    · exact PreservedR.rfl
    · exact setStream_preserved _ _

theorem on_ack_stream_preserved (c : Conn) (acked : Bool) (sid s e : Nat) :
    PreservedR (on_ack_stream c acked sid s e) c := by
  unfold on_ack_stream
  split
  · exact PreservedR.rfl
  · split
    · exact PreservedR.trans (destroy_stream_if_unneeded_preserved _ _) (setStream_preserved _ _)
    · exact setStream_preserved _ _

theorem on_ack_max_stream_data_preserved (c : Conn) (acked : Bool) (sid v : Nat) :
    PreservedR (on_ack_max_stream_data c acked sid v) c := by
  unfold on_ack_max_stream_data
  split
  · exact PreservedR.rfl
  · exact setStream_preserved _ _

theorem on_ack_max_data_preserved (c : Conn) (acked : Bool) (v : Nat) :
    PreservedR (on_ack_max_data c acked v) c := by
  unfold on_ack_max_data
  split <;> simp [PreservedR]

theorem on_ack_stream_state_sender_preserved (c : Conn) (acked : Bool) (sid : Nat) (isRst : Bool) :
    PreservedR (on_ack_stream_state_sender c acked sid isRst) c := by
  unfold on_ack_stream_state_sender
  split
  · exact PreservedR.rfl
  · split
    · exact PreservedR.trans (destroy_stream_if_unneeded_preserved _ _) (setStream_preserved _ _)
    · exact setStream_preserved _ _

theorem applyAck_preserved (c : Conn) (acked : Bool) (en : AckEntry) :
    PreservedR (applyAck c acked en) c := by
  unfold applyAck
  cases en.data with
  | streamData sid s e => exact on_ack_stream_preserved c acked sid s e
  | maxStreamData sid v => exact on_ack_max_stream_data_preserved c acked sid v
  | maxData v => exact on_ack_max_data_preserved c acked v
  | stateSenderStopSending sid => exact on_ack_stream_state_sender_preserved c acked sid false
  | stateSenderRst sid => exact on_ack_stream_state_sender_preserved c acked sid true

theorem ackWalk_preserved :
    ∀ (n : Nat) (todo : List AckEntry) (targets : List Nat) (c : Conn) (done : List AckEntry),
      todo.length + targets.length ≤ n → PreservedR (ackWalk c done todo targets).1 c := by
  intro n
  induction n with
  | zero =>
    intro todo targets c done hle
    have ht : targets = [] := by
      cases targets
      · rfl
      · simp at hle
    subst ht
    simp [ackWalk]
    exact PreservedR.rfl
  | succ n ih =>
    intro todo targets c done hle
    match targets with
    | [] => simp [ackWalk]; exact PreservedR.rfl
    | t :: ts =>
      match todo with
      | [] => simp [ackWalk]; exact PreservedR.rfl
      | e :: rest =>
        simp only [ackWalk]
        split
        · exact ih rest (t :: ts) c (done ++ [e]) (by simp at hle ⊢; omega)
        · split
          · exact PreservedR.trans
              (ih rest (t :: ts) (applyAck c true e) done (by simp at hle ⊢; omega))
              (applyAck_preserved c true e)
          · exact ih (e :: rest) ts c done (by simp at hle ⊢; omega)

theorem handle_ack_frame_preserved (c : Conn) (f : AckFrameData) :
    PreservedR (handle_ack_frame c f).1 c := by
  unfold handle_ack_frame
  split
  · exact PreservedR.rfl
  · have h := ackWalk_preserved (c.acks.length + (ackTargets f).length) c.acks (ackTargets f)
      c [] (le_refl _)
    obtain ⟨x1, x2, x3, x4, x5, x6, x7, x8, x9⟩ := h
    exact ⟨x1, x2, x3, x4, x5, x6, x7, x8, x9⟩

theorem openPeerLoop_preserved :
    ∀ (n : Nat) (h : Host) (c : Conn) (targetId : Nat),
      targetId - c.peerNextStreamId ≤ n → PreservedR (openPeerLoop h c targetId).1 c := by
  intro n
  induction n with
  | zero =>
    intro h c targetId hle
    unfold openPeerLoop
    dsimp only
    obtain ⟨x1, x2, x3, x4, x5, x6, x7, x8, x9⟩ :=
      open_stream_preserved c c.peerNextStreamId StreamOrigin.peer
    split
    · exact ⟨x1, x2, x3, x4, x5, x6, x7, x8, x9⟩
    · split
      · exact ⟨x1, x2, x3, x4, x5, x6, x7, x8, x9⟩
      · split
        · exact ⟨x1, x2, x3, x4, x5, x6, x7, x8, x9⟩
        · exfalso
          rename_i hne hfar
          simp only [not_or, not_le] at hfar
          omega
  | succ n ih =>
    intro h c targetId hle
    unfold openPeerLoop
    dsimp only
    obtain ⟨x1, x2, x3, x4, x5, x6, x7, x8, x9⟩ :=
      open_stream_preserved c c.peerNextStreamId StreamOrigin.peer
    split
    · exact ⟨x1, x2, x3, x4, x5, x6, x7, x8, x9⟩
    · split
      · exact ⟨x1, x2, x3, x4, x5, x6, x7, x8, x9⟩
      · split
        · exact ⟨x1, x2, x3, x4, x5, x6, x7, x8, x9⟩
        · rename_i hne hfar
          simp only [not_or, not_le] at hfar
          refine PreservedR.trans (ih h _ targetId ?_) ⟨x1, x2, x3, x4, x5, x6, x7, x8, x9⟩
          have hmod : (c.peerNextStreamId + 2) % 2 ^ 32 = c.peerNextStreamId + 2 :=
            Nat.mod_eq_of_lt hfar.2
          simp only [hmod]
          omega

theorem get_stream_or_open_preserved (h : Host) (c : Conn) (sid : Nat) :
    PreservedR (get_stream_or_open_if_new h c sid).1 c := by
  simp only [get_stream_or_open_if_new]
  obtain ⟨x1, x2, x3, x4, x5, x6, x7, x8, x9⟩ :=
    openPeerLoop_preserved (sid - c.peerNextStreamId) h c sid (le_refl _)
  cases hg : c.getStream sid with
  | some st => exact PreservedR.rfl
  | none =>
    by_cases hcond : sid % 2 ≠ (if c.isClient = true then 1 else 0) ∧
        c.peerNextStreamId ≠ 0 ∧ c.peerNextStreamId ≤ sid
    · rw [if_pos hcond]
      rcases hr : (openPeerLoop h c sid).2.2 with e | os
      · simp only [hr]
        exact ⟨x1, x2, x3, x4, x5, x6, x7, x8, x9⟩
      · simp only [hr]
        by_cases hlt : (openPeerLoop h c sid).1.peerNextStreamId < 2
        · rw [if_pos hlt]
          exact ⟨x1, x2, x3, x4, x5, x6, x7, x8, x9⟩
        · rw [if_neg hlt]
          exact ⟨x1, x2, x3, x4, x5, x6, x7, x8, x9⟩
    · rw [if_neg hcond]
      exact PreservedR.rfl

theorem do_apply_stream_frame_preserved (h : Host) (c : Conn) (st : Stream) (off len : Nat) :
    PreservedR (do_apply_stream_frame h c st off len).1 c := by
  simp only [do_apply_stream_frame]
  repeat' split
  all_goals first
    | exact PreservedR.rfl
    | exact setStream_preserved _ _

theorem apply_stream_frame_preserved (h : Host) (c : Conn) (sid : Nat) (f : StreamFrameData) :
    PreservedR (apply_stream_frame h c sid f).1 c := by
  simp only [apply_stream_frame]
  repeat' split
  all_goals first
    | exact PreservedR.rfl
    | exact do_apply_stream_frame_preserved _ _ _ _ _
    | exact PreservedR.trans (do_apply_stream_frame_preserved _ _ _ _ _)
        (setStream_preserved _ _)

theorem handle_stream_frame_preserved (h : Host) (c : Conn) (f : StreamFrameData) :
    PreservedR (handle_stream_frame h c f).1 c := by
  simp only [handle_stream_frame]
  repeat' split
  all_goals first
    | exact get_stream_or_open_preserved _ _ _
    | exact PreservedR.trans (apply_stream_frame_preserved _ _ _ _)
        (get_stream_or_open_preserved _ _ _)

theorem handle_rst_stream_frame_preserved (h : Host) (c : Conn) (sid reason fo : Nat) :
    PreservedR (handle_rst_stream_frame h c sid reason fo).1 c := by
  simp only [handle_rst_stream_frame]
  repeat' split
  all_goals first
    | exact get_stream_or_open_preserved _ _ _
    | exact PreservedR.trans (setStream_preserved _ _) (get_stream_or_open_preserved _ _ _)
    | exact PreservedR.trans
        (PreservedR.trans (destroy_stream_if_unneeded_preserved _ _) (setStream_preserved _ _))
        (get_stream_or_open_preserved _ _ _)
    | exact PreservedR.trans (destroy_stream_if_unneeded_preserved _ _)
        (get_stream_or_open_preserved _ _ _)

theorem handle_max_stream_data_frame_preserved (c : Conn) (sid v : Nat) :
    PreservedR (handle_max_stream_data_frame c sid v).1 c := by
  simp only [handle_max_stream_data_frame]
  repeat' split
  all_goals first
    | exact PreservedR.rfl
    | exact setStream_preserved _ _

theorem handle_max_data_frame_preservedR (c : Conn) (kb : Nat) :
    PreservedR (handle_max_data_frame c kb).1 c := by
  simp only [handle_max_data_frame]
  split
  · exact PreservedR.rfl
  · simp [PreservedR]

theorem handle_stop_sending_frame_preserved (h : Host) (c : Conn) (sid reason : Nat) :
    PreservedR (handle_stop_sending_frame h c sid reason).1 c := by
  simp only [handle_stop_sending_frame]
  repeat' split
  all_goals first
    | exact get_stream_or_open_preserved _ _ _
    | exact PreservedR.trans (reset_sender_preserved _ _ _)
        (get_stream_or_open_preserved _ _ _)

theorem handleFrame_preserved (h : Host) (c : Conn) (f : Frame) :
    PreservedR (handleFrame h c f).1 c := by
  cases f with
  | streamF sf => exact handle_stream_frame_preserved h c sf
  | ackF af => exact handle_ack_frame_preserved c af
  | padding => exact PreservedR.rfl
  | rstStream sid reason fo => exact handle_rst_stream_frame_preserved h c sid reason fo
  | maxData kb => exact handle_max_data_frame_preservedR c kb
  | maxStreamData sid v => exact handle_max_stream_data_frame_preserved c sid v
  | stopSending sid reason => exact handle_stop_sending_frame_preserved h c sid reason

theorem receiveFrames_preserved (h : Host) :
    ∀ (l : List Frame) (c : Conn) (sa : Bool), PreservedR (receiveFrames h c l sa).1 c := by
  intro l
  induction l with
  | nil => intro c sa; simp [receiveFrames]; exact PreservedR.rfl
  | cons f rest ih =>
    intro c sa
    simp only [receiveFrames]
    split
    · exact handleFrame_preserved h c f
    · exact PreservedR.trans (ih _ _) (handleFrame_preserved h c f)

theorem handleFrame_shouldAck (h : Host) (c : Conn) (f : Frame) :
    (handleFrame h c f).2.2.2 = !f.isAckFrame := by
  cases f <;> rfl

theorem receiveFrames_shouldAck (h : Host) :
    ∀ (l : List Frame) (c : Conn) (sa : Bool),
      (receiveFrames h c l sa).2.2.1 = none →
      (receiveFrames h c l sa).2.2.2 = (sa || l.any (fun f => !f.isAckFrame)) := by
  intro l
  induction l with
  | nil => intro c sa _; simp [receiveFrames]
  | cons f rest ih =>
    intro c sa hok
    simp only [receiveFrames] at hok ⊢
    split at hok
    · simp at hok
    · rename_i heq
      simp only
      rw [ih _ _ ?_]
      · rw [handleFrame_shouldAck]
        simp [Bool.or_assoc]
      · simpa using hok

/-! ### Claim C3 -/

/-- C3 counterexample: with `initial_rto = 10` and `now = 100`, an ack-book
entry with `sent_at = 90 = now - initial_rto` satisfies
`sent_at >= now - initial_rto`, so by the claim it must remain in the ack
book; the code releases it (the remaining book is empty and its callback
was invoked with acked=false). -/
theorem C3_counterexample :
    ((90 : Int) ≥ 100 - (c3conn.ctx.initialRto : Int)) ∧
    (handle_timeouts c3conn 100).1.acks = [] ∧
    (handle_timeouts c3conn 100).2 = [⟨1, 90, AckData.maxData 16⟩] := by
  refine ⟨by decide, by rfl, by rfl⟩

/-- C3 (amended): `handle_timeouts(now)` visits the ack book from the
oldest entry and releases exactly the longest prefix of entries with
`sent_at <= now - initial_rto` (less-or-equal, not strictly less),
invoking each released entry's callback with acked=false in order; the
remaining entries stay.  For a book sorted by `sent_at` (ack entries are
appended in send order), that prefix is exactly the set of entries with
`sent_at <= now - initial_rto`, and the entries with
`sent_at > now - initial_rto` are exactly those that remain. -/
theorem C3_handle_timeouts_le_rto (c : Conn) (now : Int) :
    ((handle_timeouts c now).2
        = c.acks.takeWhile (fun e => e.sentAt ≤ now - (c.ctx.initialRto : Int)) ∧
     (handle_timeouts c now).1
        = { (c.acks.takeWhile (fun e => e.sentAt ≤ now - (c.ctx.initialRto : Int))).foldl
              (fun cc e => applyAck cc false e) c with
            acks := c.acks.dropWhile (fun e => e.sentAt ≤ now - (c.ctx.initialRto : Int)) }) ∧
    (c.acks.Pairwise (fun x y => x.sentAt ≤ y.sentAt) →
      (handle_timeouts c now).2
          = c.acks.filter (fun e => e.sentAt ≤ now - (c.ctx.initialRto : Int)) ∧
      (handle_timeouts c now).1.acks
          = c.acks.filter (fun e => ¬(e.sentAt ≤ now - (c.ctx.initialRto : Int)))) := by
  have hgo := timeoutsGo_spec (now - (c.ctx.initialRto : Int)) c.acks c
  constructor
  · constructor
    · simp [handle_timeouts, hgo]
    · simp [handle_timeouts, hgo]
  · intro hsorted
    obtain ⟨h1, h2⟩ :=
      takeWhile_eq_filter_of_sortedBy (fun e : AckEntry => e.sentAt)
        (now - (c.ctx.initialRto : Int)) c.acks hsorted
    constructor
    · simp [handle_timeouts, hgo, h1]
    · simp [handle_timeouts, hgo, h2]

/-- C3 witness: the amended theorem applied to a concrete sorted one-entry
book at `now = 100`. -/
theorem C3_witness :
    (handle_timeouts c3conn 100).2 = [⟨1, 90, AckData.maxData 16⟩] ∧
    (handle_timeouts c3conn 100).1.acks = [] := by
  have h := (C3_handle_timeouts_le_rto c3conn 100).2 (by simp [c3conn, sampleServer])
  refine ⟨h.1.trans (by rfl), h.2.trans (by rfl)⟩

/-! ### Claim C1 -/

/-- C1: the connection-id mismatch check of `quicly_receive` is dead code.
At line 1503 (`/* FIXME check peer address */`) the stored connection id is
overwritten with the packet's connection id, so the guard of lines
1505-1509 (`/* ignore packets having wrong connection id */`) can never
fire.  Concretely: a connection storing id 1 receives a PADDING-only
SERVER_CLEARTEXT packet with connection id 2; instead of stopping with the
non-fatal `packet-ignored` result and leaving the state unchanged, the
packet is fully processed — the call returns success, the stored
connection id becomes 2, and the packet number is scheduled for
acknowledgement. -/
theorem C1_connection_id_check_is_dead :
    c1conn.connectionId = 1 ∧ c1packet.connectionId = 2 ∧
    (quicly_receive quietHost c1conn c1packet).2.2 ≠ some Err.packetIgnored ∧
    (quicly_receive quietHost c1conn c1packet).2.2 = none ∧
    (quicly_receive quietHost c1conn c1packet).1.connectionId = 2 ∧
    rangesContains (quicly_receive quietHost c1conn c1packet).1.ackQueue
      c1packet.packetNumber = true := by
  refine ⟨rfl, rfl, by decide, by decide, by decide, by decide⟩

/-! ### Claim C2 -/

/-- C2 counterexample: a successfully processed packet whose payload is a
single PADDING frame does have its packet number added to the ingress ack
queue — the `else` arm of the frame dispatch sets `should_ack = 1` for
PADDING as well (quicly.c lines 1593-1631), contradicting the claim that a
solely-PADDING packet does not schedule its number. -/
theorem C2_counterexample :
    c2packet.frames = [Frame.padding] ∧
    (quicly_receive quietHost sampleServer c2packet).2.2 = none ∧
    rangesContains (quicly_receive quietHost sampleServer c2packet).1.ackQueue
      c2packet.packetNumber = true := by
  refine ⟨rfl, by decide, by decide⟩

/-- C2 (amended): for every packet processed successfully by `quicly_receive`
(the packet-type dispatch proceeding to frame processing), the packet's
number is added to the ingress ack queue if and only if the payload
contained at least one frame other than an ACK frame; PADDING frames count
as acknowledgement-eliciting, so a solely-PADDING packet does schedule its
packet number, while a solely-ACK packet leaves the queue unchanged. -/
theorem C2_should_ack_iff_non_ack_frame (h : Host) (c : Conn) (p : DecodedPacket)
    (aead : Option Unit)
    (hsel : selectAead { c with connectionId := p.connectionId } p = AeadChoice.proceed aead)
    (hok : (quicly_receive h c p).2.2 = none) :
    (p.frames.any (fun f => !f.isAckFrame) = true →
      rangesContains (quicly_receive h c p).1.ackQueue p.packetNumber = true) ∧
    (p.frames.any (fun f => !f.isAckFrame) = false →
      (quicly_receive h c p).1.ackQueue = c.ackQueue) := by
  unfold quicly_receive at hok ⊢
  rw [if_neg (by simp)] at hok ⊢
  by_cases hlh : ¬p.isLongHeader = true ∧
      ({ c with connectionId := p.connectionId } : Conn).state ≠ QState.oneRttEncrypted
  · rw [if_pos hlh] at hok
    simp at hok
  · rw [if_neg hlh] at hok ⊢
    simp only [hsel] at hok ⊢
    by_cases hauth : ¬p.authOk = true
    · rw [if_pos hauth] at hok
      simp at hok
    · rw [if_neg hauth] at hok ⊢
      by_cases hemp : p.frames.isEmpty = true
      · rw [if_pos hemp] at hok
        simp at hok
      · rw [if_neg hemp] at hok ⊢
        rcases herr : (receiveFrames h { c with connectionId := p.connectionId } p.frames
            false).2.2.1 with _ | e
        · have hsa := receiveFrames_shouldAck h p.frames
            { c with connectionId := p.connectionId } false herr
          simp only [Bool.false_or] at hsa
          have hq : (receiveFrames h { c with connectionId := p.connectionId } p.frames
              false).1.ackQueue = c.ackQueue :=
            (receiveFrames_preserved h p.frames { c with connectionId := p.connectionId }
              false).2.2.2.2.2.1
          simp only [herr, hsa]
          constructor
          · intro hany
            rw [hany, if_pos rfl]
            cases aead with
            | none =>
              simp only [Option.isSome_none, Bool.false_eq_true, if_false]
              exact rangesContains_update _ _ _ _ (le_refl _) (Nat.lt_succ_self _)
            | some u =>
              simp only [Option.isSome_some, if_true]
              exact rangesContains_update _ _ _ _ (le_refl _) (Nat.lt_succ_self _)
          · intro hnone
            rw [hnone, if_neg Bool.false_ne_true]
            exact hq
        · rw [herr] at hok
          simp at hok

/-- C2 witness: the amended theorem applied to a server receiving a
CLIENT_CLEARTEXT packet carrying one MAX_DATA frame (a non-ACK frame), so
its packet number 11 is scheduled for acknowledgement. -/
theorem C2_witness :
    c2packetB.frames.any (fun f => !f.isAckFrame) = true ∧
    rangesContains (quicly_receive quietHost sampleServer c2packetB).1.ackQueue
      c2packetB.packetNumber = true := by
  have h := C2_should_ack_iff_non_ack_frame quietHost sampleServer c2packetB none
    (by decide) (by decide)
  exact ⟨by decide, h.1 (by decide)⟩

/-! ### Claim C5 -/

/-- C5 counterexample: a MAX_DATA frame whose value (1 KB = 1024) regresses
the permitted limit (2048) fails with the placeholder error kind `tbd`
(the site is only annotated `/* FLOW_CONTROL_ERROR */`), not with the
taxonomy's distinct `flow-control-error` kind; the limit is left
unchanged. -/
theorem C5_counterexample :
    (1 : Nat) * 1024 < c5conn.maxDataPermitted ∧
    handle_max_data_frame c5conn 1 = (c5conn, some Err.tbd) ∧
    some Err.tbd ≠ some Err.flowControlError := by
  refine ⟨by decide, by rfl, by decide⟩

/-- C5 (amended): `handle_max_data_frame` raises
`egress.max_data.permitted` to `max_data_kb * 1024` whenever that does not
decrease the current limit, and `handle_max_stream_data_frame` raises an
existing stream's `max_stream_data` to the frame's value likewise; a frame
whose value would regress the limit fails — with the placeholder error
code `tbd` (annotated FLOW_CONTROL_ERROR in the source), not a distinct
flow-control-error kind — and leaves the limit unchanged. -/
theorem C5_flow_control_limits_monotone :
    (∀ (c : Conn) (kb : Nat),
      (kb * 1024 < c.maxDataPermitted →
        handle_max_data_frame c kb = (c, some Err.tbd)) ∧
      (c.maxDataPermitted ≤ kb * 1024 →
        handle_max_data_frame c kb = ({ c with maxDataPermitted := kb * 1024 }, none))) ∧
    (∀ (c : Conn) (sid v : Nat) (st : Stream), c.getStream sid = some st →
      (v < st.maxStreamData →
        handle_max_stream_data_frame c sid v = (c, some Err.tbd)) ∧
      (st.maxStreamData ≤ v →
        handle_max_stream_data_frame c sid v =
          (c.setStream { st with maxStreamData := v }, none))) := by
  constructor
  · intro c kb
    constructor
    · intro hlt
      simp [handle_max_data_frame, hlt]
    · intro hge
      simp [handle_max_data_frame, Nat.not_lt.mpr hge]
  · intro c sid v st hst
    constructor
    · intro hlt
      simp [handle_max_stream_data_frame, hst, hlt]
    · intro hge
      simp [handle_max_stream_data_frame, hst, Nat.not_lt.mpr hge]

/-- C5 witness: raising the permitted window from 2048 to 3 KB succeeds
and stores 3072; regressing it to 1 KB fails with the placeholder error. -/
theorem C5_witness :
    handle_max_data_frame c5conn 3 = ({ c5conn with maxDataPermitted := 3072 }, none) ∧
    handle_max_data_frame c5conn 1 = (c5conn, some Err.tbd) := by
  have h3 := (C5_flow_control_limits_monotone.1 c5conn 3).2 (by decide)
  have h1 := (C5_flow_control_limits_monotone.1 c5conn 1).1 (by decide)
  exact ⟨h3, h1⟩

/-! ### Claim C6 -/

theorem getStream_streamId {c : Conn} {sid : Nat} {st : Stream}
    (h : c.getStream sid = some st) : st.streamId = sid := by
  unfold Conn.getStream at h
  have := List.find?_some h
  simpa using this

theorem destroy_if_unneeded_not_closed (c : Conn) (st : Stream) (hcc : st.closeCalled = false) :
    destroy_stream_if_unneeded c st = (c, false) := by
  simp [destroy_stream_if_unneeded, hcc]

/-- C6 counterexample: on a stream whose receive EOS was established at 42
while the received high-water mark is 30, a later RST_STREAM with
`final_offset = 30` — which differs from the established final offset 42 —
is accepted without error and without state change (the code compares the
final offset against `received.ranges[num_ranges-1].end`, not against the
recorded EOS); the claim demands that it fail.  (A retransmission of the
identical RST_STREAM with `final_offset = 42` is, conversely, rejected.) -/
theorem C6_counterexample :
    (c6conn.getStream 2).map (fun s => s.recvbuf.eos) = some 42 ∧
    (c6conn.getStream 2).map (fun s => s.recvbuf.lastEnd) = some 30 ∧
    (30 : Nat) ≠ 42 ∧
    (handle_rst_stream_frame quietHost c6conn 2 7 30).2.2 = none ∧
    (handle_rst_stream_frame quietHost c6conn 2 7 30).1 = c6conn ∧
    (handle_rst_stream_frame quietHost c6conn 2 7 42).2.2 = some Err.tbd := by
  refine ⟨by decide, by decide, by decide, by decide, by decide, by decide⟩

/-- C6 (amended): for an existing stream that is not closing.  When the
receive EOS is not yet set, an incoming RST_STREAM with `final_offset` not
below the received high-water mark (`received.ranges[num_ranges-1].end`)
marks receive-EOS at `final_offset`, records the frame's reason as
`rst_reason` and fires `on_update`; one with `final_offset` below the
high-water mark fails with the placeholder error and leaves the stream
unchanged.  When the receive EOS is already set, a later RST_STREAM is
compared against the received high-water mark, not the established final
offset: it is accepted as a no-op iff its `final_offset` equals that
high-water mark, and fails with an error otherwise (so an identical
retransmission is rejected while the EOS exceeds the high-water mark). -/
theorem C6_rst_stream_semantics (h : Host) (c : Conn) (sid reason finalOffset : Nat)
    (st : Stream) (hst : c.getStream sid = some st) (hcc : st.closeCalled = false) :
    (st.recvbuf.eos = U64MAX →
      ((finalOffset < st.recvbuf.lastEnd →
          handle_rst_stream_frame h c sid reason finalOffset = (c, [], some Err.tbd)) ∧
       (st.recvbuf.lastEnd ≤ finalOffset →
          handle_rst_stream_frame h c sid reason finalOffset =
            (c.setStream { st with recvbuf := { st.recvbuf with eos := finalOffset }
                                   rstReason := some reason },
             [Event.onUpdateFired sid], h.onUpdate sid)))) ∧
    (st.recvbuf.eos ≠ U64MAX →
      ((finalOffset ≠ st.recvbuf.lastEnd →
          handle_rst_stream_frame h c sid reason finalOffset = (c, [], some Err.tbd)) ∧
       (finalOffset = st.recvbuf.lastEnd →
          handle_rst_stream_frame h c sid reason finalOffset = (c, [], none)))) := by
  have hsid : st.streamId = sid := getStream_streamId hst
  have hget1 : get_stream_or_open_if_new h c sid = (c, [], Except.ok (some sid)) := by
    simp only [get_stream_or_open_if_new, hst, hsid]
  simp only [handle_rst_stream_frame, hget1, hst]
  constructor
  · intro heos
    constructor
    · intro hlt
      rw [if_pos heos, if_pos hlt]
    · intro hge
      rw [if_pos heos, if_neg (Nat.not_lt.mpr hge)]
      cases hu : h.onUpdate sid with
      | some e =>
        simp [Recvbuf.markEos, if_neg (Nat.not_lt.mpr hge), heos]
      | none =>
        simp [Recvbuf.markEos, if_neg (Nat.not_lt.mpr hge), heos,
          destroy_stream_if_unneeded, hcc]
  · intro heos
    rw [if_neg heos]
    constructor
    · intro hne
      rw [if_pos hne]
    · intro heq
      rw [if_neg (by simpa using heq)]
      rw [destroy_if_unneeded_not_closed _ _ hcc]

/-- C6 witness: the amended theorem applied to a stream with high-water
mark 30 and EOS unset receiving RST_STREAM with final offset 42 and
reason 7: EOS is marked at 42, the reason recorded, `on_update` fired. -/
theorem C6_witness :
    ((handle_rst_stream_frame quietHost c6connUnset 2 7 42).1.getStream 2).map
        (fun s => (s.recvbuf.eos, s.rstReason)) = some (42, some 7) ∧
    (handle_rst_stream_frame quietHost c6connUnset 2 7 42).2.1 = [Event.onUpdateFired 2] ∧
    (handle_rst_stream_frame quietHost c6connUnset 2 7 42).2.2 = none := by
  have h := ((C6_rst_stream_semantics quietHost c6connUnset 2 7 42 c6streamEosUnset
    (by decide) (by rfl)).1 (by rfl)).2 (by decide)
  rw [h]
  refine ⟨by decide, by rfl, by rfl⟩

/-! ### Claim C7 -/

theorem be16_round {v : Nat} (hv : v < 2 ^ 16) : v / 256 % 256 * 256 + v % 256 = v := by
  omega

theorem decode32_of_len4 {l : List Nat} (h : l.length = 4) :
    decode32 l = some (beNat l, []) := by
  rcases l with _ | ⟨a, l⟩
  · simp at h
  rcases l with _ | ⟨b, l⟩
  · simp at h
  rcases l with _ | ⟨c, l⟩
  · simp at h
  rcases l with _ | ⟨d, l⟩
  · simp at h
  rcases l with _ | ⟨e, l⟩
  · simp [decode32, beNat]
  · simp at h

theorem decode16_of_len2 {l : List Nat} (h : l.length = 2) :
    decode16 l = some (beNat l, []) := by
  rcases l with _ | ⟨a, l⟩
  · simp at h
  rcases l with _ | ⟨b, l⟩
  · simp at h
  rcases l with _ | ⟨c, l⟩
  · simp [decode16, beNat]
  · simp at h

theorem applyParamValue_wf (p : TransportParams) (it : Nat × List Nat) (hwf : wfItem it) :
    applyParamValue p it.1 it.2 = (storeParam p it, none) := by
  obtain ⟨hid, hlen, h012, h3, h4⟩ := hwf
  by_cases h0 : it.1 = 0
  · simp [applyParamValue, storeParam, h0, decode32_of_len4 (h012 (Or.inl h0))]
  · by_cases h1 : it.1 = 1
    · simp [applyParamValue, storeParam, h0, h1, decode32_of_len4 (h012 (Or.inr (Or.inl h1)))]
    · by_cases h2 : it.1 = 2
      · simp [applyParamValue, storeParam, h0, h1, h2,
          decode32_of_len4 (h012 (Or.inr (Or.inr h2)))]
      · by_cases h3' : it.1 = 3
        · simp [applyParamValue, storeParam, h0, h1, h2, h3', decode16_of_len2 (h3 h3')]
        · by_cases h4' : it.1 = 4
          · simp [applyParamValue, storeParam, h0, h1, h2, h3', h4', h4 h4']
          · simp [applyParamValue, storeParam, h0, h1, h2, h3', h4']

theorem testBit_or_shift (x i j : Nat) :
    (x ||| 1 <<< i).testBit j = (x.testBit j || decide (i = j)) := by
  rw [Nat.testBit_or, Nat.shiftLeft_eq, one_mul, Nat.testBit_two_pow]

theorem testBit_fifteen (j : Nat) : (15 : Nat).testBit j = decide (j < 4) := by
  rcases j with _ | _ | _ | _ | j
  · decide
  · decide
  · decide
  · decide
  · rw [Nat.testBit_eq_false_of_lt]
    · simp
    · calc (15 : Nat) < 2 ^ 4 := by decide
        _ ≤ 2 ^ (j + 4) := Nat.pow_le_pow_right (by decide) (by omega)

theorem decodeTPInner_enc :
    ∀ (items : List (Nat × List Nat)) (p : TransportParams) (found : Nat),
      (∀ it ∈ items, wfItem it) →
      decodeTPInner p found (encodeTPItems items) = specLoop p found items := by
  intro items
  induction items with
  | nil =>
    intro p found _
    show decodeTPInner p found [] = specLoop p found []
    conv_lhs => rw [decodeTPInner.eq_def]
    rfl
  | cons it rest ih =>
    intro p found hwf
    have hw := hwf it (by simp)
    have hid : it.1 < 2 ^ 16 := hw.1
    have hlen : it.2.length < 2 ^ 16 := hw.2.1
    have henc : encodeTPItems (it :: rest) =
        it.1 / 256 % 256 :: it.1 % 256 :: it.2.length / 256 % 256 :: it.2.length % 256 ::
          (it.2 ++ encodeTPItems rest) := by
      simp [encodeTPItems, encodeTPItem, encode16]
    rw [henc]
    conv_lhs => rw [decodeTPInner.eq_def]
    simp only [be16_round hid, be16_round hlen]
    by_cases hdup : it.1 < 64 ∧ Nat.testBit found it.1 = true
    · rw [if_pos hdup]
      simp only [specLoop]
      rw [if_pos hdup]
    · rw [if_neg hdup]
      have hle : it.2.length ≤ (it.2 ++ encodeTPItems rest).length := by simp
      rw [if_pos hle, List.take_left, List.drop_left, applyParamValue_wf p it hw]
      simp only [specLoop]
      rw [if_neg hdup]
      exact ih (storeParam p it) (found ||| 1 <<< (it.1 % 64)) (fun x hx => hwf x (by simp [hx]))

theorem specLoop_error_shape :
    ∀ (items : List (Nat × List Nat)) (p : TransportParams) (found : Nat),
      (specLoop p found items).2.2 = none ∨
      (specLoop p found items).2.2 = some Err.invalidStreamData := by
  intro items
  induction items with
  | nil => intro p found; exact Or.inl rfl
  | cons it rest ih =>
    intro p found
    simp only [specLoop]
    by_cases hdup : it.1 < 64 ∧ Nat.testBit found it.1 = true
    · rw [if_pos hdup]
      exact Or.inr rfl
    · rw [if_neg hdup]
      exact ih _ _

theorem specLoop_ok_iff :
    ∀ (items : List (Nat × List Nat)) (p : TransportParams) (found : Nat),
      ((specLoop p found items).2.2 = none ↔
        noTrackedDup found (items.map Prod.fst) = true) := by
  intro items
  induction items with
  | nil =>
    intro p found
    simp [specLoop, noTrackedDup]
  | cons it rest ih =>
    intro p found
    simp only [specLoop, List.map_cons, noTrackedDup]
    by_cases hdup : it.1 < 64 ∧ Nat.testBit found it.1 = true
    · rw [if_pos hdup, if_pos hdup]
      simp
    · rw [if_neg hdup, if_neg hdup]
      exact ih _ _

theorem specLoop_found_bits :
    ∀ (items : List (Nat × List Nat)) (p : TransportParams) (found : Nat),
      (specLoop p found items).2.2 = none →
      ∀ j, (specLoop p found items).2.1.testBit j =
        (found.testBit j || decide (j ∈ items.map (fun it => it.1 % 64))) := by
  intro items
  induction items with
  | nil =>
    intro p found _ j
    simp [specLoop]
  | cons it rest ih =>
    intro p found hok j
    simp only [specLoop] at hok ⊢
    by_cases hdup : it.1 < 64 ∧ Nat.testBit found it.1 = true
    · rw [if_pos hdup] at hok
      simp at hok
    · rw [if_neg hdup] at hok ⊢
      rw [ih _ _ hok j, testBit_or_shift]
      simp only [List.map_cons, List.mem_cons]
      by_cases hj : j = it.1 % 64
      · simp [hj]
      · have h1 : decide (it.1 % 64 = j) = false := by
          simp only [decide_eq_false_iff_not]
          exact fun hh => hj hh.symm
        have h2 : decide (j = it.1 % 64 ∨ j ∈ rest.map (fun it => it.1 % 64)) =
            decide (j ∈ rest.map (fun it => it.1 % 64)) := by
          simp [hj]
        rw [h1, h2]
        cases found.testBit j <;> simp

theorem specLoop_params_eq :
    ∀ (items : List (Nat × List Nat)) (p : TransportParams) (found : Nat),
      (specLoop p found items).2.2 = none →
      (specLoop p found items).1 = items.foldl storeParam p := by
  intro items
  induction items with
  | nil => intro p found _; rfl
  | cons it rest ih =>
    intro p found hok
    simp only [specLoop] at hok ⊢
    by_cases hdup : it.1 < 64 ∧ Nat.testBit found it.1 = true
    · rw [if_pos hdup] at hok
      simp at hok
    · rw [if_neg hdup] at hok ⊢
      rw [ih _ _ hok]
      rfl

theorem and_fifteen_iff (x : Nat) :
    x &&& 15 = 15 ↔
      (x.testBit 0 = true ∧ x.testBit 1 = true ∧ x.testBit 2 = true ∧ x.testBit 3 = true) := by
  constructor
  · intro hx
    have hbit : ∀ j, (x &&& 15).testBit j = (15 : Nat).testBit j := fun j => by rw [hx]
    refine ⟨?_, ?_, ?_, ?_⟩ <;>
      · have := hbit 0
        have h1 := hbit 1
        have h2 := hbit 2
        have h3 := hbit 3
        rw [Nat.testBit_and] at this h1 h2 h3
        simp only [testBit_fifteen] at this h1 h2 h3
        simp_all
  · intro ⟨b0, b1, b2, b3⟩
    apply Nat.eq_of_testBit_eq
    intro j
    rw [Nat.testBit_and, testBit_fifteen]
    rcases j with _ | _ | _ | _ | j
    · simp [b0]
    · simp [b1]
    · simp [b2]
    · simp [b3]
    · simp

theorem foldl_storeParam_truncate :
    ∀ (items : List (Nat × List Nat)) (p : TransportParams),
      (4 : Nat) ∉ items.map Prod.fst →
      (items.foldl storeParam p).truncateConnectionId = p.truncateConnectionId := by
  intro items
  induction items with
  | nil => intro p _; rfl
  | cons it rest ih =>
    intro p h4
    simp only [List.map_cons, List.mem_cons, not_or] at h4
    rw [List.foldl_cons, ih _ h4.2]
    have hne : it.1 ≠ 4 := fun hh => h4.1 hh.symm
    unfold storeParam
    split_ifs <;> simp_all

/-- C7 counterexample: the claim says decoding fails with
`invalid-stream-data` whenever a mandatory id (here 0) is absent.  But the
unconditional `found_id_bits |= (uint64_t)1 << id` at quicly.c line 564
also runs for unknown ids >= 64, and the compiled 64-bit shift masks the
count modulo 64, so the unknown id 64 aliases onto bit 0: the list
`[(64, ...), (1, ...), (2, ...), (3, ...)]` passes the mandatory-bits
check and decodes successfully, with `initial_max_stream_data` (id 0)
never stored — it keeps its prior value 1. -/
theorem C7_counterexample :
    decode_transport_parameter_list ⟨1, 2, 3, 4, true⟩
        (encodeTPList [(64, []), (1, [0, 0, 0, 16]), (2, [0, 0, 0, 100]), (3, [0, 60])]) =
      (⟨1, 16, 100, 60, false⟩, none) := by
  have henc : encodeTPList [(64, []), (1, [0, 0, 0, 16]), (2, [0, 0, 0, 100]), (3, [0, 60])] =
      0 :: 26 ::
        encodeTPItems [(64, []), (1, [0, 0, 0, 16]), (2, [0, 0, 0, 100]), (3, [0, 60])] := by
    simp [encodeTPList, encodeTPItems, encodeTPItem, encode16]
  rw [henc]
  simp only [decode_transport_parameter_list]
  rw [if_pos (by decide)]
  rw [decodeTPInner_enc _ _ _ (by decide)]
  decide

/-- C7: behaviour of `decode_transport_parameter_list` over any
well-formed structured parameter list and its byte encoding, under the
compiled semantics of the `uint64_t` bitset (the shift `1 << id` is
masked modulo 64, so ids >= 64 alias onto bits 0-63 via the unconditional
or at line 564).  Decoding succeeds iff every tracked id passes the
duplicate check against the aliased bitset (`noTrackedDup`) and each
mandatory bit 0-3 is set by some id congruent to it modulo 64 — an
unknown id such as 64 can thus stand in for the absent mandatory id 0,
refuting the claim's "fails whenever a mandatory id is absent"; a
repeated tracked id (or one aliased by an earlier id) still fails with
`invalid-stream-data`, every present parameter is stored in order on
success, and `truncate_connection_id` defaults to 0 when id 4 is
absent. -/
theorem C7_transport_parameter_list (p0 : TransportParams) (items : List (Nat × List Nat))
    (hwf : ∀ it ∈ items, wfItem it)
    (hlen : (encodeTPItems items).length < 2 ^ 16) :
    (noTrackedDup 0 (items.map Prod.fst) = true →
      ((0 ∈ items.map (fun it => it.1 % 64) ∧ 1 ∈ items.map (fun it => it.1 % 64) ∧
          2 ∈ items.map (fun it => it.1 % 64) ∧ 3 ∈ items.map (fun it => it.1 % 64)) →
        decode_transport_parameter_list p0 (encodeTPList items) =
          (items.foldl storeParam { p0 with truncateConnectionId := false }, none)) ∧
      (¬(0 ∈ items.map (fun it => it.1 % 64) ∧ 1 ∈ items.map (fun it => it.1 % 64) ∧
          2 ∈ items.map (fun it => it.1 % 64) ∧ 3 ∈ items.map (fun it => it.1 % 64)) →
        (decode_transport_parameter_list p0 (encodeTPList items)).2 =
          some Err.invalidStreamData)) ∧
    (¬(noTrackedDup 0 (items.map Prod.fst) = true) →
      (decode_transport_parameter_list p0 (encodeTPList items)).2 =
        some Err.invalidStreamData) ∧
    ((4 : Nat) ∉ items.map Prod.fst →
      (items.foldl storeParam { p0 with truncateConnectionId := false }).truncateConnectionId
        = false) := by
  have henc : encodeTPList items =
      (encodeTPItems items).length / 256 % 256 :: (encodeTPItems items).length % 256 ::
        encodeTPItems items := by
    simp [encodeTPList, encode16]
  have houter : decode_transport_parameter_list p0 (encodeTPList items) =
      (let r := decodeTPInner { p0 with truncateConnectionId := false } 0 (encodeTPItems items)
       match r.2.2 with
       | some e => (r.1, some e)
       | none =>
         if (r.2.1 &&& 15) = 15 then (r.1, none)
         else (r.1, some Err.invalidStreamData)) := by
    rw [henc]
    simp only [decode_transport_parameter_list]
    rw [if_pos (be16_round hlen)]
  rw [houter, decodeTPInner_enc items { p0 with truncateConnectionId := false } 0 hwf]
  constructor
  · intro hnd
    have hok : (specLoop { p0 with truncateConnectionId := false } 0 items).2.2 = none := by
      rw [specLoop_ok_iff]
      exact hnd
    have hbits := specLoop_found_bits items { p0 with truncateConnectionId := false } 0 hok
    have hparams := specLoop_params_eq items { p0 with truncateConnectionId := false } 0 hok
    constructor
    · intro ⟨m0, m1, m2, m3⟩
      simp only [hok]
      rw [if_pos ?_, hparams]
      rw [and_fifteen_iff]
      refine ⟨?_, ?_, ?_, ?_⟩ <;>
        · rw [hbits]
          simp_all [Nat.zero_testBit]
    · intro hmiss
      simp only [hok]
      rw [if_neg ?_]
      intro hfif
      rw [and_fifteen_iff] at hfif
      obtain ⟨f0, f1, f2, f3⟩ := hfif
      rw [hbits 0] at f0
      rw [hbits 1] at f1
      rw [hbits 2] at f2
      rw [hbits 3] at f3
      simp only [Nat.zero_testBit, Bool.false_or, decide_eq_true_eq] at f0 f1 f2 f3
      exact hmiss ⟨f0, f1, f2, f3⟩
  · constructor
    · intro hnnd
      have hne : (specLoop { p0 with truncateConnectionId := false } 0 items).2.2 ≠ none := by
        intro hok
        rw [specLoop_ok_iff] at hok
        exact hnnd hok
      rcases specLoop_error_shape items { p0 with truncateConnectionId := false } 0 with hh | hh
      · exact absurd hh hne
      · simp only [hh]
    · exact foldl_storeParam_truncate items { p0 with truncateConnectionId := false }

/-- C7 witness: a well-formed list containing all mandatory parameters (and
no id 4) decodes successfully, storing every value with the truncate flag
defaulted to 0; dropping parameter 3 makes decoding fail with
`invalid-stream-data`, as does repeating parameter 0. -/
theorem C7_witness :
    decode_transport_parameter_list ⟨1, 2, 3, 4, true⟩
        (encodeTPList [(0, [0, 0, 32, 0]), (1, [0, 0, 0, 16]), (2, [0, 0, 0, 100]),
          (3, [0, 60])]) =
      (⟨8192, 16, 100, 60, false⟩, none) ∧
    (decode_transport_parameter_list ⟨1, 2, 3, 4, true⟩
        (encodeTPList [(0, [0, 0, 32, 0]), (1, [0, 0, 0, 16]), (2, [0, 0, 0, 100])])).2 =
      some Err.invalidStreamData ∧
    (decode_transport_parameter_list ⟨1, 2, 3, 4, true⟩
        (encodeTPList [(0, [0, 0, 32, 0]), (1, [0, 0, 0, 16]), (2, [0, 0, 0, 100]),
          (3, [0, 60]), (0, [0, 0, 0, 7])])).2 =
      some Err.invalidStreamData := by
  refine ⟨?_, ?_, ?_⟩
  · have h := ((C7_transport_parameter_list ⟨1, 2, 3, 4, true⟩
      [(0, [0, 0, 32, 0]), (1, [0, 0, 0, 16]), (2, [0, 0, 0, 100]), (3, [0, 60])]
      (by decide) (by decide)).1 (by decide)).1 (by decide)
    rw [h]
    decide
  · have h := ((C7_transport_parameter_list ⟨1, 2, 3, 4, true⟩
      [(0, [0, 0, 32, 0]), (1, [0, 0, 0, 16]), (2, [0, 0, 0, 100])]
      (by decide) (by decide)).1 (by decide)).2 (by decide)
    exact h
  · have h := (C7_transport_parameter_list ⟨1, 2, 3, 4, true⟩
      [(0, [0, 0, 32, 0]), (1, [0, 0, 0, 16]), (2, [0, 0, 0, 100]), (3, [0, 60]),
        (0, [0, 0, 0, 7])]
      (by decide) (by decide)).2.1 (by decide)
    exact h

/-! ### Claim C9 -/

theorem parity_mod32 (x : Nat) : x % 2 ^ 32 % 2 = x % 2 :=
  Nat.mod_mod_of_dvd x (by norm_num)

theorem create_connection_inv (ctx : Context) (b : Bool) :
    StreamIdInv (create_connection ctx b) ∧
    (create_connection ctx b).streams.map (fun st => (st.streamId, st.origin)) =
      [(0, StreamOrigin.crypto)] ∧
    (create_connection ctx b).createdAsClient = b := by
  cases b <;> simp [create_connection, open_stream, StreamIdInv]

theorem quicly_open_stream_inv (c : Conn) (hinv : StreamIdInv c) :
    StreamIdInv (quicly_open_stream c).1 ∧
    (∀ sid, (quicly_open_stream c).2 = Except.ok sid →
      sid % 2 = (if c.createdAsClient then 1 else 0) ∧ sid ≠ 0) := by
  obtain ⟨hh, hp, hs⟩ := hinv
  by_cases h0 : c.hostNextStreamId = 0
  · constructor
    · simp only [quicly_open_stream, if_pos h0]
      exact ⟨hh, hp, hs⟩
    · intro sid hok
      simp [quicly_open_stream, h0] at hok
  · have hpar : c.hostNextStreamId % 2 = (if c.createdAsClient then 1 else 0) :=
      hh.resolve_left h0
    constructor
    · simp only [quicly_open_stream, if_neg h0, open_stream]
      refine ⟨?_, ?_, ?_⟩
      · by_cases hn : (c.hostNextStreamId + 2) % 2 ^ 32 < 2
        · rw [if_pos hn]
          exact Or.inl rfl
        · rw [if_neg hn]
          right
          simp only [open_stream]
          rw [parity_mod32, ← hpar]
          omega
      · exact hp
      · intro st hst
        simp only [List.mem_append, List.mem_singleton] at hst
        rcases hst with hst | hst
        · exact hs st hst
        · subst hst
          refine ⟨?_, ?_, ?_⟩
          · simp only [StreamOrigin.local]
            constructor
            · intro hco
              simp at hco
            · intro hid
              exact absurd hid h0
          · intro _
            exact hpar
          · intro hpe
            simp at hpe
    · intro sid hok
      simp only [quicly_open_stream, if_neg h0, open_stream] at hok
      simp only [Except.ok.injEq] at hok
      rw [← hok]
      exact ⟨hpar, h0⟩

theorem openPeerLoop_inv :
    ∀ (n : Nat) (h : Host) (c : Conn) (targetId : Nat),
      targetId - c.peerNextStreamId ≤ n →
      StreamIdInv c → c.peerNextStreamId ≠ 0 →
      StreamIdInv (openPeerLoop h c targetId).1 := by
  intro n
  induction n with
  | zero =>
    intro h c targetId hle hinv hne
    obtain ⟨hh, hp, hs⟩ := hinv
    have hpar : c.peerNextStreamId % 2 = (if c.createdAsClient then 0 else 1) :=
      hp.resolve_left hne
    have hc1 : StreamIdInv (open_stream c c.peerNextStreamId StreamOrigin.peer).1 := by
      refine ⟨hh, hp, ?_⟩
      intro st hst
      simp only [open_stream, List.mem_append, List.mem_singleton] at hst
      rcases hst with hst | hst
      · exact hs st hst
      · subst hst
        refine ⟨?_, ?_, ?_⟩
        · constructor
          · intro hco
            simp at hco
          · intro hid
            exact absurd hid hne
        · intro hlo
          simp at hlo
        · intro _
          exact hpar
    unfold openPeerLoop
    dsimp only
    obtain ⟨x1, x2, x3⟩ := hc1
    split
    · exact ⟨x1, x2, x3⟩
    · have hnext : StreamIdInv
          { (open_stream c c.peerNextStreamId StreamOrigin.peer).1 with
            peerNumStreams := (open_stream c c.peerNextStreamId StreamOrigin.peer).1.peerNumStreams + 1
            peerNextStreamId := (c.peerNextStreamId + 2) % 2 ^ 32 } := by
        refine ⟨x1, Or.inr ?_, x3⟩
        simp only [open_stream]
        rw [parity_mod32, ← hpar]
        omega
      split
      · exact hnext
      · split
        · exact hnext
        · exfalso
          rename_i hne2 hfar
          simp only [not_or, not_le] at hfar
          omega
  | succ n ih =>
    intro h c targetId hle hinv hne
    obtain ⟨hh, hp, hs⟩ := hinv
    have hpar : c.peerNextStreamId % 2 = (if c.createdAsClient then 0 else 1) :=
      hp.resolve_left hne
    have hc1 : StreamIdInv (open_stream c c.peerNextStreamId StreamOrigin.peer).1 := by
      refine ⟨hh, hp, ?_⟩
      intro st hst
      simp only [open_stream, List.mem_append, List.mem_singleton] at hst
      rcases hst with hst | hst
      · exact hs st hst
      · subst hst
        refine ⟨?_, ?_, ?_⟩
        · constructor
          · intro hco
            simp at hco
          · intro hid
            exact absurd hid hne
        · intro hlo
          simp at hlo
        · intro _
          exact hpar
    unfold openPeerLoop
    dsimp only
    obtain ⟨x1, x2, x3⟩ := hc1
    split
    · exact ⟨x1, x2, x3⟩
    · have hnext : StreamIdInv
          { (open_stream c c.peerNextStreamId StreamOrigin.peer).1 with
            peerNumStreams := (open_stream c c.peerNextStreamId StreamOrigin.peer).1.peerNumStreams + 1
            peerNextStreamId := (c.peerNextStreamId + 2) % 2 ^ 32 } := by
        refine ⟨x1, Or.inr ?_, x3⟩
        simp only [open_stream]
        rw [parity_mod32, ← hpar]
        omega
      split
      · exact hnext
      · split
        · exact hnext
        · rename_i hne2 hfar
          simp only [not_or, not_le] at hfar
          have hmod : (c.peerNextStreamId + 2) % 2 ^ 32 = c.peerNextStreamId + 2 :=
            Nat.mod_eq_of_lt hfar.2
          refine ih h _ targetId ?_ hnext ?_
          · simp only [hmod]
            omega
          · simp only [hmod]
            omega

theorem get_stream_or_open_inv (h : Host) (c : Conn) (sid : Nat) (hinv : StreamIdInv c) :
    StreamIdInv (get_stream_or_open_if_new h c sid).1 := by
  simp only [get_stream_or_open_if_new]
  cases hg : c.getStream sid with
  | some st => exact hinv
  | none =>
    by_cases hcond : sid % 2 ≠ (if c.isClient = true then 1 else 0) ∧
        c.peerNextStreamId ≠ 0 ∧ c.peerNextStreamId ≤ sid
    · rw [if_pos hcond]
      have hloop := openPeerLoop_inv (sid - c.peerNextStreamId) h c sid (le_refl _)
        hinv hcond.2.1
      rcases hr : (openPeerLoop h c sid).2.2 with e | os
      · simp only [hr]
        exact hloop
      · simp only [hr]
        by_cases hlt : (openPeerLoop h c sid).1.peerNextStreamId < 2
        · rw [if_pos hlt]
          obtain ⟨a1, a2, a3⟩ := hloop
          exact ⟨a1, Or.inl rfl, a3⟩
        · rw [if_neg hlt]
          exact hloop
    · rw [if_neg hcond]
      exact hinv

/-- C9: stream-id parity.  A fresh connection (client or server) satisfies
the stream-id invariant and holds exactly the crypto stream, created as
stream id 0 together with the connection; `quicly_open_stream` preserves
the invariant and allocates only non-zero ids of the parity fixed at
creation (odd on a client, even on a server), advancing by 2; and
`get_stream_or_open_if_new` preserves the invariant, so every lazily
peer-opened stream carries the opposite parity. -/
theorem C9_stream_id_parity :
    (∀ (ctx : Context) (isClient : Bool),
      StreamIdInv (create_connection ctx isClient) ∧
      (create_connection ctx isClient).streams.map (fun st => (st.streamId, st.origin)) =
        [(0, StreamOrigin.crypto)]) ∧
    (∀ c : Conn, StreamIdInv c →
      StreamIdInv (quicly_open_stream c).1 ∧
      ∀ sid, (quicly_open_stream c).2 = Except.ok sid →
        sid % 2 = (if c.createdAsClient then 1 else 0) ∧ sid ≠ 0) ∧
    (∀ (h : Host) (c : Conn) (sid : Nat), StreamIdInv c →
      StreamIdInv (get_stream_or_open_if_new h c sid).1) := by
  refine ⟨?_, ?_, ?_⟩
  · intro ctx b
    exact ⟨(create_connection_inv ctx b).1, (create_connection_inv ctx b).2.1⟩
  · intro c hinv
    exact quicly_open_stream_inv c hinv
  · intro h c sid hinv
    exact get_stream_or_open_inv h c sid hinv

/-- C9 witness: a fresh client connection satisfies the invariant; opening
a stream allocates the odd id 1 and preserves the invariant; a peer
reference to stream 2 opens it with even (peer) parity, preserving the
invariant. -/
theorem C9_witness :
    StreamIdInv sampleClient ∧
    StreamIdInv (quicly_open_stream sampleClient).1 ∧
    (quicly_open_stream sampleClient).2 = Except.ok 1 ∧
    StreamIdInv (get_stream_or_open_if_new quietHost sampleClient 2).1 := by
  have h1 := (C9_stream_id_parity.1 sampleCtx true).1
  have h2 := C9_stream_id_parity.2.1 sampleClient h1
  have h3 := C9_stream_id_parity.2.2 quietHost sampleClient 2 h1
  exact ⟨h1, h2.1, by rfl, h3⟩

/-! ### Claim C10 -/

/-- C10: `setup_1rtt` returns 0 unconditionally (its `Exit:` label falls
through to `return 0`, discarding `ret`); when either 1-RTT secret setup
fails on a connection that has not completed the handshake, the handshake
driver's success branch still reports 0 to its caller while the connection
state has not advanced to `QUICLY_STATE_1RTT_ENCRYPTED` and at least one
1-RTT AEAD context is missing. -/
theorem C10_setup_1rtt_swallows_failures :
    (∀ (c : Conn) (o1 o2 : SecretSetupOutcome), (setup_1rtt c o1 o2).2 = none) ∧
    (∀ (c : Conn) (o1 o2 : SecretSetupOutcome),
      c.state ≠ QState.oneRttEncrypted →
      c.ingressPP.aeadKeyPhase0 = none →
      c.egressPP.aeadKeyPhase0 = none →
      (o1.fails || o2.fails) = true →
      (crypto_stream_post_handshake c HsRet.ok o1 o2).2 = none ∧
      (crypto_stream_post_handshake c HsRet.ok o1 o2).1.state ≠ QState.oneRttEncrypted ∧
      ((crypto_stream_post_handshake c HsRet.ok o1 o2).1.ingressPP.aeadKeyPhase0 = none ∨
        (crypto_stream_post_handshake c HsRet.ok o1 o2).1.egressPP.aeadKeyPhase0 = none)) := by
  constructor
  · intro c o1 o2
    obtain ⟨e1, a1⟩ := o1
    obtain ⟨e2, a2⟩ := o2
    cases e1 <;> cases a1 <;> cases e2 <;> cases a2 <;>
      simp [setup_1rtt, setup_1rtt_secret]
  · intro c o1 o2 hstate hi he hfail
    have hlt : c.state.toNat < QState.oneRttEncrypted.toNat := by
      cases hs : c.state
      · simp [QState.toNat]
      · simp [QState.toNat]
      · exact absurd hs hstate
    obtain ⟨e1, a1⟩ := o1
    obtain ⟨e2, a2⟩ := o2
    cases e1 <;> cases a1 <;> cases e2 <;> cases a2 <;>
      simp_all [crypto_stream_post_handshake, setup_1rtt, setup_1rtt_secret,
        SecretSetupOutcome.fails]

/-- C10 witness: a client before the handshake completes, with secret
export failing for the ingress direction. -/
theorem C10_witness :
    sampleClient.state ≠ QState.oneRttEncrypted ∧
    (crypto_stream_post_handshake sampleClient HsRet.ok
        ⟨some Err.noMemory, true⟩ ⟨none, true⟩).2 = none ∧
    (crypto_stream_post_handshake sampleClient HsRet.ok
        ⟨some Err.noMemory, true⟩ ⟨none, true⟩).1.state ≠ QState.oneRttEncrypted := by
  have h := C10_setup_1rtt_swallows_failures.2 sampleClient
    ⟨some Err.noMemory, true⟩ ⟨none, true⟩ (by decide) (by rfl) (by rfl) (by decide)
  exact ⟨by decide, h.1, h.2.1⟩

/-! ### Send-path preservation lemmas -/

theorem preservedR_flag {a b : Conn} (h : PreservedR a b) :
    a.acksRequireEncryption = b.acksRequireEncryption := h.2.2.2.2.2.2.2.1

theorem sameCfg_rfl {s : SendCtx} : SameCfg s s := ⟨rfl, rfl, rfl, rfl⟩

theorem sameCfg_trans {a b c : SendCtx} (h1 : SameCfg a b) (h2 : SameCfg b c) :
    SameCfg a c :=
  ⟨h1.1.trans h2.1, h1.2.1.trans h2.2.1, h1.2.2.1.trans h2.2.2.1, h1.2.2.2.trans h2.2.2.2⟩

theorem commit_send_packet_flag (c : Conn) (s : SendCtx) :
    (commit_send_packet c s).1.acksRequireEncryption = c.acksRequireEncryption := by
  rcases h : s.target with _ | t <;> simp [commit_send_packet, h]

theorem commit_send_packet_cfg (c : Conn) (s : SendCtx) :
    SameCfg (commit_send_packet c s).2 s := by
  rcases h : s.target with _ | t <;> simp [commit_send_packet, h, SameCfg]

theorem commit_send_packet_ctx (c : Conn) (s : SendCtx) :
    (commit_send_packet c s).1.ctx = c.ctx := by
  rcases h : s.target with _ | t <;> simp [commit_send_packet, h]

theorem caf_commit (c : Conn) (s : SendCtx) (h : CleartextAckFree s) :
    CleartextAckFree (commit_send_packet c s).2 := by
  rcases ht : s.target with _ | t
  · simpa [commit_send_packet, ht] using h
  · constructor
    · intro pk hpk hcl
      simp only [commit_send_packet, ht, List.mem_append, List.mem_singleton] at hpk
      rcases hpk with hpk | hpk
      · exact h.1 pk hpk hcl
      · subst hpk; exact h.2 t ht hcl
    · intro t' ht'
      simp [commit_send_packet, ht] at ht'

theorem prepare_packet_flag (c : Conn) (s : SendCtx) (m : Nat) :
    (prepare_packet c s m).1.acksRequireEncryption = c.acksRequireEncryption := by
  rcases ht : s.target with _ | t
  · simp only [prepare_packet, ht]
    split <;> rfl
  · simp only [prepare_packet, ht]
    split
    · split
      · exact commit_send_packet_flag _ _
      · exact commit_send_packet_flag _ _
    · rfl

theorem prepare_packet_ctx (c : Conn) (s : SendCtx) (m : Nat) :
    (prepare_packet c s m).1.ctx = c.ctx := by
  rcases ht : s.target with _ | t
  · simp only [prepare_packet, ht]
    split <;> rfl
  · simp only [prepare_packet, ht]
    split
    · split
      · exact commit_send_packet_ctx _ _
      · exact commit_send_packet_ctx _ _
    · rfl

theorem prepare_packet_cfg (c : Conn) (s : SendCtx) (m : Nat) :
    SameCfg (prepare_packet c s m).2 s := by
  rcases ht : s.target with _ | t
  · simp only [prepare_packet, ht]
    split
    · exact sameCfg_rfl
    · exact ⟨rfl, rfl, rfl, rfl⟩
  · simp only [prepare_packet, ht]
    split
    · split
      · exact commit_send_packet_cfg _ _
      · exact sameCfg_trans ⟨rfl, rfl, rfl, rfl⟩ (commit_send_packet_cfg _ _)
    · exact sameCfg_rfl

theorem prepare_packet_target_ptype (c : Conn) (s : SendCtx) (m : Nat) (t : Target)
    (h : (prepare_packet c s m).2.target = some t) : t.ptype = s.packetType := by
  rcases ht : s.target with _ | t0
  · simp only [prepare_packet, ht] at h
    split at h
    · rw [show (c, s).2.target = s.target from rfl, ht] at h
      exact absurd h (by simp)
    · have h' : some (newTarget c s) = some t := h
      injection h' with h2
      subst h2
      rfl
  · simp only [prepare_packet, ht] at h
    split at h
    · split at h
      · simp [commit_send_packet] at h
      · have h' : some (newTarget (commit_send_packet c
            { s with target := some { t0 with dst := t0.dstEnd } }).1
            (commit_send_packet c { s with target := some { t0 with dst := t0.dstEnd } }).2) =
            some t := h
        injection h' with h2
        subst h2
        exact (commit_send_packet_cfg c _).1
    · rename_i hkeep
      rw [show (c, s).2.target = s.target from rfl, ht] at h
      have h' := Option.some.inj h
      subst h'
      rcases not_or.mp hkeep with ⟨_, h2⟩
      exact not_not.mp h2

theorem caf_prepare (c : Conn) (s : SendCtx) (m : Nat) (h : CleartextAckFree s) :
    CleartextAckFree (prepare_packet c s m).2 := by
  rcases ht : s.target with _ | t
  · simp only [prepare_packet, ht]
    split
    · exact h
    · refine ⟨h.1, ?_⟩
      intro t' ht' _
      have h' : some (newTarget c s) = some t' := ht'
      injection h' with h2
      subst h2
      rfl
  · simp only [prepare_packet, ht]
    have hpad : CleartextAckFree { s with target := some { t with dst := t.dstEnd } } := by
      refine ⟨h.1, ?_⟩
      intro t' ht' hcl
      have h' : some { t with dst := t.dstEnd } = some t' := ht'
      injection h' with h2
      subst h2
      exact h.2 t ht hcl
    split
    · split
      · exact caf_commit c _ hpad
      · refine ⟨(caf_commit c _ hpad).1, ?_⟩
        intro t' ht' _
        have h' : some (newTarget (commit_send_packet c
            { s with target := some { t with dst := t.dstEnd } }).1
            (commit_send_packet c { s with target := some { t with dst := t.dstEnd } }).2) =
            some t' := ht'
        injection h' with h2
        subst h2
        rfl
    · exact h

theorem send_ack_loop_flag : ∀ (fuel : Nat) (c : Conn) (s : SendCtx) (rem : Nat),
    (send_ack_loop c s rem fuel).1.acksRequireEncryption = c.acksRequireEncryption := by
  intro fuel
  induction fuel with
  | zero => intros; rfl
  | succ n ih =>
    intro c s rem
    simp only [send_ack_loop]
    split
    · rfl
    · rcases ht : (prepare_packet c s (ackBaseSize + ackRangeSize)).2.target with _ | t
      · simp only [ht]
        exact prepare_packet_flag _ _ _
      · simp only [ht]
        rw [ih]
        exact prepare_packet_flag _ _ _

theorem send_ack_loop_cfg : ∀ (fuel : Nat) (c : Conn) (s : SendCtx) (rem : Nat),
    SameCfg (send_ack_loop c s rem fuel).2 s := by
  intro fuel
  induction fuel with
  | zero => intros; exact sameCfg_rfl
  | succ n ih =>
    intro c s rem
    simp only [send_ack_loop]
    split
    · exact sameCfg_rfl
    · rcases ht : (prepare_packet c s (ackBaseSize + ackRangeSize)).2.target with _ | t
      · simp only [ht]
        exact prepare_packet_cfg _ _ _
      · simp only [ht]
        exact sameCfg_trans (sameCfg_trans (ih _ _ _) ⟨rfl, rfl, rfl, rfl⟩)
          (prepare_packet_cfg _ _ _)

theorem caf_send_ack_loop : ∀ (fuel : Nat) (c : Conn) (s : SendCtx) (rem : Nat),
    ¬cleartextType s.packetType → CleartextAckFree s →
    CleartextAckFree (send_ack_loop c s rem fuel).2 := by
  intro fuel
  induction fuel with
  | zero => intro c s rem _ h; exact h
  | succ n ih =>
    intro c s rem hpt h
    simp only [send_ack_loop]
    split
    · exact h
    · rcases ht : (prepare_packet c s (ackBaseSize + ackRangeSize)).2.target with _ | t
      · simp only [ht]
        exact caf_prepare _ _ _ h
      · simp only [ht]
        have hcfg := (prepare_packet_cfg c s (ackBaseSize + ackRangeSize)).1
        refine ih _ _ _ ?_ ?_
        · intro hx
          apply hpt
          rw [← hcfg]
          exact hx
        · refine ⟨(caf_prepare _ _ _ h).1, ?_⟩
          intro t' ht' hcl
          have h2 := Option.some.inj ht'
          subst h2
          have hp : t.ptype = s.packetType := prepare_packet_target_ptype _ _ _ _ ht
          exact absurd (show cleartextType s.packetType by rw [← hp]; exact hcl) hpt

theorem send_ack_flag (c : Conn) (s : SendCtx) :
    (send_ack c s).1.acksRequireEncryption = c.acksRequireEncryption := by
  simp only [send_ack]
  split
  · rfl
  · exact send_ack_loop_flag _ _ _ _

theorem caf_send_ack (c : Conn) (s : SendCtx) (hpt : ¬cleartextType s.packetType)
    (h : CleartextAckFree s) : CleartextAckFree (send_ack c s).2 := by
  simp only [send_ack]
  split
  · exact h
  · exact caf_send_ack_loop _ _ _ _ hpt h

theorem send_max_data_frame_flag (c : Conn) (s : SendCtx) :
    (send_max_data_frame c s).1.acksRequireEncryption = c.acksRequireEncryption := by
  simp only [send_max_data_frame]
  rcases ht : (prepare_packet c s MAX_DATA_FRAME_SIZE).2.target with _ | t
  · simp only [ht]
    exact prepare_packet_flag _ _ _
  · simp only [ht]
    exact prepare_packet_flag _ _ _

theorem caf_send_max_data_frame (c : Conn) (s : SendCtx) (h : CleartextAckFree s) :
    CleartextAckFree (send_max_data_frame c s).2 := by
  simp only [send_max_data_frame]
  rcases ht : (prepare_packet c s MAX_DATA_FRAME_SIZE).2.target with _ | t
  · simp only [ht]
    exact caf_prepare _ _ _ h
  · simp only [ht]
    refine ⟨(caf_prepare _ _ _ h).1, ?_⟩
    intro t' ht' hcl
    have h2 := Option.some.inj ht'
    subst h2
    exact (caf_prepare _ _ _ h).2 t ht hcl

theorem send_max_stream_data_frame_flag (c : Conn) (st : Stream) (s : SendCtx) :
    (send_max_stream_data_frame c st s).1.acksRequireEncryption =
      c.acksRequireEncryption := by
  simp only [send_max_stream_data_frame]
  rcases ht : (prepare_packet c s MAX_STREAM_DATA_FRAME_SIZE).2.target with _ | t
  · simp only [ht]
    exact prepare_packet_flag _ _ _
  · simp only [ht]
    exact prepare_packet_flag _ _ _

theorem caf_send_max_stream_data_frame (c : Conn) (st : Stream) (s : SendCtx)
    (h : CleartextAckFree s) : CleartextAckFree (send_max_stream_data_frame c st s).2.2 := by
  simp only [send_max_stream_data_frame]
  rcases ht : (prepare_packet c s MAX_STREAM_DATA_FRAME_SIZE).2.target with _ | t
  · simp only [ht]
    exact caf_prepare _ _ _ h
  · simp only [ht]
    refine ⟨(caf_prepare _ _ _ h).1, ?_⟩
    intro t' ht' hcl
    have h2 := Option.some.inj ht'
    subst h2
    exact (caf_prepare _ _ _ h).2 t ht hcl

theorem send_stream_frame_flag (c : Conn) (st : Stream) (s : SendCtx) (io mb : Nat) :
    (send_stream_frame c st s io mb).1.acksRequireEncryption =
      c.acksRequireEncryption := by
  simp only [send_stream_frame]
  rcases ht : (prepare_packet c s
      (1 + streamIdLength st.streamId + offsetLength io +
        (if io ≠ st.sendbuf.eos then 1 else 0))).2.target with _ | t
  · simp only [ht]
    exact prepare_packet_flag _ _ _
  · simp only [ht]
    repeat' split
    all_goals exact prepare_packet_flag _ _ _

theorem send_stream_frame_cfg (c : Conn) (st : Stream) (s : SendCtx) (io mb : Nat) :
    SameCfg (send_stream_frame c st s io mb).2.2.1 s := by
  simp only [send_stream_frame]
  rcases ht : (prepare_packet c s
      (1 + streamIdLength st.streamId + offsetLength io +
        (if io ≠ st.sendbuf.eos then 1 else 0))).2.target with _ | t
  · simp only [ht]
    exact prepare_packet_cfg _ _ _
  · simp only [ht]
    exact sameCfg_trans ⟨rfl, rfl, rfl, rfl⟩ (prepare_packet_cfg _ _ _)

theorem caf_send_stream_frame (c : Conn) (st : Stream) (s : SendCtx) (io mb : Nat)
    (h : CleartextAckFree s) : CleartextAckFree (send_stream_frame c st s io mb).2.2.1 := by
  simp only [send_stream_frame]
  rcases ht : (prepare_packet c s
      (1 + streamIdLength st.streamId + offsetLength io +
        (if io ≠ st.sendbuf.eos then 1 else 0))).2.target with _ | t
  · simp only [ht]
    exact caf_prepare _ _ _ h
  · simp only [ht]
    refine ⟨(caf_prepare _ _ _ h).1, ?_⟩
    intro t' ht' hcl
    have h2 := Option.some.inj ht'
    subst h2
    exact (caf_prepare _ _ _ h).2 t ht hcl

theorem sendFramesInner_flag : ∀ (fuel : Nat) (c : Conn) (st : Stream) (s : SendCtx)
    (io eo : Nat),
    (sendFramesInner c st s io eo fuel).1.acksRequireEncryption =
      c.acksRequireEncryption := by
  intro fuel
  induction fuel with
  | zero => intros; rfl
  | succ n ih =>
    intro c st s io eo
    simp only [sendFramesInner]
    split
    · split
      · exact send_stream_frame_flag _ _ _ _ _
      · rw [ih]
        exact send_stream_frame_flag _ _ _ _ _
    · rfl

theorem sendFramesInner_cfg : ∀ (fuel : Nat) (c : Conn) (st : Stream) (s : SendCtx)
    (io eo : Nat), SameCfg (sendFramesInner c st s io eo fuel).2.2.1 s := by
  intro fuel
  induction fuel with
  | zero => intros; exact sameCfg_rfl
  | succ n ih =>
    intro c st s io eo
    simp only [sendFramesInner]
    split
    · split
      · exact send_stream_frame_cfg _ _ _ _ _
      · exact sameCfg_trans (ih _ _ _ _ _) (send_stream_frame_cfg _ _ _ _ _)
    · exact sameCfg_rfl

theorem caf_sendFramesInner : ∀ (fuel : Nat) (c : Conn) (st : Stream) (s : SendCtx)
    (io eo : Nat), CleartextAckFree s →
    CleartextAckFree (sendFramesInner c st s io eo fuel).2.2.1 := by
  intro fuel
  induction fuel with
  | zero => intro _ _ _ _ _ h; exact h
  | succ n ih =>
    intro c st s io eo h
    simp only [sendFramesInner]
    split
    · split
      · exact caf_send_stream_frame _ _ _ _ _ h
      · exact ih _ _ _ _ _ (caf_send_stream_frame _ _ _ _ _ h)
    · exact h

theorem sendFramesRanges_flag : ∀ (l : List (Nat × Nat)) (c : Conn) (st : Stream)
    (s : SendCtx) (msd io : Nat),
    (sendFramesRanges c st s msd io l).1.acksRequireEncryption =
      c.acksRequireEncryption := by
  intro l
  induction l with
  | nil => intros; rfl
  | cons hd tl ih =>
    intro c st s msd io
    rcases hd with ⟨a, b⟩
    simp only [sendFramesRanges]
    repeat' split
    all_goals first
      | rfl
      | exact sendFramesInner_flag _ _ _ _ _ _
      | (rw [ih]; exact sendFramesInner_flag _ _ _ _ _ _)

theorem caf_sendFramesRanges : ∀ (l : List (Nat × Nat)) (c : Conn) (st : Stream)
    (s : SendCtx) (msd io : Nat), CleartextAckFree s →
    CleartextAckFree (sendFramesRanges c st s msd io l).2.2.1 := by
  intro l
  induction l with
  | nil => intro _ _ _ _ _ h; exact h
  | cons hd tl ih =>
    intro c st s msd io h
    rcases hd with ⟨a, b⟩
    simp only [sendFramesRanges]
    repeat' split
    all_goals first
      | exact h
      | exact caf_sendFramesInner _ _ _ _ _ _ h
      | exact ih _ _ _ _ _ (caf_sendFramesInner _ _ _ _ _ _ h)

theorem send_stream_frames_flag (c : Conn) (st : Stream) (s : SendCtx) :
    (send_stream_frames c st s).1.acksRequireEncryption = c.acksRequireEncryption := by
  simp only [send_stream_frames]
  exact (preservedR_flag (setStream_preserved _ _)).trans
    (sendFramesRanges_flag _ _ _ _ _ _)

theorem caf_send_stream_frames (c : Conn) (st : Stream) (s : SendCtx)
    (h : CleartextAckFree s) : CleartextAckFree (send_stream_frames c st s).2 := by
  simp only [send_stream_frames]
  exact caf_sendFramesRanges _ _ _ _ _ _ h

theorem prepare_stream_state_sender_flag (c : Conn) (st : Stream) (s : SendCtx)
    (isRst : Bool) :
    (prepare_stream_state_sender c st s isRst).1.acksRequireEncryption =
      c.acksRequireEncryption := by
  simp only [prepare_stream_state_sender]
  rcases ht : (prepare_packet c s STOP_SENDING_FRAME_SIZE).2.target with _ | t
  · simp only [ht]
    exact prepare_packet_flag _ _ _
  · simp only [ht]
    exact prepare_packet_flag _ _ _

theorem caf_prepare_stream_state_sender (c : Conn) (st : Stream) (s : SendCtx)
    (isRst : Bool) (h : CleartextAckFree s) :
    CleartextAckFree (prepare_stream_state_sender c st s isRst).2.2 := by
  simp only [prepare_stream_state_sender]
  rcases ht : (prepare_packet c s STOP_SENDING_FRAME_SIZE).2.target with _ | t
  · simp only [ht]
    exact caf_prepare _ _ _ h
  · simp only [ht]
    exact caf_prepare _ _ _ h

theorem prepare_stream_state_sender_target (c : Conn) (st : Stream) (s : SendCtx)
    (isRst : Bool) :
    (prepare_stream_state_sender c st s isRst).2.2.target =
      (prepare_packet c s STOP_SENDING_FRAME_SIZE).2.target := by
  simp only [prepare_stream_state_sender]
  rcases ht : (prepare_packet c s STOP_SENDING_FRAME_SIZE).2.target with _ | t <;>
    simp only [ht]

theorem sendStreamData_flag (c : Conn) (st : Stream) (s : SendCtx) :
    (sendStreamData c st s).1.acksRequireEncryption = c.acksRequireEncryption := by
  simp only [sendStreamData]
  split
  · exact (send_stream_frames_flag _ _ _).trans (send_max_stream_data_frame_flag _ _ _)
  · exact send_stream_frames_flag _ _ _

theorem caf_sendStreamData (c : Conn) (st : Stream) (s : SendCtx)
    (h : CleartextAckFree s) : CleartextAckFree (sendStreamData c st s).2 := by
  simp only [sendStreamData]
  split
  · exact caf_send_stream_frames _ _ _ (caf_send_max_stream_data_frame _ _ _ h)
  · exact caf_send_stream_frames _ _ _ h

theorem sendStreamAfterStop_flag (c : Conn) (st : Stream) (s : SendCtx) :
    (sendStreamAfterStop c st s).1.acksRequireEncryption = c.acksRequireEncryption := by
  simp only [sendStreamAfterStop]
  split
  · rcases ht : (prepare_stream_state_sender c st s true).2.2.target with _ | t
    · simp only [ht]
      exact (preservedR_flag (setStream_preserved _ _)).trans
        (prepare_stream_state_sender_flag _ _ _ _)
    · simp only [ht]
      exact (preservedR_flag (setStream_preserved _ _)).trans
        (prepare_stream_state_sender_flag _ _ _ _)
  · exact sendStreamData_flag _ _ _

theorem caf_sendStreamAfterStop (c : Conn) (st : Stream) (s : SendCtx)
    (h : CleartextAckFree s) : CleartextAckFree (sendStreamAfterStop c st s).2 := by
  simp only [sendStreamAfterStop]
  split
  · rcases ht : (prepare_stream_state_sender c st s true).2.2.target with _ | t
    · simp only [ht]
      exact caf_prepare_stream_state_sender _ _ _ _ h
    · simp only [ht]
      refine ⟨(caf_prepare_stream_state_sender _ _ _ _ h).1, ?_⟩
      intro t' ht' hcl
      have h2 := Option.some.inj ht'
      subst h2
      exact (caf_prepare_stream_state_sender _ _ _ _ h).2 t ht hcl
  · exact caf_sendStreamData _ _ _ h

theorem send_stream_flag (c : Conn) (st : Stream) (s : SendCtx) :
    (send_stream c st s).1.acksRequireEncryption = c.acksRequireEncryption := by
  simp only [send_stream]
  split
  · exact preservedR_flag (destroy_stream_if_unneeded_preserved _ _)
  · split
    · rcases ht : (prepare_stream_state_sender (destroy_stream_if_unneeded c st).1 st s
          false).2.2.target with _ | t
      · simp only [ht]
        exact ((preservedR_flag (setStream_preserved _ _)).trans
          (prepare_stream_state_sender_flag _ _ _ _)).trans
          (preservedR_flag (destroy_stream_if_unneeded_preserved _ _))
      · simp only [ht]
        exact ((sendStreamAfterStop_flag _ _ _).trans
          (prepare_stream_state_sender_flag _ _ _ _)).trans
          (preservedR_flag (destroy_stream_if_unneeded_preserved _ _))
    · exact (sendStreamAfterStop_flag _ _ _).trans
        (preservedR_flag (destroy_stream_if_unneeded_preserved _ _))

theorem caf_send_stream (c : Conn) (st : Stream) (s : SendCtx)
    (h : CleartextAckFree s) : CleartextAckFree (send_stream c st s).2 := by
  simp only [send_stream]
  split
  · exact h
  · split
    · rcases ht : (prepare_stream_state_sender (destroy_stream_if_unneeded c st).1 st s
          false).2.2.target with _ | t
      · simp only [ht]
        exact caf_prepare_stream_state_sender _ _ _ _ h
      · simp only [ht]
        refine caf_sendStreamAfterStop _ _ _ ?_
        refine ⟨(caf_prepare_stream_state_sender _ _ _ _ h).1, ?_⟩
        intro t' ht' hcl
        have h2 := Option.some.inj ht'
        subst h2
        exact (caf_prepare_stream_state_sender _ _ _ _ h).2 t ht hcl
    · exact caf_sendStreamAfterStop _ _ _ h

theorem sendEachStream_flag : ∀ (l : List Nat) (c : Conn) (s : SendCtx),
    (sendEachStream c s l).1.acksRequireEncryption = c.acksRequireEncryption := by
  intro l
  induction l with
  | nil => intros; rfl
  | cons sid rest ih =>
    intro c s
    simp only [sendEachStream]
    split
    · rcases hg : c.getStream sid with _ | st
      · simp only [hg]
        rw [ih]
      · simp only [hg]
        rw [ih]
        exact send_stream_flag _ _ _
    · rw [ih]

theorem caf_sendEachStream : ∀ (l : List Nat) (c : Conn) (s : SendCtx),
    CleartextAckFree s → CleartextAckFree (sendEachStream c s l).2 := by
  intro l
  induction l with
  | nil => intro _ _ h; exact h
  | cons sid rest ih =>
    intro c s h
    simp only [sendEachStream]
    split
    · rcases hg : c.getStream sid with _ | st
      · simp only [hg]
        exact ih _ _ h
      · simp only [hg]
        exact ih _ _ (caf_send_stream _ _ _ h)
    · exact ih _ _ h

theorem timeoutsGo_flag (b : Int) : ∀ (l : List AckEntry) (c : Conn),
    (timeoutsGo b c l).1.acksRequireEncryption = c.acksRequireEncryption := by
  intro l
  induction l with
  | nil => intros; rfl
  | cons e rest ih =>
    intro c
    simp only [timeoutsGo]
    split
    · rfl
    · rw [ih]
      exact preservedR_flag (applyAck_preserved _ _ _)

theorem handle_timeouts_flag (c : Conn) (now0 : Int) :
    (handle_timeouts c now0).1.acksRequireEncryption = c.acksRequireEncryption := by
  simp only [handle_timeouts]
  exact timeoutsGo_flag _ _ _

theorem quicly_send_phase2_flag (c : Conn) (s : SendCtx) :
    (quicly_send_phase2 c s).1.acksRequireEncryption = c.acksRequireEncryption := by
  simp only [quicly_send_phase2]
  split
  · split
    · rw [commit_send_packet_flag, sendEachStream_flag]
      split
      · rw [send_max_data_frame_flag, send_ack_flag]
      · rw [send_ack_flag]
    · rw [sendEachStream_flag]
      split
      · rw [send_max_data_frame_flag, send_ack_flag]
      · rw [send_ack_flag]
  · rfl

theorem quicly_send_phase2_caf (c : Conn) (s : SendCtx) (h : CleartextAckFree s) :
    ∀ pk ∈ (quicly_send_phase2 c s).2.1, cleartextType pk.ptype → pk.ackFrames = 0 := by
  have hs1 : CleartextAckFree
      { s with packetType := PACKET_TYPE_1RTT_KEY_PHASE_0,
               aead := c.egressPP.aeadKeyPhase0 } := ⟨h.1, fun t ht hcl => h.2 t ht hcl⟩
  have hpt : ¬cleartextType PACKET_TYPE_1RTT_KEY_PHASE_0 := by decide
  simp only [quicly_send_phase2]
  split
  · split
    · intro pk hpk hcl
      refine (caf_commit _ _ ?_).1 pk hpk hcl
      refine caf_sendEachStream _ _ _ ?_
      split
      · exact caf_send_max_data_frame _ _ (caf_send_ack _ _ hpt hs1)
      · exact caf_send_ack _ _ hpt hs1
    · intro pk hpk hcl
      refine (caf_sendEachStream _ _ _ ?_).1 pk hpk hcl
      split
      · exact caf_send_max_data_frame _ _ (caf_send_ack _ _ hpt hs1)
      · exact caf_send_ack _ _ hpt hs1
  · intro pk hpk hcl
    exact h.1 pk hpk hcl

theorem quicly_send_finalize_flag (r : Conn × SendCtx) :
    (quicly_send_finalize r).1.acksRequireEncryption = r.1.acksRequireEncryption := by
  simp only [quicly_send_finalize]
  rcases ht : r.2.target with _ | t <;> simp only [ht]
  · exact quicly_send_phase2_flag _ _
  · split
    · split
      · rfl
      · rw [quicly_send_phase2_flag, commit_send_packet_flag]
    · rw [quicly_send_phase2_flag, commit_send_packet_flag]

theorem quicly_send_finalize_caf (r : Conn × SendCtx) (h : CleartextAckFree r.2) :
    ∀ pk ∈ (quicly_send_finalize r).2.1, cleartextType pk.ptype → pk.ackFrames = 0 := by
  simp only [quicly_send_finalize]
  rcases ht : r.2.target with _ | t <;> simp only [ht]
  · exact quicly_send_phase2_caf _ _ h
  · split
    · split
      · intro pk hpk hcl
        exact h.1 pk hpk hcl
      · refine quicly_send_phase2_caf _ _ (caf_commit _ _ ?_)
        refine ⟨h.1, ?_⟩
        intro t' ht' hcl
        have h2 := Option.some.inj ht'
        subst h2
        exact h.2 t ht hcl
    · exact quicly_send_phase2_caf _ _ (caf_commit _ _ h)

theorem quicly_send_flag (c : Conn) (now0 : Int) (mp : Nat) :
    (quicly_send c now0 mp).1.acksRequireEncryption = c.acksRequireEncryption := by
  simp only [quicly_send]
  rw [quicly_send_finalize_flag]
  repeat' split
  all_goals
    repeat first
      | rw [send_stream_flag]
      | rw [send_ack_flag]
      | rw [handle_timeouts_flag]
      | rfl
      | dsimp only

theorem quicly_send_caf (c : Conn) (now0 : Int) (mp : Nat)
    (hflag : c.acksRequireEncryption = true) :
    ∀ pk ∈ (quicly_send c now0 mp).2.1, cleartextType pk.ptype → pk.ackFrames = 0 := by
  have hs0 : ∀ pt : Nat, CleartextAckFree
      ({ packetType := pt, aead := none, now := now0, maxPackets := mp, numPackets := 0,
         packets := [], target := none } : SendCtx) := by
    intro pt
    constructor
    · intro pk hpk
      exact absurd hpk (List.not_mem_nil _)
    · intro t ht
      exact absurd ht (by simp)
  simp only [quicly_send]
  by_cases hgc : ¬(handle_timeouts c now0).1.acksRequireEncryption ∧
      (if (handle_timeouts c now0).1.isClient then
        if (handle_timeouts c now0).1.state = QState.beforeSH then PACKET_TYPE_CLIENT_INITIAL
        else PACKET_TYPE_CLIENT_CLEARTEXT
      else PACKET_TYPE_SERVER_CLEARTEXT) ≠ PACKET_TYPE_CLIENT_INITIAL
  · exact absurd ((handle_timeouts_flag c now0).trans hflag) hgc.1
  · rw [if_neg hgc]
    dsimp only
    rcases hgs : (handle_timeouts c now0).1.getStream 0 with _ | st <;> simp only [hgs]
    · exact quicly_send_finalize_caf _ (hs0 _)
    · exact quicly_send_finalize_caf _ (caf_send_stream _ _ _ (hs0 _))

theorem quicly_receive_sets_flag (h : Host) (c : Conn) (p : DecodedPacket)
    (hdr : p.isLongHeader = true ∨
      ({ c with connectionId := p.connectionId } : Conn).state = QState.oneRttEncrypted)
    (hsel : selectAead { c with connectionId := p.connectionId } p =
      AeadChoice.proceed (some ()))
    (hauth : p.authOk = true)
    (herr : (receiveFrames h { c with connectionId := p.connectionId } p.frames
      false).2.2.1 = none)
    (hany : p.frames.any (fun f => !f.isAckFrame) = true) :
    (quicly_receive h c p).1.acksRequireEncryption = true := by
  unfold quicly_receive
  rw [if_neg (by simp)]
  have hlh : ¬(¬p.isLongHeader = true ∧
      ({ c with connectionId := p.connectionId } : Conn).state ≠ QState.oneRttEncrypted) := by
    rcases hdr with h1 | h1
    · intro hx
      exact hx.1 h1
    · intro hx
      exact hx.2 h1
  rw [if_neg hlh]
  simp only [hsel]
  rw [if_neg (by simp [hauth])]
  rw [if_neg (by
    intro hx
    rw [List.isEmpty_iff.mp hx] at hany
    simp at hany)]
  simp only [herr]
  have hsa := receiveFrames_shouldAck h p.frames { c with connectionId := p.connectionId }
    false herr
  simp only [Bool.false_or] at hsa
  rw [hsa, if_pos hany]
  simp only [Option.isSome_some, if_true]

theorem quicly_receive_flag_mono (h : Host) (c : Conn) (p : DecodedPacket)
    (hflag : c.acksRequireEncryption = true) :
    (quicly_receive h c p).1.acksRequireEncryption = true := by
  unfold quicly_receive
  rw [if_neg (by simp)]
  by_cases hlh : ¬p.isLongHeader = true ∧
      ({ c with connectionId := p.connectionId } : Conn).state ≠ QState.oneRttEncrypted
  · rw [if_pos hlh]
    exact hflag
  · rw [if_neg hlh]
    rcases hsel : selectAead { c with connectionId := p.connectionId } p with e | _ | aead <;>
      simp only [hsel]
    · exact hflag
    · exact hflag
    · by_cases hauth : ¬p.authOk = true
      · rw [if_pos hauth]
        exact hflag
      · rw [if_neg hauth]
        by_cases hemp : p.frames.isEmpty = true
        · rw [if_pos hemp]
          exact hflag
        · rw [if_neg hemp]
          have hpre : (receiveFrames h { c with connectionId := p.connectionId } p.frames
              false).1.acksRequireEncryption = true :=
            (preservedR_flag (receiveFrames_preserved h p.frames _ false)).trans hflag
          rcases herr : (receiveFrames h { c with connectionId := p.connectionId } p.frames
              false).2.2.1 with _ | e <;> simp only [herr]
          · split
            · cases aead with
              | none =>
                simp only [Option.isSome_none, Bool.false_eq_true, if_false]
                exact hpre
              | some u => simp only [Option.isSome_some, if_true]
            · exact hpre
          · exact hpre

/-- C8: once required, ACKs stay out of cleartext.  Part (a): processing a
protected packet (AEAD selected, authenticated, non-empty frame list, no
handler error) that contains at least one non-ACK frame latches
`egress.acks_require_encryption`.  Part (b): once the latch is set,
`quicly_receive` never clears it.  Part (c): `quicly_send` never changes
it.  Part (d): while the latch is set, every packet produced by
`quicly_send` with a cleartext type (CLIENT_INITIAL, SERVER_CLEARTEXT or
CLIENT_CLEARTEXT) contains no ACK frame (quicly.c line 1302 skips
`send_ack` for the cleartext phase; the encrypted phase at lines 1320-1339
emits ACKs only into 1RTT_KEY_PHASE_0 packets). -/
theorem C8_acks_require_encryption (h : Host) (c : Conn) (p : DecodedPacket)
    (now0 : Int) (mp : Nat) :
    ((p.isLongHeader = true ∨
        ({ c with connectionId := p.connectionId } : Conn).state = QState.oneRttEncrypted) →
      selectAead { c with connectionId := p.connectionId } p =
        AeadChoice.proceed (some ()) →
      p.authOk = true →
      (receiveFrames h { c with connectionId := p.connectionId } p.frames
        false).2.2.1 = none →
      p.frames.any (fun f => !f.isAckFrame) = true →
      (quicly_receive h c p).1.acksRequireEncryption = true) ∧
    (c.acksRequireEncryption = true →
      (quicly_receive h c p).1.acksRequireEncryption = true) ∧
    ((quicly_send c now0 mp).1.acksRequireEncryption = c.acksRequireEncryption) ∧
    (c.acksRequireEncryption = true →
      ∀ pk ∈ (quicly_send c now0 mp).2.1, cleartextType pk.ptype → pk.ackFrames = 0) :=
  ⟨fun h1 h2 h3 h4 h5 => quicly_receive_sets_flag h c p h1 h2 h3 h4 h5,
   fun hf => quicly_receive_flag_mono h c p hf,
   quicly_send_flag c now0 mp,
   fun hf => quicly_send_caf c now0 mp hf⟩

/-- C8 witness: a protected key-phase-0 packet carrying a MAX_DATA frame
latches the flag on `c8recvConn`; on `c8sendConn` (flag latched, pending
ack range, pending crypto data) receive keeps the latch, send preserves
it, and every cleartext packet send produces carries no ACK frame. -/
theorem C8_witness :
    (quicly_receive quietHost c8recvConn c8packet).1.acksRequireEncryption = true ∧
    (quicly_receive quietHost c8sendConn c8packet).1.acksRequireEncryption = true ∧
    (quicly_send c8sendConn 0 3).1.acksRequireEncryption =
      c8sendConn.acksRequireEncryption ∧
    (∀ pk ∈ (quicly_send c8sendConn 0 3).2.1, cleartextType pk.ptype → pk.ackFrames = 0) :=
  ⟨(C8_acks_require_encryption quietHost c8recvConn c8packet 0 3).1
      (by decide) (by decide) (by decide) (by decide) (by decide),
   (C8_acks_require_encryption quietHost c8sendConn c8packet 0 3).2.1 (by decide),
   (C8_acks_require_encryption quietHost c8sendConn c8packet 0 3).2.2.1,
   (C8_acks_require_encryption quietHost c8sendConn c8packet 0 3).2.2.2 (by decide)⟩


theorem U64MAX_eq : U64MAX = 18446744073709551615 := by norm_num [U64MAX]

theorem sendFramesInner_done (c : Conn) (st : Stream) (s : SendCtx) (eo : Nat) :
    ∀ n, sendFramesInner c st s eo eo n = (c, st, s, eo, false) := by
  intro n
  cases n with
  | zero => rfl
  | succ m => simp [sendFramesInner]

theorem commit_send_packet_state (c : Conn) (s : SendCtx) :
    (commit_send_packet c s).1.state = c.state := by
  rcases h : s.target with _ | t <;> simp [commit_send_packet, h]

theorem prepare_packet_state (c : Conn) (s : SendCtx) (m : Nat) :
    (prepare_packet c s m).1.state = c.state := by
  rcases ht : s.target with _ | t
  · simp only [prepare_packet, ht]
    split <;> rfl
  · simp only [prepare_packet, ht]
    split
    · split
      · exact commit_send_packet_state _ _
      · exact commit_send_packet_state _ _
    · rfl

theorem send_stream_frame_state (c : Conn) (st : Stream) (s : SendCtx) (io mb : Nat) :
    (send_stream_frame c st s io mb).1.state = c.state := by
  simp only [send_stream_frame]
  rcases ht : (prepare_packet c s
      (1 + streamIdLength st.streamId + offsetLength io +
        (if io ≠ st.sendbuf.eos then 1 else 0))).2.target with _ | t
  · simp only [ht]
    exact prepare_packet_state _ _ _
  · simp only [ht]
    repeat' split
    all_goals exact prepare_packet_state _ _ _

theorem send_stream_frame_ctx (c : Conn) (st : Stream) (s : SendCtx) (io mb : Nat) :
    (send_stream_frame c st s io mb).1.ctx = c.ctx := by
  simp only [send_stream_frame]
  rcases ht : (prepare_packet c s
      (1 + streamIdLength st.streamId + offsetLength io +
        (if io ≠ st.sendbuf.eos then 1 else 0))).2.target with _ | t
  · simp only [ht]
    exact prepare_packet_ctx _ _ _
  · simp only [ht]
    repeat' split
    all_goals exact prepare_packet_ctx _ _ _

theorem send_stream_frame_stream (c : Conn) (st : Stream) (s : SendCtx) (io mb : Nat) :
    (send_stream_frame c st s io mb).2.1.streamId = st.streamId ∧
      (send_stream_frame c st s io mb).2.1.sendbuf.eos = st.sendbuf.eos := by
  simp only [send_stream_frame]
  rcases ht : (prepare_packet c s
      (1 + streamIdLength st.streamId + offsetLength io +
        (if io ≠ st.sendbuf.eos then 1 else 0))).2.target with _ | t
  · simp only [ht]
    exact ⟨by first | rfl | trivial, by first | rfl | trivial⟩
  · simp only [ht]
    constructor
    all_goals repeat' split
    all_goals first | rfl | trivial

theorem sendFramesInner_state : ∀ (fuel : Nat) (c : Conn) (st : Stream) (s : SendCtx)
    (io eo : Nat), (sendFramesInner c st s io eo fuel).1.state = c.state := by
  intro fuel
  induction fuel with
  | zero => intros; rfl
  | succ n ih =>
    intro c st s io eo
    simp only [sendFramesInner]
    split
    · split
      · exact send_stream_frame_state _ _ _ _ _
      · rw [ih]
        exact send_stream_frame_state _ _ _ _ _
    · rfl

theorem sendFramesRanges_state : ∀ (l : List (Nat × Nat)) (c : Conn) (st : Stream)
    (s : SendCtx) (msd io : Nat),
    (sendFramesRanges c st s msd io l).1.state = c.state := by
  intro l
  induction l with
  | nil => intros; rfl
  | cons hd tl ih =>
    intro c st s msd io
    rcases hd with ⟨a, b⟩
    simp only [sendFramesRanges]
    repeat' split
    all_goals first
      | rfl
      | exact sendFramesInner_state _ _ _ _ _ _
      | (rw [ih]; exact sendFramesInner_state _ _ _ _ _ _)

/-- One mid-flight STREAM-frame step (claim C4), the committed-packet
projection: the full CLIENT_INITIAL target is padded (a no-op, it is
already full) and committed. -/
theorem tail_step_packets (c : Conn) (st : Stream) (s : SendCtx) (off mb : Nat)
    (hsid : st.streamId = 0) (heos : st.sendbuf.eos = U64MAX)
    (hpt : s.packetType = PACKET_TYPE_CLIENT_INITIAL)
    (htgt : s.target = some ⟨PACKET_TYPE_CLIENT_INITIAL, 1272, 1272, 0⟩)
    (h1off : 1 ≤ off) (hsmall : off + mb ≤ 8192) (hmb : 1 ≤ mb) :
    (send_stream_frame c st s off mb).2.2.1.packets = s.packets ++ [clientInitialFull] ∧
      (send_stream_frame c st s off mb).2.2.1.numPackets = s.numPackets + 1 := by
  have hofl : offsetLength off = 2 := by
    unfold offsetLength
    rw [if_neg (by omega), if_pos (by omega)]
  have hid : streamIdLength 0 = 1 := by decide
  have hne : off ≠ U64MAX := by rw [U64MAX_eq]; omega
  have hneed : ((1272 : Nat) - 1272 < 1 + 1 + 2 + 1 ∨
      (PACKET_TYPE_CLIENT_INITIAL : Nat) ≠ PACKET_TYPE_CLIENT_INITIAL) := Or.inl (by decide)
  simp only [send_stream_frame, hsid, heos, hid, hofl, if_pos hne, prepare_packet, htgt,
    hpt, if_pos hneed, commit_send_packet, clientInitialFull]
  by_cases hP : s.maxPackets ≤ s.numPackets + 1
  · simp only [if_pos hP]
    exact ⟨by first | rfl | trivial, by first | rfl | trivial⟩
  · simp only [if_neg hP]
    exact ⟨by first | rfl | trivial, by first | rfl | trivial⟩

/-- One mid-flight STREAM-frame step (claim C4), the send-context
projection: either the packet vector is exhausted right after the commit
(the target stays NULL and the iterator does not move), or a fresh packet
is opened and `min 1251 mb` bytes are copied; when at least the full
`1251 = 1280 - 8 - 17 - 4` capacity is still pending the fresh packet is
again exactly full. -/
theorem tail_step_main (c : Conn) (st : Stream) (s : SendCtx) (off mb : Nat)
    (hctx : c.ctx.maxPacketSize = 1280) (hsid : st.streamId = 0)
    (heos : st.sendbuf.eos = U64MAX)
    (hpt : s.packetType = PACKET_TYPE_CLIENT_INITIAL) (haead : s.aead = none)
    (htgt : s.target = some ⟨PACKET_TYPE_CLIENT_INITIAL, 1272, 1272, 0⟩)
    (h1off : 1 ≤ off) (hsmall : off + mb ≤ 8192) (hmb : 1 ≤ mb) :
    (if s.maxPackets ≤ s.numPackets + 1 then
      (send_stream_frame c st s off mb).2.2.1.target = none ∧
        (send_stream_frame c st s off mb).2.2.2 = off
    else
      (send_stream_frame c st s off mb).2.2.2 = off + min 1251 mb ∧
        (if 1251 ≤ mb then
          (send_stream_frame c st s off mb).2.2.1.target =
            some ⟨PACKET_TYPE_CLIENT_INITIAL, 1272, 1272, 0⟩
        else ∃ d, (send_stream_frame c st s off mb).2.2.1.target =
          some ⟨PACKET_TYPE_CLIENT_INITIAL, d, 1272, 0⟩)) := by
  have hofl : offsetLength off = 2 := by
    unfold offsetLength
    rw [if_neg (by omega), if_pos (by omega)]
  have hid : streamIdLength 0 = 1 := by decide
  have hne : off ≠ U64MAX := by rw [U64MAX_eq]; omega
  have havail : ¬(U64MAX < off + mb) := by rw [U64MAX_eq]; omega
  have hneed : ((1272 : Nat) - 1272 < 1 + 1 + 2 + 1 ∨
      (PACKET_TYPE_CLIENT_INITIAL : Nat) ≠ PACKET_TYPE_CLIENT_INITIAL) := Or.inl (by decide)
  simp only [send_stream_frame, hsid, heos, hid, hofl, if_pos hne, prepare_packet, htgt,
    if_pos hneed, commit_send_packet, newTarget, hpt, haead, hctx, Option.isSome_none,
    Bool.false_eq_true, if_false, if_neg havail, Nat.sub_zero]
  by_cases hP : s.maxPackets ≤ s.numPackets + 1
  · simp only [if_pos hP]
    exact ⟨by first | rfl | trivial, by first | rfl | trivial⟩
  · simp only [if_neg hP]
    by_cases hbig : (1251 : Nat) ≤ mb
    · have hbig2 : (1280 : Nat) - 8 - 17 - (1 + 1 + 2) ≤ mb := by omega
      have hlen : ¬((1280 : Nat) - 8 - 17 - (1 + 1 + 2) + 2 <
          1280 - 8 - 17 - (1 + 1 + 2)) := by omega
      have hhop : ¬(off + (1280 - 8 - 17 - (1 + 1 + 2)) = U64MAX) := by
        rw [U64MAX_eq]; omega
      simp only [if_pos hbig, if_pos hbig2, if_neg hlen, if_neg hhop]
      constructor
      · have hm := Nat.min_eq_left hbig
        omega
      · decide
    · have hbig2 : ¬((1280 : Nat) - 8 - 17 - (1 + 1 + 2) ≤ mb) := by omega
      have hhop : ¬(off + mb = U64MAX) := by rw [U64MAX_eq]; omega
      simp only [if_neg hbig, if_neg hbig2, if_neg hhop]
      constructor
      · have hm := Nat.min_eq_right (show mb ≤ 1251 from by omega)
        omega
      · exact ⟨_, rfl⟩

/-- The first STREAM-frame step of a fresh CLIENT_INITIAL flight (claim
C4), committed-packet projection: nothing is committed (the vector is
empty or a fresh packet is opened). -/
theorem head_step_packets (c : Conn) (st : Stream) (s : SendCtx) (mb : Nat)
    (hsid : st.streamId = 0) (heos : st.sendbuf.eos = U64MAX) (htgt : s.target = none)
    (hsmall : mb ≤ 8192) (hmb : 1 ≤ mb) :
    (send_stream_frame c st s 0 mb).2.2.1.packets = s.packets ∧
      (send_stream_frame c st s 0 mb).2.2.1.numPackets = s.numPackets := by
  have hofl : offsetLength 0 = 0 := by decide
  have hid : streamIdLength 0 = 1 := by decide
  have hne : (0 : Nat) ≠ U64MAX := by rw [U64MAX_eq]; omega
  simp only [send_stream_frame, hsid, heos, hid, hofl, if_pos hne, prepare_packet, htgt]
  by_cases hP : s.maxPackets ≤ s.numPackets
  · simp only [if_pos hP, htgt]
    exact ⟨by first | rfl | trivial, by first | rfl | trivial⟩
  · simp only [if_neg hP]
    exact ⟨by first | rfl | trivial, by first | rfl | trivial⟩

/-- The first STREAM-frame step of a fresh CLIENT_INITIAL flight (claim
C4), send-context projection: with an empty vector nothing happens;
otherwise the first packet is opened and `min 1253 mb` bytes are copied,
where `1253 = 1280 - 8 - 17 - 2` (1-byte stream id, no offset field at
offset 0); with `1253 ≤ mb` the packet comes out exactly full. -/
theorem head_step_main (c : Conn) (st : Stream) (s : SendCtx) (mb : Nat)
    (hctx : c.ctx.maxPacketSize = 1280) (hsid : st.streamId = 0)
    (heos : st.sendbuf.eos = U64MAX)
    (hpt : s.packetType = PACKET_TYPE_CLIENT_INITIAL) (haead : s.aead = none)
    (htgt : s.target = none) (hsmall : mb ≤ 8192) (hmb : 1 ≤ mb) :
    (if s.maxPackets ≤ s.numPackets then
      (send_stream_frame c st s 0 mb).2.2.1 = s ∧
        (send_stream_frame c st s 0 mb).2.2.2 = 0
    else
      (send_stream_frame c st s 0 mb).2.2.2 = min 1253 mb ∧
        (if 1253 ≤ mb then
          (send_stream_frame c st s 0 mb).2.2.1.target =
            some ⟨PACKET_TYPE_CLIENT_INITIAL, 1272, 1272, 0⟩
        else ∃ d, (send_stream_frame c st s 0 mb).2.2.1.target =
          some ⟨PACKET_TYPE_CLIENT_INITIAL, d, 1272, 0⟩)) := by
  have hofl : offsetLength 0 = 0 := by decide
  have hid : streamIdLength 0 = 1 := by decide
  have hne : (0 : Nat) ≠ U64MAX := by rw [U64MAX_eq]; omega
  have havail : ¬(U64MAX < 0 + mb) := by rw [U64MAX_eq]; omega
  simp only [send_stream_frame, hsid, heos, hid, hofl, if_pos hne, prepare_packet, htgt,
    newTarget, hpt, haead, hctx, Option.isSome_none, Bool.false_eq_true, if_false,
    if_neg havail, Nat.sub_zero]
  by_cases hP : s.maxPackets ≤ s.numPackets
  · simp only [if_pos hP, htgt]
    exact ⟨by first | rfl | trivial, by first | rfl | trivial⟩
  · simp only [if_neg hP]
    by_cases hbig : (1253 : Nat) ≤ mb
    · have hbig2 : (1280 : Nat) - 8 - 17 - (1 + 1 + 0) ≤ mb := by omega
      have hlen : ¬((1280 : Nat) - 8 - 17 - (1 + 1 + 0) + 2 <
          1280 - 8 - 17 - (1 + 1 + 0)) := by omega
      have hhop : ¬((0 : Nat) + (1280 - 8 - 17 - (1 + 1 + 0)) = U64MAX) := by
        rw [U64MAX_eq]; omega
      simp only [if_pos hbig, if_pos hbig2, if_neg hlen, if_neg hhop]
      constructor
      · have hm := Nat.min_eq_left hbig
        omega
      · decide
    · have hbig2 : ¬((1280 : Nat) - 8 - 17 - (1 + 1 + 0) ≤ mb) := by omega
      have hhop : ¬((0 : Nat) + mb = U64MAX) := by rw [U64MAX_eq]; omega
      simp only [if_neg hbig, if_neg hbig2, if_neg hhop]
      constructor
      · have hm := Nat.min_eq_right (show mb ≤ 1253 from by omega)
        omega
      · exact ⟨_, rfl⟩

/-- The mid-flight invariant of a CLIENT_INITIAL first flight (claim C4):
starting from a full open packet with `endC - off` bytes still pending,
the while loop of `send_stream_frames` commits one full 1272-byte packet
per 1251 pending bytes.  With `T = ceil((endC - off) / 1251)` follow-up
packets needed: if the packet vector cannot hold them all, the loop stops
with the vector full of exactly full packets and the NULL-target flag set;
otherwise it drains the range, leaving `T` more committed full packets
and a partial open target. -/
theorem flightTail : ∀ (fuel : Nat) (c : Conn) (st : Stream) (s : SendCtx) (off endC : Nat),
    c.ctx.maxPacketSize = 1280 → st.streamId = 0 → st.sendbuf.eos = U64MAX →
    s.packetType = PACKET_TYPE_CLIENT_INITIAL → s.aead = none →
    s.target = some ⟨PACKET_TYPE_CLIENT_INITIAL, 1272, 1272, 0⟩ →
    s.numPackets < s.maxPackets →
    1 ≤ off → off < endC → endC ≤ 8192 → endC - off + 1 ≤ fuel →
    (if s.maxPackets - s.numPackets ≤ (endC - off + 1250) / 1251 then
      (sendFramesInner c st s off endC fuel).2.2.1.packets =
          s.packets ++ List.replicate (s.maxPackets - s.numPackets) clientInitialFull ∧
        (sendFramesInner c st s off endC fuel).2.2.1.numPackets = s.maxPackets ∧
        (sendFramesInner c st s off endC fuel).2.2.1.target = none ∧
        (sendFramesInner c st s off endC fuel).2.2.2.2 = true
    else
      (sendFramesInner c st s off endC fuel).2.2.1.packets =
          s.packets ++ List.replicate ((endC - off + 1250) / 1251) clientInitialFull ∧
        (sendFramesInner c st s off endC fuel).2.2.1.numPackets =
          s.numPackets + (endC - off + 1250) / 1251 ∧
        (∃ d, (sendFramesInner c st s off endC fuel).2.2.1.target =
          some ⟨PACKET_TYPE_CLIENT_INITIAL, d, 1272, 0⟩) ∧
        (sendFramesInner c st s off endC fuel).2.2.2.2 = false ∧
        (sendFramesInner c st s off endC fuel).2.2.2.1 = endC) := by
  intro fuel
  induction fuel with
  | zero =>
    intro c st s off endC _ _ _ _ _ _ _ _ hoe _ hfuel
    exact absurd hfuel (by omega)
  | succ n ih =>
    intro c st s off endC hctx hsid heos hpt haead htgt hnp h1off hoe hend hfuel
    have hframe := tail_step_main c st s off (endC - off) hctx hsid heos hpt haead htgt
      h1off (by omega) (by omega)
    have hpk := tail_step_packets c st s off (endC - off) hsid heos hpt htgt h1off
      (by omega) (by omega)
    have hcx := send_stream_frame_ctx c st s off (endC - off)
    have hstm := send_stream_frame_stream c st s off (endC - off)
    have hcfg := send_stream_frame_cfg c st s off (endC - off)
    simp only [sendFramesInner, if_pos hoe]
    by_cases hP : s.maxPackets ≤ s.numPackets + 1
    · rw [if_pos hP] at hframe
      have hnone : (send_stream_frame c st s off (endC - off)).2.2.1.target.isNone = true := by
        rw [hframe.1]
        rfl
      rw [if_pos (show s.maxPackets - s.numPackets ≤ (endC - off + 1250) / 1251 from
        by omega)]
      simp only [if_pos hnone]
      refine ⟨?_, ?_, ?_, by first | rfl | trivial⟩
      · simp only [hpk.1]
        rw [show s.maxPackets - s.numPackets = 1 from by omega, List.replicate_one]
      · simp only [hpk.2]
        omega
      · simp only [hframe.1]
    · rw [if_neg hP] at hframe
      have hsome : (send_stream_frame c st s off (endC - off)).2.2.1.target.isNone = false := by
        rcases ht2 : (send_stream_frame c st s off (endC - off)).2.2.1.target with _ | t
        · exfalso
          have h2 := hframe.2
          rcases le_or_lt 1251 (endC - off) with hc | hc
          · rw [if_pos hc, ht2] at h2
            exact Option.noConfusion h2
          · rw [if_neg (by omega)] at h2
            rcases h2 with ⟨d, hd⟩
            rw [ht2] at hd
            exact Option.noConfusion hd
        · rfl
      simp only [hsome, Bool.false_eq_true, if_false]
      by_cases hprog : 1251 < endC - off
      · have hoff2 : (send_stream_frame c st s off (endC - off)).2.2.2 = off + 1251 := by
          rw [hframe.1, Nat.min_eq_left (by omega)]
        have htg2 : (send_stream_frame c st s off (endC - off)).2.2.1.target =
            some ⟨PACKET_TYPE_CLIENT_INITIAL, 1272, 1272, 0⟩ := by
          have h2 := hframe.2
          rw [if_pos (show (1251 : Nat) ≤ endC - off from by omega)] at h2
          exact h2
        simp only [hoff2]
        have happ := ih (send_stream_frame c st s off (endC - off)).1
          (send_stream_frame c st s off (endC - off)).2.1
          (send_stream_frame c st s off (endC - off)).2.2.1
          (off + 1251) endC
          (by rw [hcx]; exact hctx)
          (by rw [hstm.1]; exact hsid)
          (by rw [hstm.2]; exact heos)
          (by rw [hcfg.1]; exact hpt)
          (by rw [hcfg.2.1]; exact haead)
          htg2
          (by rw [hpk.2, hcfg.2.2.1]; omega)
          (by omega) (by omega) hend (by omega)
        rw [hpk.1, hpk.2, hcfg.2.2.1] at happ
        by_cases hPT : s.maxPackets - s.numPackets ≤ (endC - off + 1250) / 1251
        · rw [if_pos hPT]
          rw [if_pos (show s.maxPackets - (s.numPackets + 1) ≤
            (endC - (off + 1251) + 1250) / 1251 from by omega)] at happ
          refine ⟨?_, happ.2.1, happ.2.2.1, happ.2.2.2⟩
          rw [happ.1, List.append_assoc]
          congr 1
          rw [show s.maxPackets - s.numPackets = (s.maxPackets - (s.numPackets + 1)) + 1 from
            by omega, List.replicate_succ, List.singleton_append]
        · rw [if_neg hPT]
          rw [if_neg (show ¬(s.maxPackets - (s.numPackets + 1) ≤
            (endC - (off + 1251) + 1250) / 1251) from by omega)] at happ
          refine ⟨?_, ?_, happ.2.2.1, happ.2.2.2.1, happ.2.2.2.2⟩
          · rw [happ.1, List.append_assoc]
            congr 1
            rw [show (endC - off + 1250) / 1251 =
              ((endC - (off + 1251) + 1250) / 1251) + 1 from by omega,
              List.replicate_succ, List.singleton_append]
          · rw [happ.2.1]
            omega
      · have hoff2 : (send_stream_frame c st s off (endC - off)).2.2.2 = endC := by
          rw [hframe.1, Nat.min_eq_right (by omega)]
          omega
        simp only [hoff2]
        rw [sendFramesInner_done]
        rw [if_neg (show ¬(s.maxPackets - s.numPackets ≤ (endC - off + 1250) / 1251) from
          by omega)]
        refine ⟨?_, ?_, ?_, by first | rfl | trivial, by first | rfl | trivial⟩
        · simp only [hpk.1]
          rw [show (endC - off + 1250) / 1251 = 1 from by omega, List.replicate_one]
        · simp only [hpk.2]
          omega
        · rcases le_or_lt 1251 (endC - off) with hc | hc
          · have h2 := hframe.2
            rw [if_pos hc] at h2
            exact ⟨1272, h2⟩
          · have h2 := hframe.2
            rw [if_neg (by omega)] at h2
            exact h2

theorem sendFramesRanges_cfg : ∀ (l : List (Nat × Nat)) (c : Conn) (st : Stream)
    (s : SendCtx) (msd io : Nat), SameCfg (sendFramesRanges c st s msd io l).2.2.1 s := by
  intro l
  induction l with
  | nil => intros; exact sameCfg_rfl
  | cons hd tl ih =>
    intro c st s msd io
    rcases hd with ⟨a, b⟩
    simp only [sendFramesRanges]
    repeat' split
    all_goals first
      | exact sameCfg_rfl
      | exact sendFramesInner_cfg _ _ _ _ _ _
      | exact sameCfg_trans (ih _ _ _ _ _) (sendFramesInner_cfg _ _ _ _ _ _)

theorem send_stream_frames_cfg (c : Conn) (st : Stream) (s : SendCtx) :
    SameCfg (send_stream_frames c st s).2 s := by
  simp only [send_stream_frames]
  exact sendFramesRanges_cfg _ _ _ _ _ _

theorem send_stream_frames_state (c : Conn) (st : Stream) (s : SendCtx) :
    (send_stream_frames c st s).1.state = c.state := by
  simp only [send_stream_frames]
  exact ((setStream_preserved _ _).2.2.1).trans (sendFramesRanges_state _ _ _ _ _ _)

/-- Result projection of `quicly_send_finalize` below the 1-RTT state: the
partial CLIENT_INITIAL either triggers `handshake-too-large` (other
packets already committed) or is padded to 1272 bytes and committed; the
encrypted phase is skipped. -/
theorem finalize_proj (r : Conn × SendCtx)
    (hst : r.1.state ≠ QState.oneRttEncrypted)
    (hpt : (r.2).packetType = PACKET_TYPE_CLIENT_INITIAL) :
    (quicly_send_finalize r).2 =
      match (r.2).target with
      | some t =>
        if (r.2).numPackets ≠ 0 then ((r.2).packets, some Err.handshakeTooLarge)
        else ((r.2).packets ++ [⟨t.ptype, 1272, t.ackFrames⟩], none)
      | none => ((r.2).packets, none) := by
  simp only [quicly_send_finalize]
  rcases ht : (r.2).target with _ | t <;> simp only [ht]
  · simp only [quicly_send_phase2, if_neg hst]
  · rw [if_pos hpt]
    by_cases hnz : (r.2).numPackets ≠ 0
    · simp only [if_pos hnz]
    · simp only [if_neg hnz]
      simp only [commit_send_packet, quicly_send_phase2, if_neg hst]

theorem c4_shouldUpdate (L : Nat) :
    (c4stream L).maxStreamDataSender.shouldUpdate
      (c4stream L).recvbuf.dataOff (c4stream L).window 512 = false := by
  simp [Maxsender.shouldUpdate, c4stream, Maxsender.init, Recvbuf.init]

/-- `send_stream` on the fresh crypto stream takes none of its early
branches (nothing to destroy, no STOP_SENDING, no RST, no MAX_STREAM_DATA
update due) and falls through to `send_stream_frames`. -/
theorem c4_send_stream (L mp : Nat) :
    send_stream (c4conn L) (c4stream L) (c4ctx mp) =
      send_stream_frames (c4conn L) (c4stream L) (c4ctx mp) := by
  simp only [send_stream]
  rw [show destroy_stream_if_unneeded (c4conn L) (c4stream L) = ((c4conn L), false) from rfl]
  simp only [Bool.false_eq_true, if_false]
  rw [if_neg (show ¬((c4stream L).stopSending.senderState = SenderState.stateSend) from by
    rw [show (c4stream L).stopSending.senderState = SenderState.stateNone from rfl]
    intro h
    exact SenderState.noConfusion h)]
  simp only [sendStreamAfterStop]
  rw [if_neg (show ¬((c4stream L).rst.senderState = SenderState.stateSend) from by
    rw [show (c4stream L).rst.senderState = SenderState.stateNone from rfl]
    intro h
    exact SenderState.noConfusion h)]
  simp only [sendStreamData, c4_shouldUpdate, Bool.false_eq_true, if_false]

/-- On the fresh crypto stream, `send_stream_frames` computes
`max_stream_data = 8192` (window not clamped, EOS unset) and drains the
single pending range from offset 0. -/
theorem c4_frames_unfold (L mp : Nat) :
    (send_stream_frames (c4conn L) (c4stream L) (c4ctx mp)).2 =
      (sendFramesRanges (c4conn L) (c4stream L) (c4ctx mp) 8192 0 [(0, L)]).2.2.1 := by
  have h1 : (c4stream L).sendbuf.eos = U64MAX := rfl
  have h2 : (c4stream L).maxSent = 0 := rfl
  have h3 : (c4stream L).maxStreamData = 8192 := rfl
  have h4 : (c4stream L).streamId = 0 := rfl
  have h5 : (c4stream L).sendbuf.dataOff = 0 := rfl
  have h6 : (c4stream L).sendbuf.pending = [(0, L)] := rfl
  simp only [send_stream_frames, h1, h2, h3, h4, h5, h6]
  rw [if_neg (show ¬(U64MAX ≤ 0 + 1) from by rw [U64MAX_eq]; omega)]
  rw [if_neg (show ¬((0 : Nat) ≠ 0 ∧
    (c4conn L).maxDataPermitted - (c4conn L).maxDataSent < 8192 - 0) from by omega)]
  rw [if_neg (show ¬((0 : Nat) + (8192 - 0) = U64MAX) from by rw [U64MAX_eq]; omega)]

/-- The range loop starts at the single pending range `[0, L)`, clips it
to the 8192-byte window and enters the per-range iterator; all exits
return the iterator's send context unchanged. -/
theorem c4_ranges_unfold (L mp : Nat) :
    (sendFramesRanges (c4conn L) (c4stream L) (c4ctx mp) 8192 0 [(0, L)]).2.2.1 =
      (sendFramesInner (c4conn L) (c4stream L) (c4ctx mp) 0
        (if 8192 < L then 8192 else L) ((if 8192 < L then 8192 else L) - 0 + 1)).2.2.1 := by
  simp only [sendFramesRanges]
  rw [if_neg (show ¬((8192 : Nat) ≤ 0) from by omega)]
  rw [if_neg (show ¬((0 : Nat) ≠ 0) from by omega)]
  repeat' split
  all_goals first | rfl | simp only [sendFramesRanges]

/-- Full evaluation of a CLIENT_INITIAL first flight (claim C4): with `L`
pending handshake bytes and a packet vector of capacity `mp`, writing
`k = flightPackets (min L 8192)` for the greedy packet count of the flight
clipped by the 8192-byte stream window, `quicly_send` fails with
`handshake-too-large` exactly when `2 ≤ k ≤ mp`, committing the `k - 1`
full packets; otherwise it succeeds with `min k mp` packets, every one of
them a full 1272-byte CLIENT_INITIAL. -/
theorem c4_send_eval (L mp : Nat) (hL : 1 ≤ L) :
    (quicly_send (c4conn L) 0 mp).2 =
      if 2 ≤ flightPackets (min L 8192) ∧ flightPackets (min L 8192) ≤ mp then
        (List.replicate (flightPackets (min L 8192) - 1) clientInitialFull,
         some Err.handshakeTooLarge)
      else (List.replicate (min (flightPackets (min L 8192)) mp) clientInitialFull,
            none) := by
  have hF1 : 1 ≤ min L 8192 := by omega
  have hF2 : min L 8192 ≤ 8192 := by omega
  have hk1 : 1 ≤ flightPackets (min L 8192) := by
    unfold flightPackets
    split <;> omega
  have hred : quicly_send (c4conn L) 0 mp =
      quicly_send_finalize (send_stream (c4conn L) (c4stream L) (c4ctx mp)) := rfl
  have hst2 : (send_stream_frames (c4conn L) (c4stream L) (c4ctx mp)).1.state ≠
      QState.oneRttEncrypted := by
    rw [send_stream_frames_state]
    intro hx
    exact QState.noConfusion (show QState.beforeSH = QState.oneRttEncrypted from hx)
  have hpt2 : (send_stream_frames (c4conn L) (c4stream L) (c4ctx mp)).2.packetType =
      PACKET_TYPE_CLIENT_INITIAL :=
    (send_stream_frames_cfg _ _ _).1
  have hfin := finalize_proj (send_stream_frames (c4conn L) (c4stream L) (c4ctx mp))
    hst2 hpt2
  rw [hred, c4_send_stream, hfin]
  rw [c4_frames_unfold, c4_ranges_unfold]
  rw [show (if (8192 : Nat) < L then 8192 else L) = min L 8192 from by split <;> omega]
  simp only [Nat.sub_zero]
  simp only [sendFramesInner, Nat.sub_zero, if_pos (show 0 < min L 8192 from by omega)]
  have hh := head_step_main (c4conn L) (c4stream L) (c4ctx mp) (min L 8192)
    rfl rfl rfl rfl rfl rfl hF2 hF1
  have hhp := head_step_packets (c4conn L) (c4stream L) (c4ctx mp) (min L 8192)
    rfl rfl rfl hF2 hF1
  have hcf := send_stream_frame_cfg (c4conn L) (c4stream L) (c4ctx mp) 0 (min L 8192)
  have hcx := send_stream_frame_ctx (c4conn L) (c4stream L) (c4ctx mp) 0 (min L 8192)
  have hstm := send_stream_frame_stream (c4conn L) (c4stream L) (c4ctx mp) 0 (min L 8192)
  by_cases hmp : mp = 0
  · subst hmp
    rw [if_pos (show (c4ctx 0).maxPackets ≤ (c4ctx 0).numPackets from by
      simp [c4ctx])] at hh
    have hnone : (send_stream_frame (c4conn L) (c4stream L) (c4ctx 0) 0
        (min L 8192)).2.2.1.target.isNone = true := by
      rw [hh.1]
      rfl
    simp only [if_pos hnone]
    rw [hh.1]
    rw [if_neg (show ¬(2 ≤ flightPackets (min L 8192) ∧ flightPackets (min L 8192) ≤ 0)
      from by omega)]
    simp [c4ctx, Nat.min_zero]
  · rw [if_neg (show ¬((c4ctx mp).maxPackets ≤ (c4ctx mp).numPackets) from by
      simp [c4ctx]; omega)] at hh
    by_cases hsm : min L 8192 ≤ 1253
    · have hex : ∃ d, (send_stream_frame (c4conn L) (c4stream L) (c4ctx mp) 0
          (min L 8192)).2.2.1.target = some ⟨PACKET_TYPE_CLIENT_INITIAL, d, 1272, 0⟩ := by
        rcases le_or_lt 1253 (min L 8192) with hc | hc
        · refine ⟨1272, ?_⟩
          have h2 := hh.2
          rwa [if_pos hc] at h2
        · have h2 := hh.2
          rwa [if_neg (by omega)] at h2
      rcases hex with ⟨d, hd⟩
      have hnone : (send_stream_frame (c4conn L) (c4stream L) (c4ctx mp) 0
          (min L 8192)).2.2.1.target.isNone = false := by
        rw [hd]
        rfl
      have hoff : (send_stream_frame (c4conn L) (c4stream L) (c4ctx mp) 0
          (min L 8192)).2.2.2 = min L 8192 := by
        rw [hh.1]
        exact Nat.min_eq_right (by omega)
      simp only [hnone, Bool.false_eq_true, if_false, hoff]
      rw [sendFramesInner_done]
      simp only [hd]
      rw [if_neg (show ¬((send_stream_frame (c4conn L) (c4stream L) (c4ctx mp) 0
          (min L 8192)).2.2.1.numPackets ≠ 0) from by
        rw [hhp.2]
        simp [c4ctx])]
      rw [hhp.1]
      have hk : flightPackets (min L 8192) = 1 := by
        unfold flightPackets
        rw [if_pos hsm]
      rw [hk]
      rw [if_neg (by omega)]
      rw [Nat.min_eq_left (show (1 : Nat) ≤ mp from by omega)]
      simp [c4ctx, clientInitialFull]
    · have htf : (send_stream_frame (c4conn L) (c4stream L) (c4ctx mp) 0
          (min L 8192)).2.2.1.target =
          some ⟨PACKET_TYPE_CLIENT_INITIAL, 1272, 1272, 0⟩ := by
        have h2 := hh.2
        rwa [if_pos (by omega)] at h2
      have hoff : (send_stream_frame (c4conn L) (c4stream L) (c4ctx mp) 0
          (min L 8192)).2.2.2 = 1253 := by
        rw [hh.1]
        exact Nat.min_eq_left (by omega)
      have hnone : (send_stream_frame (c4conn L) (c4stream L) (c4ctx mp) 0
          (min L 8192)).2.2.1.target.isNone = false := by
        rw [htf]
        rfl
      simp only [hnone, Bool.false_eq_true, if_false, hoff]
      have hft := flightTail (min L 8192)
        (send_stream_frame (c4conn L) (c4stream L) (c4ctx mp) 0 (min L 8192)).1
        (send_stream_frame (c4conn L) (c4stream L) (c4ctx mp) 0 (min L 8192)).2.1
        (send_stream_frame (c4conn L) (c4stream L) (c4ctx mp) 0 (min L 8192)).2.2.1
        1253 (min L 8192)
        (by rw [hcx]; rfl)
        (by rw [hstm.1]; rfl)
        (by rw [hstm.2]; rfl)
        (by rw [hcf.1]; rfl)
        (by rw [hcf.2.1]; rfl)
        htf
        (by rw [hhp.2, hcf.2.2.1]; simp only [c4ctx]; omega)
        (by omega) (by omega) hF2 (by omega)
      rw [hhp.1, hhp.2, hcf.2.2.1] at hft
      rw [show (c4ctx mp).packets = [] from rfl, show (c4ctx mp).numPackets = 0 from rfl,
        show (c4ctx mp).maxPackets = mp from rfl] at hft
      simp only [Nat.sub_zero] at hft
      have hk : flightPackets (min L 8192) = 1 + (min L 8192 - 1253 + 1250) / 1251 := by
        unfold flightPackets
        rw [if_neg (by omega)]
      by_cases hPT : mp ≤ (min L 8192 - 1253 + 1250) / 1251
      · rw [if_pos hPT] at hft
        rcases hft with ⟨hp1, hp2, hp3, hp4⟩
        simp only [hp3]
        rw [hp1]
        rw [hk]
        rw [if_neg (by omega)]
        rw [Nat.min_eq_right (by omega)]
        simp
      · rw [if_neg hPT] at hft
        rcases hft with ⟨hp1, hp2, hp3, hp4, hp5⟩
        rcases hp3 with ⟨d, hd⟩
        simp only [hd]
        rw [if_pos (show (sendFramesInner
            (send_stream_frame (c4conn L) (c4stream L) (c4ctx mp) 0 (min L 8192)).1
            (send_stream_frame (c4conn L) (c4stream L) (c4ctx mp) 0 (min L 8192)).2.1
            (send_stream_frame (c4conn L) (c4stream L) (c4ctx mp) 0 (min L 8192)).2.2.1
            1253 (min L 8192) (min L 8192)).2.2.1.numPackets ≠ 0 from by
          rw [hp2]
          omega)]
        rw [hp1]
        rw [hk]
        rw [if_pos ⟨by omega, by omega⟩]
        rw [show (1 + (min L 8192 - 1253 + 1250) / 1251) - 1 =
          (min L 8192 - 1253 + 1250) / 1251 from by omega]
        simp

/-- C4 counterexample: a 2600-byte ClientHello with a 2-slot packet vector.
The flight needs 3 CLIENT_INITIAL packets, yet `quicly_send` succeeds
(returns 0) with 2 committed packets: the `num_packets >= max_packets`
exit of `prepare_packet` (quicly.c lines 1001-1002) leaves the target NULL,
so the handshake-too-large check at lines 1310-1311 (which only fires on a
partial packet) is bypassed — contradicting both "at most one packet" and
"fails if more than one would be required". -/
theorem C4_counterexample :
    (quicly_send (c4conn 2600) 0 2).2.2 = none ∧
    (quicly_send (c4conn 2600) 0 2).2.1.length = 2 := by
  decide

/-- C4: the CLIENT_INITIAL first-flight behaviour of `quicly_send` for a
client in state BEFORE_SH with an `L`-byte ClientHello (1 ≤ L) and a
packet vector of capacity `mp`.  Every packet produced is a
CLIENT_INITIAL padded to exactly 1272 payload bytes before the 8-byte
FNV-1a-64 tag (and carries no ACK frames) — this part of the claim holds.
But "at most one packet, else handshake-too-large" does not: writing
`k = flightPackets (min L 8192)` for the packets the flight needs (the
stream window clips the flight to 8192 bytes), `quicly_send` fails with
handshake-too-large exactly when `2 ≤ k ∧ k ≤ mp`; when the packet vector
is exhausted first (`mp < k`, quicly.c lines 1001-1002) it instead
succeeds with `min k mp` full packets. -/
theorem C4_client_initial_flight (L mp : Nat) (hL : 1 ≤ L) :
    (∀ pk ∈ (quicly_send (c4conn L) 0 mp).2.1,
      pk.ptype = PACKET_TYPE_CLIENT_INITIAL ∧ pk.lenBeforeTag = 1272 ∧ pk.ackFrames = 0) ∧
    ((quicly_send (c4conn L) 0 mp).2.2 = some Err.handshakeTooLarge ↔
      2 ≤ flightPackets (min L 8192) ∧ flightPackets (min L 8192) ≤ mp) ∧
    ((quicly_send (c4conn L) 0 mp).2.2 = none →
      (quicly_send (c4conn L) 0 mp).2.1.length = min (flightPackets (min L 8192)) mp) ∧
    ((quicly_send (c4conn L) 0 mp).2.2 = none ∨
      (quicly_send (c4conn L) 0 mp).2.2 = some Err.handshakeTooLarge) := by
  have he := c4_send_eval L mp hL
  by_cases hc : 2 ≤ flightPackets (min L 8192) ∧ flightPackets (min L 8192) ≤ mp
  · rw [if_pos hc] at he
    have hp : (quicly_send (c4conn L) 0 mp).2.1 =
        List.replicate (flightPackets (min L 8192) - 1) clientInitialFull := by
      rw [he]
    have herr : (quicly_send (c4conn L) 0 mp).2.2 = some Err.handshakeTooLarge := by
      rw [he]
    refine ⟨?_, ⟨fun _ => hc, fun _ => herr⟩, ?_, Or.inr herr⟩
    · intro pk hpk
      rw [hp] at hpk
      rw [List.eq_of_mem_replicate hpk]
      exact ⟨rfl, rfl, rfl⟩
    · intro h0
      rw [herr] at h0
      exact Option.noConfusion h0
  · rw [if_neg hc] at he
    have hp : (quicly_send (c4conn L) 0 mp).2.1 =
        List.replicate (min (flightPackets (min L 8192)) mp) clientInitialFull := by
      rw [he]
    have herr : (quicly_send (c4conn L) 0 mp).2.2 = none := by
      rw [he]
    refine ⟨?_, ⟨?_, fun hx => absurd hx hc⟩, ?_, Or.inl herr⟩
    · intro pk hpk
      rw [hp] at hpk
      rw [List.eq_of_mem_replicate hpk]
      exact ⟨rfl, rfl, rfl⟩
    · intro hx
      rw [herr] at hx
      exact Option.noConfusion hx
    · intro _
      rw [hp, List.length_replicate]

/-- C4 witness: a 2600-byte ClientHello with a 5-slot packet vector needs
`flightPackets 2600 = 3` packets, which fit, so `quicly_send` fails with
handshake-too-large, having committed the 2 full packets; every committed
packet is a full 1272-byte CLIENT_INITIAL. -/
theorem C4_witness :
    1 ≤ 2600 ∧
    ((∀ pk ∈ (quicly_send (c4conn 2600) 0 5).2.1,
      pk.ptype = PACKET_TYPE_CLIENT_INITIAL ∧ pk.lenBeforeTag = 1272 ∧ pk.ackFrames = 0) ∧
    ((quicly_send (c4conn 2600) 0 5).2.2 = some Err.handshakeTooLarge ↔
      2 ≤ flightPackets (min 2600 8192) ∧ flightPackets (min 2600 8192) ≤ 5) ∧
    ((quicly_send (c4conn 2600) 0 5).2.2 = none →
      (quicly_send (c4conn 2600) 0 5).2.1.length = min (flightPackets (min 2600 8192)) 5) ∧
    ((quicly_send (c4conn 2600) 0 5).2.2 = none ∨
      (quicly_send (c4conn 2600) 0 5).2.2 = some Err.handshakeTooLarge)) :=
  ⟨by decide, C4_client_initial_flight 2600 5 (by decide)⟩

end Quicly
